import Mathlib

/-! # The V8 abstract syntax tree (`libs/v8/src/ast.h`)

A shallow embedding of the AST node hierarchy, the compiler-id allocator, the
node factory and the regular-expression tree of `ast.h`, followed by the
properties proved about them.

Conventions of the embedding.

* A C++ `int` is an `Int` in the range `kMinInt .. kMaxInt`; every arithmetic
  operation of the source on `int` is followed by `wrapInt`, the two's
  complement wrap-around to 32 bits.
* The isolate's id counter is explicit state (`Isolate`), threaded through the
  constructors.
* `ASSERT`/`CHECK` are modelled as enabled: a failed check aborts the
  construction, which is the result `none`.
* Pointers to other objects are opaque addresses (`Ptr`, `none` for `NULL`);
  handles are opaque values (`Handle`).
-/

namespace V8

/-! ## Machine integers -/

/-- Modelled from the spec: `kMaxInt` is declared in `globals.h`, outside the
sources at hand; `int` arithmetic is taken as 32-bit, so it is `2^31 - 1`. -/
def kMaxInt : Int := 2147483647

/-- Modelled from the spec: `kMinInt` of `globals.h`, the least 32-bit `int`. -/
def kMinInt : Int := -2147483648

/-- The values a C++ `int` can hold. -/
def IsInt (x : Int) : Prop := kMinInt ≤ x ∧ x ≤ kMaxInt

instance (x : Int) : Decidable (IsInt x) := by unfold IsInt; infer_instance

/-- Two's complement wrap-around of an exact result to a 32-bit `int`. -/
def wrapInt (x : Int) : Int := (x + 2147483648) % 4294967296 - 2147483648

/-- The C++ `a + b` on `int`. -/
def intAdd (a b : Int) : Int := wrapInt (a + b)

/-- The C++ `a * b` on `int`. -/
def intMul (a b : Int) : Int := wrapInt (a * b)

/-- The C++ `a / b` on `int`: division truncating towards zero. -/
def intDiv (a b : Int) : Int := wrapInt (Int.tdiv a b)

/-! ## The id counter of the isolate -/

/-- The part of `Isolate` that `ast.h` uses: the `int` counter behind
`ast_node_id()` / `set_ast_node_id()`, and the handle
`factory()->empty_string()`. -/
structure Isolate where
  ast_node_id : Int
  empty_string : Nat
deriving DecidableEq, Repr

/-- A pointer to an object that the constructors only store: an opaque
address, `none` for `NULL`. -/
abbrev Ptr := Option Nat

/-- A `Handle<T>`: an opaque reference to a heap value. -/
abbrev Handle := Nat

/-- The list type `ZoneStringList`, a `ZoneList<Handle<String> >`. -/
abbrev ZoneStringList := List Handle

/-- Modelled from the spec: `RelocInfo::kNoPosition` is declared in
`assembler.h`, outside the sources at hand; it stands for an absent source
position. -/
def RelocInfo.kNoPosition : Int := -1

/-- Modelled from the spec: the enumeration `VariableMode` is declared outside
the sources at hand. The four storage modes a declaration may have
(ordinary-mutable `VAR`, legacy-constant `CONST`, block-scoped-constant
`CONST_HARMONY`, block-scoped-mutable `LET`), and `other` for every further
enumerator. -/
inductive VariableMode where
  | VAR
  | CONST
  | CONST_HARMONY
  | LET
  | other (tag : Nat)
deriving DecidableEq, Repr

/-- The type `Token::Value`: the ordinal of an operator token. -/
abbrev Token.Value := Int

/-- The part of the class `Token` (`token.h`, outside the sources at hand) that
`ast.h` uses, taken as a parameter: the tokens it names, the classification
predicates it calls, and `Assignment::binary_op()` (defined in `ast.cc`), which
maps a compound assignment operator to its binary operator. -/
structure Token where
  NOT : Token.Value
  AND : Token.Value
  OR : Token.Value
  ASSIGN : Token.Value
  INC : Token.Value
  ADD : Token.Value
  SUB : Token.Value
  IsUnaryOp : Token.Value → Bool
  IsBinaryOp : Token.Value → Bool
  IsCompareOp : Token.Value → Bool
  IsAssignmentOp : Token.Value → Bool
  binary_op : Token.Value → Token.Value

namespace AstNode

/-- The constant `AstNode::kNoNumber`. -/
def kNoNumber : Int := -1

/-- The constant `AstNode::kFunctionEntryId`. -/
def kFunctionEntryId : Int := 2

/-- The constant `AstNode::kDeclarationsId`. -/
def kDeclarationsId : Int := 3

/-- The function `AstNode::ReserveIdRange(isolate, n)`: returns the current
counter and stores `tmp + n`. -/
def ReserveIdRange (isolate : Isolate) (n : Int) : Int × Isolate :=
  let tmp := isolate.ast_node_id
  (tmp, { isolate with ast_node_id := intAdd tmp n })

/-- The function `AstNode::GetNextId(isolate)`. -/
def GetNextId (isolate : Isolate) : Int × Isolate :=
  ReserveIdRange isolate 1

end AstNode

/-! ## Regular expression tree -/

/-- The enumeration `RegExpAssertion::Type`. -/
inductive RegExpAssertion.Type_ where
  | START_OF_LINE
  | START_OF_INPUT
  | END_OF_LINE
  | END_OF_INPUT
  | BOUNDARY
  | NON_BOUNDARY
deriving DecidableEq, Repr

/-- The enumeration `RegExpQuantifier::Type`. -/
inductive RegExpQuantifier.Type_ where
  | GREEDY
  | NON_GREEDY
  | POSSESSIVE
deriving DecidableEq, Repr

/-- The class `CharacterSet`: a nullable list of character ranges (pairs
`from`, `to`) and a standard set type (`uc16`). -/
structure CharacterSet where
  ranges_ : Option (List (Nat × Nat))
  standard_set_type_ : Nat
deriving DecidableEq, Repr

/-- Modelled from the spec: `TextElement` is declared in `jsregexp.h`, outside
the sources at hand; `RegExpText` only uses its `length()`. -/
structure TextElement where
  length : Int
deriving DecidableEq, Repr

/-- The objects of the classes derived from `RegExpTree`, each with its data
members. A `RegExpBackReference` holds the capture it points to by its body
and index. -/
inductive RegExpTree where
  | Disjunction (alternatives_ : List RegExpTree) (min_match_ max_match_ : Int)
  | Alternative (nodes_ : List RegExpTree) (min_match_ max_match_ : Int)
  | Assertion (type_ : RegExpAssertion.Type_)
  | CharacterClass (set_ : CharacterSet) (is_negated_ : Bool)
  | Atom (data_ : List Nat)
  | Text (elements_ : List TextElement) (length_ : Int)
  | Quantifier (body_ : RegExpTree) (min_ max_ min_match_ max_match_ : Int)
      (type_ : RegExpQuantifier.Type_)
  | Capture (body_ : RegExpTree) (index_ : Int)
  | Lookahead (body_ : RegExpTree) (is_positive_ : Bool)
      (capture_count_ capture_from_ : Int)
  | BackReference (capture_body_ : RegExpTree) (capture_index_ : Int)
  | Empty

namespace RegExpTree

/-- The constant `RegExpTree::kInfinity`. -/
def kInfinity : Int := kMaxInt

/-- The virtual `min_match()`, as overridden in each class. -/
def min_match : RegExpTree → Int
  | Disjunction _ min_match_ _ => min_match_
  | Alternative _ min_match_ _ => min_match_
  | Assertion _ => 0
  | CharacterClass _ _ => 1
  | Atom data_ => data_.length
  | Text _ length_ => length_
  | Quantifier _ _ _ min_match_ _ _ => min_match_
  | Capture body_ _ => body_.min_match
  | Lookahead _ _ _ _ => 0
  | BackReference _ _ => 0
  | Empty => 0

/-- The virtual `max_match()`, as overridden in each class; for a back
reference it is `capture_->max_match()`, the `max_match()` of the body of the
capture. -/
def max_match : RegExpTree → Int
  | Disjunction _ _ max_match_ => max_match_
  | Alternative _ _ max_match_ => max_match_
  | Assertion _ => 0
  | CharacterClass _ _ => 1
  | Atom data_ => data_.length
  | Text _ length_ => length_
  | Quantifier _ _ _ _ max_match_ _ => max_match_
  | Capture body_ _ => body_.max_match
  | Lookahead _ _ _ _ => 0
  | BackReference capture_body_ _ => capture_body_.max_match
  | Empty => 0

/-- The accessor `RegExpQuantifier::min()`; `none` on another class. -/
def min : RegExpTree → Option Int
  | Quantifier _ min_ _ _ _ _ => some min_
  | _ => none

/-- The accessor `RegExpQuantifier::max()`; `none` on another class. -/
def max : RegExpTree → Option Int
  | Quantifier _ _ max_ _ _ _ => some max_
  | _ => none

/-- The accessor `RegExpQuantifier::body()`; `none` on another class. -/
def body : RegExpTree → Option RegExpTree
  | Quantifier body_ _ _ _ _ _ => some body_
  | _ => none

end RegExpTree

namespace RegExpQuantifier

open RegExpTree in
/-- The member initialisers and body of the constructor
`RegExpQuantifier(min, max, type, body)`. -/
def init (min max : Int) (type : RegExpQuantifier.Type_) (body : RegExpTree) :
    RegExpTree :=
  let min_match_ := intMul min body.min_match
  let max_match_ :=
    if max > 0 ∧ body.max_match > intDiv kInfinity max then kInfinity
    else intMul max body.max_match
  .Quantifier body min max min_match_ max_match_ type

/-- The outcome of `new RegExpQuantifier(min, max, type, body)`: `none` stands
for a failed check. The constructor contains no `ASSERT` and no `CHECK`. -/
def new (min max : Int) (type : RegExpQuantifier.Type_) (body : RegExpTree) :
    Option RegExpTree :=
  some (init min max type body)

end RegExpQuantifier

namespace RegExpCapture

/-- The function `RegExpCapture::StartRegister(index)`. -/
def StartRegister (index : Int) : Int := intMul index 2

/-- The function `RegExpCapture::EndRegister(index)`. -/
def EndRegister (index : Int) : Int := intAdd (intMul index 2) 1

end RegExpCapture

/-! ## Construction with the id counter as state -/

/-- A computation of a constructor: it reads and advances the id counter of
the isolate, and yields `none` when an `ASSERT` fails. -/
def Build (α : Type) : Type := Isolate → Option (α × Isolate)

namespace Build

/-- Return a value, the counter untouched. -/
def ret {α : Type} (a : α) : Build α := fun isolate => some (a, isolate)

/-- Sequencing: run `m`, then `f` on its result, unless `m` failed. -/
def andThen {α β : Type} (m : Build α) (f : α → Build β) : Build β :=
  fun isolate =>
    match m isolate with
    | none => none
    | some (a, isolate1) => f a isolate1

instance : Monad Build where
  pure := ret
  bind := andThen

/-- The call `GetNextId(isolate)` inside a constructor. -/
def GetNextId : Build Int := fun isolate => some (AstNode.GetNextId isolate)

/-- The call `ReserveIdRange(isolate, n)` inside a constructor. -/
def ReserveIdRange (n : Int) : Build Int :=
  fun isolate => some (AstNode.ReserveIdRange isolate n)

/-- The macro `ASSERT(condition)`. -/
def ASSERT (condition : Bool) : Build Unit :=
  fun isolate => if condition then some ((), isolate) else none

/-- The expression `isolate->factory()->empty_string()`. -/
def empty_string : Build Handle := fun isolate => some (isolate.empty_string, isolate)

end Build

/-! ## Declarations and modules -/

/-- The data members of the class `Declaration`. -/
structure Declaration where
  proxy_ : Ptr
  mode_ : VariableMode
  scope_ : Ptr
deriving DecidableEq, Repr

/-- The constructor `Declaration(proxy, mode, scope)`. -/
def Declaration.new (proxy : Ptr) (mode : VariableMode) (scope : Ptr) :
    Build Declaration := do
  Build.ASSERT (mode == VariableMode.VAR ||
                mode == VariableMode.CONST ||
                mode == VariableMode.CONST_HARMONY ||
                mode == VariableMode.LET)
  pure { proxy_ := proxy, mode_ := mode, scope_ := scope }

/-- The data members of the class `VariableDeclaration`. -/
structure VariableDeclaration extends Declaration where
  fun_ : Ptr
deriving DecidableEq, Repr

namespace VariableDeclaration

/-- The constructor `VariableDeclaration(proxy, mode, fun, scope)`. -/
def new (proxy : Ptr) (mode : VariableMode) (fun_ : Ptr) (scope : Ptr) :
    Build VariableDeclaration := do
  let base ← Declaration.new proxy mode scope
  Build.ASSERT (fun_ == none || mode == VariableMode.VAR || mode == VariableMode.LET)
  pure { toDeclaration := base, fun_ := fun_ }

/-- The accessor `fun()`. -/
def «fun» (d : VariableDeclaration) : Ptr := d.fun_

/-- The accessor `mode()`. -/
def mode (d : VariableDeclaration) : VariableMode := d.mode_

/-- The accessor `proxy()`. -/
def proxy (d : VariableDeclaration) : Ptr := d.proxy_

/-- The accessor `scope()`. -/
def scope (d : VariableDeclaration) : Ptr := d.scope_

end VariableDeclaration

/-- The data members of the class `ModuleDeclaration`. -/
structure ModuleDeclaration extends Declaration where
  module_ : Ptr
deriving DecidableEq, Repr

/-- The constructor `ModuleDeclaration(proxy, module, scope)`. -/
def ModuleDeclaration.new (proxy : Ptr) (module : Ptr) (scope : Ptr) :
    Build ModuleDeclaration := do
  let base ← Declaration.new proxy VariableMode.LET scope
  pure { toDeclaration := base, module_ := module }

/-- The class `ModuleLiteral`, with its constructor `ModuleLiteral(body)`. -/
structure ModuleLiteral where
  body_ : Ptr
deriving DecidableEq, Repr

/-- The class `ModuleVariable`, with its constructor `ModuleVariable(proxy)`. -/
structure ModuleVariable where
  proxy_ : Ptr
deriving DecidableEq, Repr

/-- The class `ModulePath`, with its constructor `ModulePath(module, name)`. -/
structure ModulePath where
  module_ : Ptr
  name_ : Handle
deriving DecidableEq, Repr

/-- The class `ModuleUrl`, with its constructor `ModuleUrl(url)`. -/
structure ModuleUrl where
  url_ : Handle
deriving DecidableEq, Repr

/-! ## Statements -/

/-- The enumeration `BreakableStatement::Type`. -/
inductive BreakableStatement.Type_ where
  | TARGET_FOR_ANONYMOUS
  | TARGET_FOR_NAMED_ONLY
deriving DecidableEq, Repr

/-- The data members of the class `BreakableStatement` (the jump label
`break_target_` apart). -/
structure BreakableStatement where
  labels_ : Option ZoneStringList
  type_ : BreakableStatement.Type_
  entry_id_ : Int
  exit_id_ : Int
deriving DecidableEq, Repr

namespace BreakableStatement

/-- The constructor `BreakableStatement(isolate, labels, type)`: the member
initialisers mint the entry and the exit id, then the body checks the
labels. -/
def new (labels : Option ZoneStringList) (type : BreakableStatement.Type_) :
    Build BreakableStatement := do
  let entry_id ← Build.GetNextId
  let exit_id ← Build.GetNextId
  Build.ASSERT (match labels with
                | none => true
                | some list => decide (list.length > 0))
  pure { labels_ := labels, type_ := type, entry_id_ := entry_id, exit_id_ := exit_id }

/-- The accessor `labels()`. -/
def labels (s : BreakableStatement) : Option ZoneStringList := s.labels_

/-- The accessor `EntryId()`. -/
def EntryId (s : BreakableStatement) : Int := s.entry_id_

/-- The accessor `ExitId()`. -/
def ExitId (s : BreakableStatement) : Int := s.exit_id_

/-- The tester `is_target_for_anonymous()`. -/
def is_target_for_anonymous (s : BreakableStatement) : Bool :=
  s.type_ == Type_.TARGET_FOR_ANONYMOUS

end BreakableStatement

/-- The data members of the class `Block`; `statements_` starts empty, with
the given capacity. -/
structure Block extends BreakableStatement where
  statements_ : List Ptr
  capacity_ : Int
  is_initializer_block_ : Bool
  block_scope_ : Ptr
deriving DecidableEq, Repr

/-- The constructor `Block(isolate, labels, capacity, is_initializer_block)`. -/
def Block.new (labels : Option ZoneStringList) (capacity : Int)
    (is_initializer_block : Bool) : Build Block := do
  let base ← BreakableStatement.new labels BreakableStatement.Type_.TARGET_FOR_NAMED_ONLY
  pure { toBreakableStatement := base, statements_ := [], capacity_ := capacity,
         is_initializer_block_ := is_initializer_block, block_scope_ := none }

/-- The data members of the class `IterationStatement` (the jump label
`continue_target_` apart). -/
structure IterationStatement extends BreakableStatement where
  body_ : Ptr
  osr_entry_id_ : Int
deriving DecidableEq, Repr

namespace IterationStatement

/-- The constructor `IterationStatement(isolate, labels)`. -/
def new (labels : Option ZoneStringList) : Build IterationStatement := do
  let base ← BreakableStatement.new labels BreakableStatement.Type_.TARGET_FOR_ANONYMOUS
  let osr_entry_id ← Build.GetNextId
  pure { toBreakableStatement := base, body_ := none, osr_entry_id_ := osr_entry_id }

/-- The accessor `OsrEntryId()`. -/
def OsrEntryId (s : IterationStatement) : Int := s.osr_entry_id_

end IterationStatement

/-- The data members of the class `DoWhileStatement`. -/
structure DoWhileStatement extends IterationStatement where
  cond_ : Ptr
  condition_position_ : Int
  continue_id_ : Int
  back_edge_id_ : Int
deriving DecidableEq, Repr

namespace DoWhileStatement

/-- The constructor `DoWhileStatement(isolate, labels)`. -/
def new (labels : Option ZoneStringList) : Build DoWhileStatement := do
  let base ← IterationStatement.new labels
  let continue_id ← Build.GetNextId
  let back_edge_id ← Build.GetNextId
  pure { toIterationStatement := base, cond_ := none, condition_position_ := -1,
         continue_id_ := continue_id, back_edge_id_ := back_edge_id }

/-- The virtual `ContinueId()`. -/
def ContinueId (s : DoWhileStatement) : Int := s.continue_id_

/-- The virtual `StackCheckId()`. -/
def StackCheckId (s : DoWhileStatement) : Int := s.back_edge_id_

/-- The accessor `BackEdgeId()`. -/
def BackEdgeId (s : DoWhileStatement) : Int := s.back_edge_id_

end DoWhileStatement

/-- The data members of the class `WhileStatement`. -/
structure WhileStatement extends IterationStatement where
  cond_ : Ptr
  may_have_function_literal_ : Bool
  body_id_ : Int
deriving DecidableEq, Repr

namespace WhileStatement

/-- The constructor `WhileStatement(isolate, labels)`. -/
def new (labels : Option ZoneStringList) : Build WhileStatement := do
  let base ← IterationStatement.new labels
  let body_id ← Build.GetNextId
  pure { toIterationStatement := base, cond_ := none,
         may_have_function_literal_ := true, body_id_ := body_id }

/-- The virtual `ContinueId()`. -/
def ContinueId (s : WhileStatement) : Int := s.EntryId

/-- The virtual `StackCheckId()`. -/
def StackCheckId (s : WhileStatement) : Int := s.body_id_

/-- The accessor `BodyId()`. -/
def BodyId (s : WhileStatement) : Int := s.body_id_

end WhileStatement

/-- The data members of the class `ForStatement`. -/
structure ForStatement extends IterationStatement where
  init_ : Ptr
  cond_ : Ptr
  next_ : Ptr
  may_have_function_literal_ : Bool
  loop_variable_ : Ptr
  continue_id_ : Int
  body_id_ : Int
deriving DecidableEq, Repr

namespace ForStatement

/-- The constructor `ForStatement(isolate, labels)`. -/
def new (labels : Option ZoneStringList) : Build ForStatement := do
  let base ← IterationStatement.new labels
  let continue_id ← Build.GetNextId
  let body_id ← Build.GetNextId
  pure { toIterationStatement := base, init_ := none, cond_ := none, next_ := none,
         may_have_function_literal_ := true, loop_variable_ := none,
         continue_id_ := continue_id, body_id_ := body_id }

/-- The virtual `ContinueId()`. -/
def ContinueId (s : ForStatement) : Int := s.continue_id_

/-- The virtual `StackCheckId()`. -/
def StackCheckId (s : ForStatement) : Int := s.body_id_

/-- The accessor `BodyId()`. -/
def BodyId (s : ForStatement) : Int := s.body_id_

end ForStatement

/-- The data members of the class `ForInStatement`. -/
structure ForInStatement extends IterationStatement where
  each_ : Ptr
  enumerable_ : Ptr
  body_id_ : Int
  prepare_id_ : Int
deriving DecidableEq, Repr

namespace ForInStatement

/-- The constructor `ForInStatement(isolate, labels)`. -/
def new (labels : Option ZoneStringList) : Build ForInStatement := do
  let base ← IterationStatement.new labels
  let body_id ← Build.GetNextId
  let prepare_id ← Build.GetNextId
  pure { toIterationStatement := base, each_ := none, enumerable_ := none,
         body_id_ := body_id, prepare_id_ := prepare_id }

/-- The virtual `ContinueId()`. -/
def ContinueId (s : ForInStatement) : Int := s.EntryId

/-- The virtual `StackCheckId()`. -/
def StackCheckId (s : ForInStatement) : Int := s.body_id_

/-- The accessor `BodyId()`. -/
def BodyId (s : ForInStatement) : Int := s.body_id_

/-- The accessor `PrepareId()`. -/
def PrepareId (s : ForInStatement) : Int := s.prepare_id_

end ForInStatement

/-- The class `ExpressionStatement`, with its constructor
`ExpressionStatement(expression)`. -/
structure ExpressionStatement where
  expression_ : Ptr
deriving DecidableEq, Repr

/-- The class `ContinueStatement`, with its constructor
`ContinueStatement(target)`. -/
structure ContinueStatement where
  target_ : Ptr
deriving DecidableEq, Repr

/-- The class `BreakStatement`, with its constructor `BreakStatement(target)`. -/
structure BreakStatement where
  target_ : Ptr
deriving DecidableEq, Repr

/-- The class `ReturnStatement`, with its constructor
`ReturnStatement(expression)`. -/
structure ReturnStatement where
  expression_ : Ptr
deriving DecidableEq, Repr

/-- The class `WithStatement`, with its constructor
`WithStatement(expression, statement)`. -/
structure WithStatement where
  expression_ : Ptr
  statement_ : Ptr
deriving DecidableEq, Repr

/-- The data members of the class `SwitchStatement`. -/
structure SwitchStatement extends BreakableStatement where
  tag_ : Ptr
  cases_ : Ptr
deriving DecidableEq, Repr

/-- The constructor `SwitchStatement(isolate, labels)`. -/
def SwitchStatement.new (labels : Option ZoneStringList) : Build SwitchStatement := do
  let base ← BreakableStatement.new labels BreakableStatement.Type_.TARGET_FOR_ANONYMOUS
  pure { toBreakableStatement := base, tag_ := none, cases_ := none }

/-- The data members of the class `IfStatement`. -/
structure IfStatement where
  condition_ : Ptr
  then_statement_ : Ptr
  else_statement_ : Ptr
  if_id_ : Int
  then_id_ : Int
  else_id_ : Int
deriving DecidableEq, Repr

namespace IfStatement

/-- The constructor
`IfStatement(isolate, condition, then_statement, else_statement)`. -/
def new (condition then_statement else_statement : Ptr) : Build IfStatement := do
  let if_id ← Build.GetNextId
  let then_id ← Build.GetNextId
  let else_id ← Build.GetNextId
  pure { condition_ := condition, then_statement_ := then_statement,
         else_statement_ := else_statement,
         if_id_ := if_id, then_id_ := then_id, else_id_ := else_id }

/-- The accessor `IfId()`. -/
def IfId (s : IfStatement) : Int := s.if_id_

/-- The accessor `ThenId()`. -/
def ThenId (s : IfStatement) : Int := s.then_id_

/-- The accessor `ElseId()`. -/
def ElseId (s : IfStatement) : Int := s.else_id_

end IfStatement

/-- The data members of the class `TryStatement`; its constructor
`TryStatement(index, try_block)` leaves `escaping_targets_` null. -/
structure TryStatement where
  index_ : Int
  try_block_ : Ptr
  escaping_targets_ : Ptr
deriving DecidableEq, Repr

/-- The class `TryCatchStatement`, with its constructor
`TryCatchStatement(index, try_block, scope, variable, catch_block)`. -/
structure TryCatchStatement extends TryStatement where
  scope_ : Ptr
  variable_ : Ptr
  catch_block_ : Ptr
deriving DecidableEq, Repr

/-- The class `TryFinallyStatement`, with its constructor
`TryFinallyStatement(index, try_block, finally_block)`. -/
structure TryFinallyStatement extends TryStatement where
  finally_block_ : Ptr
deriving DecidableEq, Repr

/-- The class `DebuggerStatement`: no data members. -/
structure DebuggerStatement where
deriving DecidableEq, Repr

/-- The class `EmptyStatement`: no data members. -/
structure EmptyStatement where
deriving DecidableEq, Repr

/-- The class `TargetCollector`: a list of jump targets, empty at
construction. -/
structure TargetCollector where
  targets_ : List Ptr
deriving DecidableEq, Repr

/-! ## Expressions -/

/-- The data members of the class `Expression`. -/
structure Expression where
  id_ : Int
  test_id_ : Int
deriving DecidableEq, Repr

namespace Expression

/-- The constructor `Expression(isolate)`. -/
def new : Build Expression := do
  let id ← Build.GetNextId
  let test_id ← Build.GetNextId
  pure { id_ := id, test_id_ := test_id }

end Expression

/-- The data members of the class `Literal`. -/
structure Literal extends Expression where
  handle_ : Handle
deriving DecidableEq, Repr

/-- The constructor `Literal(isolate, handle)`. -/
def Literal.new (handle : Handle) : Build Literal := do
  let base ← Expression.new
  pure { toExpression := base, handle_ := handle }

/-- The data members of the class `MaterializedLiteral`. -/
structure MaterializedLiteral extends Expression where
  literal_index_ : Int
  is_simple_ : Bool
  depth_ : Int
deriving DecidableEq, Repr

/-- The constructor
`MaterializedLiteral(isolate, literal_index, is_simple, depth)`. -/
def MaterializedLiteral.new (literal_index : Int) (is_simple : Bool) (depth : Int) :
    Build MaterializedLiteral := do
  let base ← Expression.new
  pure { toExpression := base, literal_index_ := literal_index,
         is_simple_ := is_simple, depth_ := depth }

/-- The data members of the class `ObjectLiteral`; `properties_` points to the
list of properties. -/
structure ObjectLiteral extends MaterializedLiteral where
  constant_properties_ : Handle
  properties_ : Ptr
  fast_elements_ : Bool
  has_function_ : Bool
deriving DecidableEq, Repr

/-- The constructor `ObjectLiteral(isolate, constant_properties, properties,
literal_index, is_simple, fast_elements, depth, has_function)`. -/
def ObjectLiteral.new (constant_properties : Handle) (properties : Ptr)
    (literal_index : Int) (is_simple fast_elements : Bool) (depth : Int)
    (has_function : Bool) : Build ObjectLiteral := do
  let base ← MaterializedLiteral.new literal_index is_simple depth
  pure { toMaterializedLiteral := base, constant_properties_ := constant_properties,
         properties_ := properties, fast_elements_ := fast_elements,
         has_function_ := has_function }

/-- The enumeration `ObjectLiteral::Property::Kind`. -/
inductive ObjectLiteral.Property.Kind where
  | CONSTANT
  | COMPUTED
  | MATERIALIZED_LITERAL
  | GETTER
  | SETTER
  | PROTOTYPE
deriving DecidableEq, Repr

/-- The data members of the class `ObjectLiteral::Property`; the key is held
by value. -/
structure ObjectLiteral.Property where
  key_ : Option Literal
  value_ : Ptr
  kind_ : ObjectLiteral.Property.Kind
  emit_store_ : Bool
deriving DecidableEq, Repr

/-- Modelled from the spec: the constructor
`ObjectLiteral::Property(is_getter, value)` is only declared in `ast.h` and
defined in `ast.cc`, outside the sources at hand. It takes no isolate, so it
mints no id; it builds an accessor property for `value`, whose store is
active and whose key is set afterwards by the factory. -/
def ObjectLiteral.Property.newAccessor (is_getter : Bool) (value : Ptr) :
    ObjectLiteral.Property :=
  { key_ := none, value_ := value,
    kind_ := if is_getter then Kind.GETTER else Kind.SETTER,
    emit_store_ := true }

/-- The data members of the class `RegExpLiteral`. -/
structure RegExpLiteral extends MaterializedLiteral where
  pattern_ : Handle
  flags_ : Handle
deriving DecidableEq, Repr

/-- The constructor `RegExpLiteral(isolate, pattern, flags, literal_index)`. -/
def RegExpLiteral.new (pattern flags : Handle) (literal_index : Int) :
    Build RegExpLiteral := do
  let base ← MaterializedLiteral.new literal_index false 1
  pure { toMaterializedLiteral := base, pattern_ := pattern, flags_ := flags }

/-- The data members of the class `ArrayLiteral`; `values_` is the list the
constructor is given. -/
structure ArrayLiteral extends MaterializedLiteral where
  constant_elements_ : Handle
  values_ : List Ptr
  first_element_id_ : Int
deriving DecidableEq, Repr

namespace ArrayLiteral

/-- The constructor `ArrayLiteral(isolate, constant_elements, values,
literal_index, is_simple, depth)`. -/
def new (constant_elements : Handle) (values : List Ptr) (literal_index : Int)
    (is_simple : Bool) (depth : Int) : Build ArrayLiteral := do
  let base ← MaterializedLiteral.new literal_index is_simple depth
  let first_element_id ← Build.ReserveIdRange values.length
  pure { toMaterializedLiteral := base, constant_elements_ := constant_elements,
         values_ := values, first_element_id_ := first_element_id }

/-- The function `GetIdForElement(i)`. -/
def GetIdForElement (a : ArrayLiteral) (i : Int) : Int := intAdd a.first_element_id_ i

end ArrayLiteral

/-- The data members of the class `VariableProxy`. -/
structure VariableProxy extends Expression where
  name_ : Handle
  var_ : Ptr
  is_this_ : Bool
  is_trivial_ : Bool
  is_lvalue_ : Bool
  position_ : Int
deriving DecidableEq, Repr

namespace VariableProxy

/-- Modelled from the spec: the constructor `VariableProxy(isolate, var)` is
only declared in `ast.h` and defined in `ast.cc`, outside the sources at hand.
As an expression it mints `id` and `test_id`; the class has no id of its own.
The proxy is bound to `var`, whose name and `is_this` are read through the
pointer and passed here as `var_name` and `var_is_this`. -/
def newBound (var : Ptr) (var_name : Handle) (var_is_this : Bool) :
    Build VariableProxy := do
  let base ← Expression.new
  pure { toExpression := base, name_ := var_name, var_ := var, is_this_ := var_is_this,
         is_trivial_ := false, is_lvalue_ := false,
         position_ := RelocInfo.kNoPosition }

/-- Modelled from the spec: the constructor
`VariableProxy(isolate, name, is_this, position)` is only declared in `ast.h`
and defined in `ast.cc`, outside the sources at hand. As an expression it
mints `id` and `test_id`; the class has no id of its own. The resolved
variable is absent until scope resolution binds it. -/
def new (name : Handle) (is_this : Bool) (position : Int) : Build VariableProxy := do
  let base ← Expression.new
  pure { toExpression := base, name_ := name, var_ := none, is_this_ := is_this,
         is_trivial_ := false, is_lvalue_ := false, position_ := position }

end VariableProxy

/-- The data members of the class `Property` (the type feedback apart). -/
structure Property extends Expression where
  obj_ : Ptr
  key_ : Ptr
  pos_ : Int
deriving DecidableEq, Repr

/-- The constructor `Property(isolate, obj, key, pos)`. -/
def Property.new (obj key : Ptr) (pos : Int) : Build Property := do
  let base ← Expression.new
  pure { toExpression := base, obj_ := obj, key_ := key, pos_ := pos }

/-- The data members of the class `Call` (the type feedback apart);
`arguments_` points to the argument list. -/
structure Call extends Expression where
  expression_ : Ptr
  arguments_ : Ptr
  pos_ : Int
  return_id_ : Int
deriving DecidableEq, Repr

namespace Call

/-- The constructor `Call(isolate, expression, arguments, pos)`. -/
def new (expression arguments : Ptr) (pos : Int) : Build Call := do
  let base ← Expression.new
  let return_id ← Build.GetNextId
  pure { toExpression := base, expression_ := expression, arguments_ := arguments,
         pos_ := pos, return_id_ := return_id }

/-- The accessor `ReturnId()`. -/
def ReturnId (c : Call) : Int := c.return_id_

end Call

/-- The data members of the class `CallNew` (the type feedback apart). -/
structure CallNew extends Expression where
  expression_ : Ptr
  arguments_ : Ptr
  pos_ : Int
  return_id_ : Int
deriving DecidableEq, Repr

namespace CallNew

/-- The constructor `CallNew(isolate, expression, arguments, pos)`. -/
def new (expression arguments : Ptr) (pos : Int) : Build CallNew := do
  let base ← Expression.new
  let return_id ← Build.GetNextId
  pure { toExpression := base, expression_ := expression, arguments_ := arguments,
         pos_ := pos, return_id_ := return_id }

/-- The accessor `ReturnId()`. -/
def ReturnId (c : CallNew) : Int := c.return_id_

end CallNew

/-- The data members of the class `CallRuntime`. -/
structure CallRuntime extends Expression where
  name_ : Handle
  function_ : Ptr
  arguments_ : Ptr
deriving DecidableEq, Repr

/-- The constructor `CallRuntime(isolate, name, function, arguments)`. -/
def CallRuntime.new (name : Handle) (function arguments : Ptr) : Build CallRuntime := do
  let base ← Expression.new
  pure { toExpression := base, name_ := name, function_ := function,
         arguments_ := arguments }

/-- The data members of the class `UnaryOperation`. -/
structure UnaryOperation extends Expression where
  op_ : Token.Value
  expression_ : Ptr
  pos_ : Int
  materialize_true_id_ : Int
  materialize_false_id_ : Int
deriving DecidableEq, Repr

namespace UnaryOperation

/-- The constructor `UnaryOperation(isolate, op, expression, pos)`. -/
def new (T : Token) (op : Token.Value) (expression : Ptr) (pos : Int) :
    Build UnaryOperation := do
  let base ← Expression.new
  Build.ASSERT (T.IsUnaryOp op)
  if op == T.NOT then
    let materialize_true_id ← Build.GetNextId
    let materialize_false_id ← Build.GetNextId
    pure { toExpression := base, op_ := op, expression_ := expression, pos_ := pos,
           materialize_true_id_ := materialize_true_id,
           materialize_false_id_ := materialize_false_id }
  else
    pure { toExpression := base, op_ := op, expression_ := expression, pos_ := pos,
           materialize_true_id_ := AstNode.kNoNumber,
           materialize_false_id_ := AstNode.kNoNumber }

/-- The accessor `MaterializeTrueId()`. -/
def MaterializeTrueId (u : UnaryOperation) : Int := u.materialize_true_id_

/-- The accessor `MaterializeFalseId()`. -/
def MaterializeFalseId (u : UnaryOperation) : Int := u.materialize_false_id_

end UnaryOperation

/-- The data members of the class `BinaryOperation`. -/
structure BinaryOperation extends Expression where
  op_ : Token.Value
  left_ : Ptr
  right_ : Ptr
  pos_ : Int
  right_id_ : Int
deriving DecidableEq, Repr

namespace BinaryOperation

/-- The constructor `BinaryOperation(isolate, op, left, right, pos)`. -/
def new (T : Token) (op : Token.Value) (left right : Ptr) (pos : Int) :
    Build BinaryOperation := do
  let base ← Expression.new
  Build.ASSERT (T.IsBinaryOp op)
  let right_id ←
    if op == T.AND || op == T.OR then Build.GetNextId else pure AstNode.kNoNumber
  pure { toExpression := base, op_ := op, left_ := left, right_ := right, pos_ := pos,
         right_id_ := right_id }

/-- The accessor `RightId()`. -/
def RightId (b : BinaryOperation) : Int := b.right_id_

end BinaryOperation

/-- The data members of the class `CountOperation` (the type feedback
apart). -/
structure CountOperation extends Expression where
  op_ : Token.Value
  is_prefix_ : Bool
  expression_ : Ptr
  pos_ : Int
  assignment_id_ : Int
  count_id_ : Int
deriving DecidableEq, Repr

namespace CountOperation

/-- The constructor `CountOperation(isolate, op, is_prefix, expr, pos)`. -/
def new (op : Token.Value) ( is_prefix : Bool) (expr : Ptr) (pos : Int) :
    Build CountOperation := do
  let base ← Expression.new
  let assignment_id ← Build.GetNextId
  let count_id ← Build.GetNextId
  pure { toExpression := base, op_ := op, is_prefix_ := is_prefix, expression_ := expr,
         pos_ := pos, assignment_id_ := assignment_id, count_id_ := count_id }

/-- The accessor `AssignmentId()`. -/
def AssignmentId (c : CountOperation) : Int := c.assignment_id_

/-- The accessor `CountId()`. -/
def CountId (c : CountOperation) : Int := c.count_id_

end CountOperation

/-- The data members of the class `CompareOperation` (the type feedback
apart). -/
structure CompareOperation extends Expression where
  op_ : Token.Value
  left_ : Ptr
  right_ : Ptr
  pos_ : Int
deriving DecidableEq, Repr

/-- The constructor `CompareOperation(isolate, op, left, right, pos)`. -/
def CompareOperation.new (T : Token) (op : Token.Value) (left right : Ptr) (pos : Int) :
    Build CompareOperation := do
  let base ← Expression.new
  Build.ASSERT (T.IsCompareOp op)
  pure { toExpression := base, op_ := op, left_ := left, right_ := right, pos_ := pos }

/-- The data members of the class `Conditional`. -/
structure Conditional extends Expression where
  condition_ : Ptr
  then_expression_ : Ptr
  else_expression_ : Ptr
  then_expression_position_ : Int
  else_expression_position_ : Int
  then_id_ : Int
  else_id_ : Int
deriving DecidableEq, Repr

namespace Conditional

/-- The constructor `Conditional(isolate, condition, then_expression,
else_expression, then_expression_position, else_expression_position)`. -/
def new (condition then_expression else_expression : Ptr)
    (then_expression_position else_expression_position : Int) : Build Conditional := do
  let base ← Expression.new
  let then_id ← Build.GetNextId
  let else_id ← Build.GetNextId
  pure { toExpression := base, condition_ := condition,
         then_expression_ := then_expression, else_expression_ := else_expression,
         then_expression_position_ := then_expression_position,
         else_expression_position_ := else_expression_position,
         then_id_ := then_id, else_id_ := else_id }

/-- The accessor `ThenId()`. -/
def ThenId (c : Conditional) : Int := c.then_id_

/-- The accessor `ElseId()`. -/
def ElseId (c : Conditional) : Int := c.else_id_

end Conditional

/-- The data members of the class `Assignment` (the type feedback apart); the
synthesized binary operation is held by value, `none` for `NULL`. -/
structure Assignment extends Expression where
  op_ : Token.Value
  target_ : Ptr
  value_ : Ptr
  pos_ : Int
  binary_operation_ : Option BinaryOperation
  compound_load_id_ : Int
  assignment_id_ : Int
  block_start_ : Bool
  block_end_ : Bool
deriving DecidableEq, Repr

namespace Assignment

/-- Modelled from the spec: the constructor
`Assignment(isolate, op, target, value, pos)` is only declared in `ast.h` and
defined in `ast.cc`, outside the sources at hand. As an expression it mints
`id` and `test_id`, then it mints one assignment id; the compound-load id is
absent (the no-id sentinel) and there is no binary operation until `Init`. -/
def new (op : Token.Value) (target value : Ptr) (pos : Int) : Build Assignment := do
  let base ← Expression.new
  let assignment_id ← Build.GetNextId
  pure { toExpression := base, op_ := op, target_ := target, value_ := value,
         pos_ := pos, binary_operation_ := none,
         compound_load_id_ := AstNode.kNoNumber, assignment_id_ := assignment_id,
         block_start_ := false, block_end_ := false }

/-- The accessor `op()`. -/
def op (a : Assignment) : Token.Value := a.op_

/-- The function `is_compound()`. -/
def is_compound (T : Token) (a : Assignment) : Bool := decide (a.op > T.ASSIGN)

/-- The function `binary_op()`. -/
def binary_op (T : Token) (a : Assignment) : Token.Value := T.binary_op a.op

/-- The accessor `binary_operation()`. -/
def binary_operation (a : Assignment) : Option BinaryOperation := a.binary_operation_

/-- The accessor `CompoundLoadId()`. -/
def CompoundLoadId (a : Assignment) : Int := a.compound_load_id_

/-- The accessor `AssignmentId()`. -/
def AssignmentId (a : Assignment) : Int := a.assignment_id_

end Assignment

/-- The data members of the class `Throw`. -/
structure Throw extends Expression where
  exception_ : Ptr
  pos_ : Int
deriving DecidableEq, Repr

/-- The constructor `Throw(isolate, exception, pos)`. -/
def Throw.new (exception : Ptr) (pos : Int) : Build Throw := do
  let base ← Expression.new
  pure { toExpression := base, exception_ := exception, pos_ := pos }

/-- The enumeration `FunctionLiteral::Type`. -/
inductive FunctionLiteral.Type_ where
  | ANONYMOUS_EXPRESSION
  | NAMED_EXPRESSION
  | DECLARATION
deriving DecidableEq, Repr

/-- The enumeration `FunctionLiteral::ParameterFlag`. -/
inductive FunctionLiteral.ParameterFlag where
  | kNoDuplicateParameters
  | kHasDuplicateParameters
deriving DecidableEq, Repr

/-- The numeric value of a `FunctionLiteral::ParameterFlag`. -/
def FunctionLiteral.ParameterFlag.value : FunctionLiteral.ParameterFlag → Nat
  | kNoDuplicateParameters => 0
  | kHasDuplicateParameters => 1

/-- The enumeration `FunctionLiteral::IsFunctionFlag`. -/
inductive FunctionLiteral.IsFunctionFlag where
  | kGlobalOrEval
  | kIsFunction
deriving DecidableEq, Repr

/-- The numeric value of a `FunctionLiteral::IsFunctionFlag`. -/
def FunctionLiteral.IsFunctionFlag.value : FunctionLiteral.IsFunctionFlag → Nat
  | kGlobalOrEval => 0
  | kIsFunction => 1

/-- Modelled from the spec: the template `BitField<T, shift, size>` is
declared in `utils.h`, outside the sources at hand. `encode` places a value at
bit position `shift` of a packed flag word. -/
def BitField.encode (shift : Nat) (value : Nat) : Nat := value <<< shift

/-- Modelled from the spec: `BitField<T, shift, size>::decode` of `utils.h`
reads back the `size` bits at position `shift`. -/
def BitField.decode (shift size : Nat) (word : Nat) : Nat :=
  (word >>> shift) % 2 ^ size

/-- The data members of the class `FunctionLiteral` (the summary
`ast_properties_` apart). -/
structure FunctionLiteral extends Expression where
  name_ : Handle
  scope_ : Ptr
  body_ : Ptr
  this_property_assignments_ : Handle
  inferred_name_ : Handle
  materialized_literal_count_ : Int
  expected_property_count_ : Int
  handler_count_ : Int
  parameter_count_ : Int
  function_token_position_ : Int
  bitfield_ : Nat
deriving DecidableEq, Repr

namespace FunctionLiteral

/-- The constructor `FunctionLiteral(isolate, name, scope, body,
materialized_literal_count, expected_property_count, handler_count,
has_only_simple_this_property_assignments, this_property_assignments,
parameter_count, type, has_duplicate_parameters, is_function)`. -/
def new (name : Handle) (scope body : Ptr)
    (materialized_literal_count expected_property_count handler_count : Int)
    (has_only_simple_this_property_assignments : Bool)
    (this_property_assignments : Handle) (parameter_count : Int)
    (type : FunctionLiteral.Type_)
    (has_duplicate_parameters : FunctionLiteral.ParameterFlag)
    (is_function : FunctionLiteral.IsFunctionFlag) : Build FunctionLiteral := do
  let base ← Expression.new
  let inferred_name ← Build.empty_string
  let bitfield :=
    BitField.encode 0 has_only_simple_this_property_assignments.toNat |||
    BitField.encode 1 (decide (type ≠ Type_.DECLARATION)).toNat |||
    BitField.encode 2 (decide (type = Type_.ANONYMOUS_EXPRESSION)).toNat |||
    BitField.encode 3 false.toNat |||
    BitField.encode 4 has_duplicate_parameters.value |||
    BitField.encode 5 is_function.value
  pure { toExpression := base, name_ := name, scope_ := scope, body_ := body,
         this_property_assignments_ := this_property_assignments,
         inferred_name_ := inferred_name,
         materialized_literal_count_ := materialized_literal_count,
         expected_property_count_ := expected_property_count,
         handler_count_ := handler_count,
         parameter_count_ := parameter_count,
         function_token_position_ := RelocInfo.kNoPosition,
         bitfield_ := bitfield }

/-- The function `is_function()`. -/
def is_function (f : FunctionLiteral) : Bool :=
  BitField.decode 5 1 f.bitfield_ == IsFunctionFlag.kIsFunction.value

end FunctionLiteral

/-- The data members of the class `SharedFunctionInfoLiteral`. -/
structure SharedFunctionInfoLiteral extends Expression where
  shared_function_info_ : Handle
deriving DecidableEq, Repr

/-- The constructor `SharedFunctionInfoLiteral(isolate, shared_function_info)`. -/
def SharedFunctionInfoLiteral.new (shared_function_info : Handle) :
    Build SharedFunctionInfoLiteral := do
  let base ← Expression.new
  pure { toExpression := base, shared_function_info_ := shared_function_info }

/-- The data members of the class `ThisFunction`. -/
structure ThisFunction extends Expression where
deriving DecidableEq, Repr

/-- The constructor `ThisFunction(isolate)`. -/
def ThisFunction.new : Build ThisFunction := do
  let base ← Expression.new
  pure { toExpression := base }

/-! ## The node type tag, type testing and conversion -/

/-- The enumeration `AstNode::Type`: one enumerator per class of
`AST_NODE_LIST`, in the order of the list, and `kInvalid`. -/
inductive AstNode.Type_ where
  | kVariableDeclaration
  | kModuleDeclaration
  | kModuleLiteral
  | kModuleVariable
  | kModulePath
  | kModuleUrl
  | kBlock
  | kExpressionStatement
  | kEmptyStatement
  | kIfStatement
  | kContinueStatement
  | kBreakStatement
  | kReturnStatement
  | kWithStatement
  | kSwitchStatement
  | kDoWhileStatement
  | kWhileStatement
  | kForStatement
  | kForInStatement
  | kTryCatchStatement
  | kTryFinallyStatement
  | kDebuggerStatement
  | kFunctionLiteral
  | kSharedFunctionInfoLiteral
  | kConditional
  | kVariableProxy
  | kLiteral
  | kRegExpLiteral
  | kObjectLiteral
  | kArrayLiteral
  | kAssignment
  | kThrow
  | kProperty
  | kCall
  | kCallNew
  | kCallRuntime
  | kUnaryOperation
  | kCountOperation
  | kBinaryOperation
  | kCompareOperation
  | kThisFunction
  | kInvalid
deriving DecidableEq, Repr

/-- The numeric value of an enumerator of `AstNode::Type`: the position in
`AST_NODE_LIST`, and `-1` for `kInvalid`. -/
def AstNode.Type_.value : AstNode.Type_ → Int
  | .kVariableDeclaration => 0
  | .kModuleDeclaration => 1
  | .kModuleLiteral => 2
  | .kModuleVariable => 3
  | .kModulePath => 4
  | .kModuleUrl => 5
  | .kBlock => 6
  | .kExpressionStatement => 7
  | .kEmptyStatement => 8
  | .kIfStatement => 9
  | .kContinueStatement => 10
  | .kBreakStatement => 11
  | .kReturnStatement => 12
  | .kWithStatement => 13
  | .kSwitchStatement => 14
  | .kDoWhileStatement => 15
  | .kWhileStatement => 16
  | .kForStatement => 17
  | .kForInStatement => 18
  | .kTryCatchStatement => 19
  | .kTryFinallyStatement => 20
  | .kDebuggerStatement => 21
  | .kFunctionLiteral => 22
  | .kSharedFunctionInfoLiteral => 23
  | .kConditional => 24
  | .kVariableProxy => 25
  | .kLiteral => 26
  | .kRegExpLiteral => 27
  | .kObjectLiteral => 28
  | .kArrayLiteral => 29
  | .kAssignment => 30
  | .kThrow => 31
  | .kProperty => 32
  | .kCall => 33
  | .kCallNew => 34
  | .kCallRuntime => 35
  | .kUnaryOperation => 36
  | .kCountOperation => 37
  | .kBinaryOperation => 38
  | .kCompareOperation => 39
  | .kThisFunction => 40
  | .kInvalid => -1

/-- The macro `DECLARATION_NODE_LIST`. -/
def DECLARATION_NODE_LIST : List AstNode.Type_ :=
  [.kVariableDeclaration, .kModuleDeclaration]

/-- The macro `MODULE_NODE_LIST`. -/
def MODULE_NODE_LIST : List AstNode.Type_ :=
  [.kModuleLiteral, .kModuleVariable, .kModulePath, .kModuleUrl]

/-- The macro `STATEMENT_NODE_LIST`. -/
def STATEMENT_NODE_LIST : List AstNode.Type_ :=
  [.kBlock, .kExpressionStatement, .kEmptyStatement, .kIfStatement, .kContinueStatement,
  .kBreakStatement, .kReturnStatement, .kWithStatement, .kSwitchStatement,
  .kDoWhileStatement, .kWhileStatement, .kForStatement, .kForInStatement,
  .kTryCatchStatement, .kTryFinallyStatement, .kDebuggerStatement]

/-- The macro `EXPRESSION_NODE_LIST`. -/
def EXPRESSION_NODE_LIST : List AstNode.Type_ :=
  [.kFunctionLiteral, .kSharedFunctionInfoLiteral, .kConditional, .kVariableProxy,
  .kLiteral, .kRegExpLiteral, .kObjectLiteral, .kArrayLiteral, .kAssignment, .kThrow,
  .kProperty, .kCall, .kCallNew, .kCallRuntime, .kUnaryOperation, .kCountOperation,
  .kBinaryOperation, .kCompareOperation, .kThisFunction]

/-- The macro `AST_NODE_LIST`: the concrete classes of AST nodes. -/
def AST_NODE_LIST : List AstNode.Type_ :=
  DECLARATION_NODE_LIST ++ MODULE_NODE_LIST ++ STATEMENT_NODE_LIST ++ EXPRESSION_NODE_LIST

/-- An object of a class derived from `AstNode`: one of the concrete classes of
`AST_NODE_LIST`, or a `TargetCollector`. -/
inductive AstNode where
  | VariableDeclaration (node : V8.VariableDeclaration)
  | ModuleDeclaration (node : V8.ModuleDeclaration)
  | ModuleLiteral (node : V8.ModuleLiteral)
  | ModuleVariable (node : V8.ModuleVariable)
  | ModulePath (node : V8.ModulePath)
  | ModuleUrl (node : V8.ModuleUrl)
  | Block (node : V8.Block)
  | ExpressionStatement (node : V8.ExpressionStatement)
  | EmptyStatement (node : V8.EmptyStatement)
  | IfStatement (node : V8.IfStatement)
  | ContinueStatement (node : V8.ContinueStatement)
  | BreakStatement (node : V8.BreakStatement)
  | ReturnStatement (node : V8.ReturnStatement)
  | WithStatement (node : V8.WithStatement)
  | SwitchStatement (node : V8.SwitchStatement)
  | DoWhileStatement (node : V8.DoWhileStatement)
  | WhileStatement (node : V8.WhileStatement)
  | ForStatement (node : V8.ForStatement)
  | ForInStatement (node : V8.ForInStatement)
  | TryCatchStatement (node : V8.TryCatchStatement)
  | TryFinallyStatement (node : V8.TryFinallyStatement)
  | DebuggerStatement (node : V8.DebuggerStatement)
  | FunctionLiteral (node : V8.FunctionLiteral)
  | SharedFunctionInfoLiteral (node : V8.SharedFunctionInfoLiteral)
  | Conditional (node : V8.Conditional)
  | VariableProxy (node : V8.VariableProxy)
  | Literal (node : V8.Literal)
  | RegExpLiteral (node : V8.RegExpLiteral)
  | ObjectLiteral (node : V8.ObjectLiteral)
  | ArrayLiteral (node : V8.ArrayLiteral)
  | Assignment (node : V8.Assignment)
  | Throw (node : V8.Throw)
  | Property (node : V8.Property)
  | Call (node : V8.Call)
  | CallNew (node : V8.CallNew)
  | CallRuntime (node : V8.CallRuntime)
  | UnaryOperation (node : V8.UnaryOperation)
  | CountOperation (node : V8.CountOperation)
  | BinaryOperation (node : V8.BinaryOperation)
  | CompareOperation (node : V8.CompareOperation)
  | ThisFunction (node : V8.ThisFunction)
  | TargetCollector (node : V8.TargetCollector)
deriving DecidableEq, Repr

namespace AstNode

/-- The virtual `node_type()`: `DECLARE_NODE_TYPE(type)` overrides it in each
concrete class to return `k##type`; a `TargetCollector` inherits the default
of `AstNode`, which returns `kInvalid`. -/
def node_type : AstNode → AstNode.Type_
  | .VariableDeclaration _ => .kVariableDeclaration
  | .ModuleDeclaration _ => .kModuleDeclaration
  | .ModuleLiteral _ => .kModuleLiteral
  | .ModuleVariable _ => .kModuleVariable
  | .ModulePath _ => .kModulePath
  | .ModuleUrl _ => .kModuleUrl
  | .Block _ => .kBlock
  | .ExpressionStatement _ => .kExpressionStatement
  | .EmptyStatement _ => .kEmptyStatement
  | .IfStatement _ => .kIfStatement
  | .ContinueStatement _ => .kContinueStatement
  | .BreakStatement _ => .kBreakStatement
  | .ReturnStatement _ => .kReturnStatement
  | .WithStatement _ => .kWithStatement
  | .SwitchStatement _ => .kSwitchStatement
  | .DoWhileStatement _ => .kDoWhileStatement
  | .WhileStatement _ => .kWhileStatement
  | .ForStatement _ => .kForStatement
  | .ForInStatement _ => .kForInStatement
  | .TryCatchStatement _ => .kTryCatchStatement
  | .TryFinallyStatement _ => .kTryFinallyStatement
  | .DebuggerStatement _ => .kDebuggerStatement
  | .FunctionLiteral _ => .kFunctionLiteral
  | .SharedFunctionInfoLiteral _ => .kSharedFunctionInfoLiteral
  | .Conditional _ => .kConditional
  | .VariableProxy _ => .kVariableProxy
  | .Literal _ => .kLiteral
  | .RegExpLiteral _ => .kRegExpLiteral
  | .ObjectLiteral _ => .kObjectLiteral
  | .ArrayLiteral _ => .kArrayLiteral
  | .Assignment _ => .kAssignment
  | .Throw _ => .kThrow
  | .Property _ => .kProperty
  | .Call _ => .kCall
  | .CallNew _ => .kCallNew
  | .CallRuntime _ => .kCallRuntime
  | .UnaryOperation _ => .kUnaryOperation
  | .CountOperation _ => .kCountOperation
  | .BinaryOperation _ => .kBinaryOperation
  | .CompareOperation _ => .kCompareOperation
  | .ThisFunction _ => .kThisFunction
  | .TargetCollector _ => .kInvalid

/-- The function `Is##type()` that `DECLARE_NODE_FUNCTIONS(type)` declares, for
the class whose enumerator is `type`. -/
def Is (type : AstNode.Type_) (x : AstNode) : Bool := x.node_type == type

/-- The function `As##type()` that `DECLARE_NODE_FUNCTIONS(type)` declares, for
the class whose enumerator is `type`: the node itself, or `NULL` (`none`). -/
def As (type : AstNode.Type_) (x : AstNode) : Option AstNode :=
  if x.Is type then some x else none

end AstNode

/-! ## The node factory -/

/-- The template parameter `Visitor` of `AstNodeFactory`, over a visitor state
`σ`: `Visit type node` is the member function `Visit##type(node)`. -/
structure Visitor (σ : Type) where
  Visit : AstNode.Type_ → AstNode → σ → σ

/-- The state behind an `AstNodeFactory<Visitor>`: the isolate it allocates
ids from and its visitor (the zone apart). -/
structure AstNodeFactory (σ : Type) where
  isolate_ : Isolate
  visitor_ : σ

/-- An operation of the factory: it updates the factory state and yields
`none` when an `ASSERT` fails. -/
def FactoryOp (σ α : Type) : Type := AstNodeFactory σ → Option (α × AstNodeFactory σ)

namespace FactoryOp

/-- Return a value, the factory untouched. -/
def ret {σ α : Type} (a : α) : FactoryOp σ α := fun factory => some (a, factory)

/-- Sequencing: run `m`, then `f` on its result, unless `m` failed. -/
def andThen {σ α β : Type} (m : FactoryOp σ α) (f : α → FactoryOp σ β) : FactoryOp σ β :=
  fun factory =>
    match m factory with
    | none => none
    | some (a, factory1) => f a factory1

instance {σ : Type} : Monad (FactoryOp σ) where
  pure := ret
  bind := andThen

/-- The expression `new(zone_) NodeType(isolate_, ...)`: run a constructor on
the isolate of the factory. -/
def construct {σ α : Type} (ctor : Build α) : FactoryOp σ α :=
  fun factory =>
    match ctor factory.isolate_ with
    | none => none
    | some (node, isolate) => some (node, { factory with isolate_ := isolate })

/-- The statement `visitor_.Visit##NodeType(node)`. -/
def visit {σ : Type} (V : Visitor σ) (type : AstNode.Type_) (node : AstNode) :
    FactoryOp σ Unit :=
  fun factory => some ((), { factory with visitor_ := V.Visit type node factory.visitor_ })

end FactoryOp

namespace AstNodeFactory

open FactoryOp

variable {σ : Type}

/-- The macro `VISIT_AND_RETURN(NodeType, node)`; `wrap` views the node as an
`AstNode`. -/
def VISIT_AND_RETURN {α : Type} (V : Visitor σ) (type : AstNode.Type_)
    (wrap : α → AstNode) (node : α) : FactoryOp σ α := do
  visit V type (wrap node)
  pure node

/-- The operation `NewVariableDeclaration(proxy, mode, fun, scope)`. -/
def NewVariableDeclaration (V : Visitor σ) (proxy : Ptr) (mode : VariableMode)
    (fun_ : Ptr) (scope : Ptr) : FactoryOp σ VariableDeclaration := do
  let decl ← construct (VariableDeclaration.new proxy mode fun_ scope)
  VISIT_AND_RETURN V .kVariableDeclaration AstNode.VariableDeclaration decl

/-- The operation `NewModuleDeclaration(proxy, module, scope)`. -/
def NewModuleDeclaration (V : Visitor σ) (proxy module scope : Ptr) :
    FactoryOp σ ModuleDeclaration := do
  let decl ← construct (ModuleDeclaration.new proxy module scope)
  VISIT_AND_RETURN V .kModuleDeclaration AstNode.ModuleDeclaration decl

/-- The operation `NewModuleLiteral(body)`. -/
def NewModuleLiteral (V : Visitor σ) (body : Ptr) : FactoryOp σ ModuleLiteral := do
  let module ← construct (pure { body_ := body })
  VISIT_AND_RETURN V .kModuleLiteral AstNode.ModuleLiteral module

/-- The operation `NewModuleVariable(proxy)`. -/
def NewModuleVariable (V : Visitor σ) (proxy : Ptr) : FactoryOp σ ModuleVariable := do
  let module ← construct (pure { proxy_ := proxy })
  VISIT_AND_RETURN V .kModuleVariable AstNode.ModuleVariable module

/-- The operation `NewModulePath(origin, name)`. -/
def NewModulePath (V : Visitor σ) (origin : Ptr) (name : Handle) :
    FactoryOp σ ModulePath := do
  let module ← construct (pure { module_ := origin, name_ := name })
  VISIT_AND_RETURN V .kModulePath AstNode.ModulePath module

/-- The operation `NewModuleUrl(url)`. -/
def NewModuleUrl (V : Visitor σ) (url : Handle) : FactoryOp σ ModuleUrl := do
  let module ← construct (pure { url_ := url })
  VISIT_AND_RETURN V .kModuleUrl AstNode.ModuleUrl module

/-- The operation `NewBlock(labels, capacity, is_initializer_block)`. -/
def NewBlock (V : Visitor σ) (labels : Option ZoneStringList) (capacity : Int)
    (is_initializer_block : Bool) : FactoryOp σ Block := do
  let block ← construct (Block.new labels capacity is_initializer_block)
  VISIT_AND_RETURN V .kBlock AstNode.Block block

/-- The operation `NewDoWhileStatement(labels)`, an instance of the macro
`STATEMENT_WITH_LABELS`. -/
def NewDoWhileStatement (V : Visitor σ) (labels : Option ZoneStringList) :
    FactoryOp σ DoWhileStatement := do
  let stmt ← construct (DoWhileStatement.new labels)
  VISIT_AND_RETURN V .kDoWhileStatement AstNode.DoWhileStatement stmt

/-- The operation `NewWhileStatement(labels)`, an instance of the macro
`STATEMENT_WITH_LABELS`. -/
def NewWhileStatement (V : Visitor σ) (labels : Option ZoneStringList) :
    FactoryOp σ WhileStatement := do
  let stmt ← construct (WhileStatement.new labels)
  VISIT_AND_RETURN V .kWhileStatement AstNode.WhileStatement stmt

/-- The operation `NewForStatement(labels)`, an instance of the macro
`STATEMENT_WITH_LABELS`. -/
def NewForStatement (V : Visitor σ) (labels : Option ZoneStringList) :
    FactoryOp σ ForStatement := do
  let stmt ← construct (ForStatement.new labels)
  VISIT_AND_RETURN V .kForStatement AstNode.ForStatement stmt

/-- The operation `NewForInStatement(labels)`, an instance of the macro
`STATEMENT_WITH_LABELS`. -/
def NewForInStatement (V : Visitor σ) (labels : Option ZoneStringList) :
    FactoryOp σ ForInStatement := do
  let stmt ← construct (ForInStatement.new labels)
  VISIT_AND_RETURN V .kForInStatement AstNode.ForInStatement stmt

/-- The operation `NewSwitchStatement(labels)`, an instance of the macro
`STATEMENT_WITH_LABELS`. -/
def NewSwitchStatement (V : Visitor σ) (labels : Option ZoneStringList) :
    FactoryOp σ SwitchStatement := do
  let stmt ← construct (SwitchStatement.new labels)
  VISIT_AND_RETURN V .kSwitchStatement AstNode.SwitchStatement stmt

/-- The operation `NewExpressionStatement(expression)`. -/
def NewExpressionStatement (V : Visitor σ) (expression : Ptr) :
    FactoryOp σ ExpressionStatement := do
  let stmt ← construct (pure { expression_ := expression })
  VISIT_AND_RETURN V .kExpressionStatement AstNode.ExpressionStatement stmt

/-- The operation `NewContinueStatement(target)`. -/
def NewContinueStatement (V : Visitor σ) (target : Ptr) :
    FactoryOp σ ContinueStatement := do
  let stmt ← construct (pure { target_ := target })
  VISIT_AND_RETURN V .kContinueStatement AstNode.ContinueStatement stmt

/-- The operation `NewBreakStatement(target)`. -/
def NewBreakStatement (V : Visitor σ) (target : Ptr) : FactoryOp σ BreakStatement := do
  let stmt ← construct (pure { target_ := target })
  VISIT_AND_RETURN V .kBreakStatement AstNode.BreakStatement stmt

/-- The operation `NewReturnStatement(expression)`. -/
def NewReturnStatement (V : Visitor σ) (expression : Ptr) :
    FactoryOp σ ReturnStatement := do
  let stmt ← construct (pure { expression_ := expression })
  VISIT_AND_RETURN V .kReturnStatement AstNode.ReturnStatement stmt

/-- The operation `NewWithStatement(expression, statement)`. -/
def NewWithStatement (V : Visitor σ) (expression statement : Ptr) :
    FactoryOp σ WithStatement := do
  let stmt ← construct (pure { expression_ := expression, statement_ := statement })
  VISIT_AND_RETURN V .kWithStatement AstNode.WithStatement stmt

/-- The operation `NewIfStatement(condition, then_statement, else_statement)`. -/
def NewIfStatement (V : Visitor σ) (condition then_statement else_statement : Ptr) :
    FactoryOp σ IfStatement := do
  let stmt ← construct (IfStatement.new condition then_statement else_statement)
  VISIT_AND_RETURN V .kIfStatement AstNode.IfStatement stmt

/-- The operation
`NewTryCatchStatement(index, try_block, scope, variable, catch_block)`. -/
def NewTryCatchStatement (V : Visitor σ) (index : Int)
    (try_block scope variable_ catch_block : Ptr) : FactoryOp σ TryCatchStatement := do
  let stmt ← construct (pure
    { index_ := index, try_block_ := try_block, escaping_targets_ := none,
      scope_ := scope, variable_ := variable_, catch_block_ := catch_block })
  VISIT_AND_RETURN V .kTryCatchStatement AstNode.TryCatchStatement stmt

/-- The operation `NewTryFinallyStatement(index, try_block, finally_block)`. -/
def NewTryFinallyStatement (V : Visitor σ) (index : Int) (try_block finally_block : Ptr) :
    FactoryOp σ TryFinallyStatement := do
  let stmt ← construct (pure
    { index_ := index, try_block_ := try_block, escaping_targets_ := none,
      finally_block_ := finally_block })
  VISIT_AND_RETURN V .kTryFinallyStatement AstNode.TryFinallyStatement stmt

/-- The operation `NewDebuggerStatement()`. -/
def NewDebuggerStatement (V : Visitor σ) : FactoryOp σ DebuggerStatement := do
  let stmt ← construct (pure {})
  VISIT_AND_RETURN V .kDebuggerStatement AstNode.DebuggerStatement stmt

/-- The operation `NewEmptyStatement()`: it returns the node without visiting
it. -/
def NewEmptyStatement : FactoryOp σ EmptyStatement :=
  construct (pure {})

/-- The operation `NewLiteral(handle)`. -/
def NewLiteral (V : Visitor σ) (handle : Handle) : FactoryOp σ Literal := do
  let lit ← construct (Literal.new handle)
  VISIT_AND_RETURN V .kLiteral AstNode.Literal lit

/-- The operation `NewNumberLiteral(number)`; `number_handle` is the handle
that `isolate_->factory()->NewNumber(number, TENURED)` returns. -/
def NewNumberLiteral (V : Visitor σ) (number_handle : Handle) : FactoryOp σ Literal :=
  NewLiteral V number_handle

/-- The operation `NewObjectLiteral(constant_properties, properties,
literal_index, is_simple, fast_elements, depth, has_function)`. -/
def NewObjectLiteral (V : Visitor σ) (constant_properties : Handle) (properties : Ptr)
    (literal_index : Int) (is_simple fast_elements : Bool) (depth : Int)
    (has_function : Bool) : FactoryOp σ ObjectLiteral := do
  let lit ← construct (ObjectLiteral.new constant_properties properties literal_index
    is_simple fast_elements depth has_function)
  VISIT_AND_RETURN V .kObjectLiteral AstNode.ObjectLiteral lit

/-- The operation `NewObjectLiteralProperty(is_getter, value)`; `value_name` is
`value->name()`, read through the pointer. The property is not an AST node and
is not visited; its key is a new literal. -/
def NewObjectLiteralProperty (V : Visitor σ) (is_getter : Bool) (value : Ptr)
    (value_name : Handle) : FactoryOp σ ObjectLiteral.Property := do
  let prop ← construct (pure (ObjectLiteral.Property.newAccessor is_getter value))
  let key ← NewLiteral V value_name
  pure { prop with key_ := some key }

/-- The operation `NewRegExpLiteral(pattern, flags, literal_index)`. -/
def NewRegExpLiteral (V : Visitor σ) (pattern flags : Handle) (literal_index : Int) :
    FactoryOp σ RegExpLiteral := do
  let lit ← construct (RegExpLiteral.new pattern flags literal_index)
  VISIT_AND_RETURN V .kRegExpLiteral AstNode.RegExpLiteral lit

/-- The operation `NewArrayLiteral(constant_elements, values, literal_index,
is_simple, depth)`. -/
def NewArrayLiteral (V : Visitor σ) (constant_elements : Handle) (values : List Ptr)
    (literal_index : Int) (is_simple : Bool) (depth : Int) : FactoryOp σ ArrayLiteral := do
  let lit ← construct (ArrayLiteral.new constant_elements values literal_index
    is_simple depth)
  VISIT_AND_RETURN V .kArrayLiteral AstNode.ArrayLiteral lit

/-- The operation `NewVariableProxy(var)`; `var_name` and `var_is_this` are read
through the pointer. -/
def NewVariableProxyBound (V : Visitor σ) (var : Ptr) (var_name : Handle)
    (var_is_this : Bool) : FactoryOp σ VariableProxy := do
  let proxy ← construct (VariableProxy.newBound var var_name var_is_this)
  VISIT_AND_RETURN V .kVariableProxy AstNode.VariableProxy proxy

/-- The operation `NewVariableProxy(name, is_this, position)`. -/
def NewVariableProxy (V : Visitor σ) (name : Handle) (is_this : Bool) (position : Int) :
    FactoryOp σ VariableProxy := do
  let proxy ← construct (VariableProxy.new name is_this position)
  VISIT_AND_RETURN V .kVariableProxy AstNode.VariableProxy proxy

/-- The operation `NewProperty(obj, key, pos)`. -/
def NewProperty (V : Visitor σ) (obj key : Ptr) (pos : Int) : FactoryOp σ Property := do
  let prop ← construct (Property.new obj key pos)
  VISIT_AND_RETURN V .kProperty AstNode.Property prop

/-- The operation `NewCall(expression, arguments, pos)`. -/
def NewCall (V : Visitor σ) (expression arguments : Ptr) (pos : Int) :
    FactoryOp σ Call := do
  let call ← construct (Call.new expression arguments pos)
  VISIT_AND_RETURN V .kCall AstNode.Call call

/-- The operation `NewCallNew(expression, arguments, pos)`. -/
def NewCallNew (V : Visitor σ) (expression arguments : Ptr) (pos : Int) :
    FactoryOp σ CallNew := do
  let call ← construct (CallNew.new expression arguments pos)
  VISIT_AND_RETURN V .kCallNew AstNode.CallNew call

/-- The operation `NewCallRuntime(name, function, arguments)`. -/
def NewCallRuntime (V : Visitor σ) (name : Handle) (function arguments : Ptr) :
    FactoryOp σ CallRuntime := do
  let call ← construct (CallRuntime.new name function arguments)
  VISIT_AND_RETURN V .kCallRuntime AstNode.CallRuntime call

/-- The operation `NewUnaryOperation(op, expression, pos)`. -/
def NewUnaryOperation (T : Token) (V : Visitor σ) (op : Token.Value) (expression : Ptr)
    (pos : Int) : FactoryOp σ UnaryOperation := do
  let node ← construct (UnaryOperation.new T op expression pos)
  VISIT_AND_RETURN V .kUnaryOperation AstNode.UnaryOperation node

/-- The operation `NewBinaryOperation(op, left, right, pos)`. -/
def NewBinaryOperation (T : Token) (V : Visitor σ) (op : Token.Value) (left right : Ptr)
    (pos : Int) : FactoryOp σ BinaryOperation := do
  let node ← construct (BinaryOperation.new T op left right pos)
  VISIT_AND_RETURN V .kBinaryOperation AstNode.BinaryOperation node

/-- The operation `NewCountOperation(op, is_prefix, expr, pos)`. -/
def NewCountOperation (V : Visitor σ) (op : Token.Value) ( is_prefix : Bool) (expr : Ptr)
    (pos : Int) : FactoryOp σ CountOperation := do
  let node ← construct (CountOperation.new op is_prefix expr pos)
  VISIT_AND_RETURN V .kCountOperation AstNode.CountOperation node

/-- The operation `NewCompareOperation(op, left, right, pos)`. -/
def NewCompareOperation (T : Token) (V : Visitor σ) (op : Token.Value) (left right : Ptr)
    (pos : Int) : FactoryOp σ CompareOperation := do
  let node ← construct (CompareOperation.new T op left right pos)
  VISIT_AND_RETURN V .kCompareOperation AstNode.CompareOperation node

/-- The operation `NewConditional(condition, then_expression, else_expression,
then_expression_position, else_expression_position)`. -/
def NewConditional (V : Visitor σ) (condition then_expression else_expression : Ptr)
    (then_expression_position else_expression_position : Int) :
    FactoryOp σ Conditional := do
  let cond ← construct (Conditional.new condition then_expression else_expression
    then_expression_position else_expression_position)
  VISIT_AND_RETURN V .kConditional AstNode.Conditional cond

/-- The member function `Assignment::Init(isolate, factory)`, run on the
assignment `assign`. -/
def Assignment_Init (T : Token) (V : Visitor σ) (assign : Assignment) :
    FactoryOp σ Assignment := do
  construct (Build.ASSERT (T.IsAssignmentOp assign.op_))
  if assign.is_compound T then
    let binary_operation ←
      NewBinaryOperation T V (assign.binary_op T) assign.target_ assign.value_
        (intAdd assign.pos_ 1)
    let compound_load_id ← construct Build.GetNextId
    pure { assign with binary_operation_ := some binary_operation,
                       compound_load_id_ := compound_load_id }
  else
    pure assign

/-- The operation `NewAssignment(op, target, value, pos)`. -/
def NewAssignment (T : Token) (V : Visitor σ) (op : Token.Value) (target value : Ptr)
    (pos : Int) : FactoryOp σ Assignment := do
  let assign ← construct (Assignment.new op target value pos)
  let assign ← Assignment_Init T V assign
  VISIT_AND_RETURN V .kAssignment AstNode.Assignment assign

/-- The operation `NewThrow(exception, pos)`. -/
def NewThrow (V : Visitor σ) (exception : Ptr) (pos : Int) : FactoryOp σ Throw := do
  let t ← construct (Throw.new exception pos)
  VISIT_AND_RETURN V .kThrow AstNode.Throw t

/-- The operation `NewFunctionLiteral(name, scope, body,
materialized_literal_count, expected_property_count, handler_count,
has_only_simple_this_property_assignments, this_property_assignments,
parameter_count, has_duplicate_parameters, type, is_function)`: a top-level
literal is not visited. -/
def NewFunctionLiteral (V : Visitor σ) (name : Handle) (scope body : Ptr)
    (materialized_literal_count expected_property_count handler_count : Int)
    (has_only_simple_this_property_assignments : Bool)
    (this_property_assignments : Handle) (parameter_count : Int)
    (has_duplicate_parameters : FunctionLiteral.ParameterFlag)
    (type : FunctionLiteral.Type_)
    (is_function : FunctionLiteral.IsFunctionFlag) : FactoryOp σ FunctionLiteral := do
  let lit ← construct (FunctionLiteral.new name scope body materialized_literal_count
    expected_property_count handler_count has_only_simple_this_property_assignments
    this_property_assignments parameter_count type has_duplicate_parameters is_function)
  if is_function == FunctionLiteral.IsFunctionFlag.kIsFunction then
    visit V .kFunctionLiteral (AstNode.FunctionLiteral lit)
  pure lit

/-- The operation `NewSharedFunctionInfoLiteral(shared_function_info)`. -/
def NewSharedFunctionInfoLiteral (V : Visitor σ) (shared_function_info : Handle) :
    FactoryOp σ SharedFunctionInfoLiteral := do
  let lit ← construct (SharedFunctionInfoLiteral.new shared_function_info)
  VISIT_AND_RETURN V .kSharedFunctionInfoLiteral AstNode.SharedFunctionInfoLiteral lit

/-- The operation `NewThisFunction()`. -/
def NewThisFunction (V : Visitor σ) : FactoryOp σ ThisFunction := do
  let fn ← construct ThisFunction.new
  VISIT_AND_RETURN V .kThisFunction AstNode.ThisFunction fn

end AstNodeFactory

/-! ## Sequences of factory operations and the ids they mint -/

/-- A call of an operation of `AstNodeFactory`, with its arguments. -/
inductive FactoryCall where
  | NewVariableDeclaration (proxy : Ptr) (mode : VariableMode) (fun_ : Ptr) (scope : Ptr)
  | NewModuleDeclaration (proxy module scope : Ptr)
  | NewModuleLiteral (body : Ptr)
  | NewModuleVariable (proxy : Ptr)
  | NewModulePath (origin : Ptr) (name : Handle)
  | NewModuleUrl (url : Handle)
  | NewBlock (labels : Option ZoneStringList) (capacity : Int) (is_initializer_block : Bool)
  | NewDoWhileStatement (labels : Option ZoneStringList)
  | NewWhileStatement (labels : Option ZoneStringList)
  | NewForStatement (labels : Option ZoneStringList)
  | NewForInStatement (labels : Option ZoneStringList)
  | NewSwitchStatement (labels : Option ZoneStringList)
  | NewExpressionStatement (expression : Ptr)
  | NewContinueStatement (target : Ptr)
  | NewBreakStatement (target : Ptr)
  | NewReturnStatement (expression : Ptr)
  | NewWithStatement (expression statement : Ptr)
  | NewIfStatement (condition then_statement else_statement : Ptr)
  | NewTryCatchStatement (index : Int) (try_block scope variable_ catch_block : Ptr)
  | NewTryFinallyStatement (index : Int) (try_block finally_block : Ptr)
  | NewDebuggerStatement
  | NewEmptyStatement
  | NewLiteral (handle : Handle)
  | NewNumberLiteral (number_handle : Handle)
  | NewObjectLiteral (constant_properties : Handle) (properties : Ptr)
      (literal_index : Int) (is_simple fast_elements : Bool) (depth : Int)
      (has_function : Bool)
  | NewObjectLiteralProperty (is_getter : Bool) (value : Ptr) (value_name : Handle)
  | NewRegExpLiteral (pattern flags : Handle) (literal_index : Int)
  | NewArrayLiteral (constant_elements : Handle) (values : List Ptr)
      (literal_index : Int) (is_simple : Bool) (depth : Int)
  | NewVariableProxyBound (var : Ptr) (var_name : Handle) (var_is_this : Bool)
  | NewVariableProxy (name : Handle) (is_this : Bool) (position : Int)
  | NewProperty (obj key : Ptr) (pos : Int)
  | NewCall (expression arguments : Ptr) (pos : Int)
  | NewCallNew (expression arguments : Ptr) (pos : Int)
  | NewCallRuntime (name : Handle) (function arguments : Ptr)
  | NewUnaryOperation (op : Token.Value) (expression : Ptr) (pos : Int)
  | NewBinaryOperation (op : Token.Value) (left right : Ptr) (pos : Int)
  | NewCountOperation (op : Token.Value) ( is_prefix : Bool) (expr : Ptr) (pos : Int)
  | NewCompareOperation (op : Token.Value) (left right : Ptr) (pos : Int)
  | NewConditional (condition then_expression else_expression : Ptr)
      (then_expression_position else_expression_position : Int)
  | NewAssignment (op : Token.Value) (target value : Ptr) (pos : Int)
  | NewThrow (exception : Ptr) (pos : Int)
  | NewFunctionLiteral (name : Handle) (scope body : Ptr)
      (materialized_literal_count expected_property_count handler_count : Int)
      (has_only_simple_this_property_assignments : Bool)
      (this_property_assignments : Handle) (parameter_count : Int)
      (has_duplicate_parameters : FunctionLiteral.ParameterFlag)
      (type : FunctionLiteral.Type_)
      (is_function : FunctionLiteral.IsFunctionFlag)
  | NewSharedFunctionInfoLiteral (shared_function_info : Handle)
  | NewThisFunction

namespace AstNodeFactory

variable {σ : Type}

/-- Run one call on the factory; the result lists the AST nodes the call has
created, in the order in which their construction completed: the node it
returns, before it the binary operation synthesized by a compound
`NewAssignment`, and for `NewObjectLiteralProperty` the key literal. -/
def call (T : Token) (V : Visitor σ) : FactoryCall → FactoryOp σ (List AstNode)
  | .NewVariableDeclaration proxy mode fun_ scope => do
      let n ← NewVariableDeclaration V proxy mode fun_ scope
      pure [AstNode.VariableDeclaration n]
  | .NewModuleDeclaration proxy module scope => do
      let n ← NewModuleDeclaration V proxy module scope
      pure [AstNode.ModuleDeclaration n]
  | .NewModuleLiteral body => do
      let n ← NewModuleLiteral V body
      pure [AstNode.ModuleLiteral n]
  | .NewModuleVariable proxy => do
      let n ← NewModuleVariable V proxy
      pure [AstNode.ModuleVariable n]
  | .NewModulePath origin name => do
      let n ← NewModulePath V origin name
      pure [AstNode.ModulePath n]
  | .NewModuleUrl url => do
      let n ← NewModuleUrl V url
      pure [AstNode.ModuleUrl n]
  | .NewBlock labels capacity is_initializer_block => do
      let n ← NewBlock V labels capacity is_initializer_block
      pure [AstNode.Block n]
  | .NewDoWhileStatement labels => do
      let n ← NewDoWhileStatement V labels
      pure [AstNode.DoWhileStatement n]
  | .NewWhileStatement labels => do
      let n ← NewWhileStatement V labels
      pure [AstNode.WhileStatement n]
  | .NewForStatement labels => do
      let n ← NewForStatement V labels
      pure [AstNode.ForStatement n]
  | .NewForInStatement labels => do
      let n ← NewForInStatement V labels
      pure [AstNode.ForInStatement n]
  | .NewSwitchStatement labels => do
      let n ← NewSwitchStatement V labels
      pure [AstNode.SwitchStatement n]
  | .NewExpressionStatement expression => do
      let n ← NewExpressionStatement V expression
      pure [AstNode.ExpressionStatement n]
  | .NewContinueStatement target => do
      let n ← NewContinueStatement V target
      pure [AstNode.ContinueStatement n]
  | .NewBreakStatement target => do
      let n ← NewBreakStatement V target
      pure [AstNode.BreakStatement n]
  | .NewReturnStatement expression => do
      let n ← NewReturnStatement V expression
      pure [AstNode.ReturnStatement n]
  | .NewWithStatement expression statement => do
      let n ← NewWithStatement V expression statement
      pure [AstNode.WithStatement n]
  | .NewIfStatement condition then_statement else_statement => do
      let n ← NewIfStatement V condition then_statement else_statement
      pure [AstNode.IfStatement n]
  | .NewTryCatchStatement index try_block scope variable_ catch_block => do
      let n ← NewTryCatchStatement V index try_block scope variable_ catch_block
      pure [AstNode.TryCatchStatement n]
  | .NewTryFinallyStatement index try_block finally_block => do
      let n ← NewTryFinallyStatement V index try_block finally_block
      pure [AstNode.TryFinallyStatement n]
  | .NewDebuggerStatement => do
      let n ← NewDebuggerStatement V
      pure [AstNode.DebuggerStatement n]
  | .NewEmptyStatement => do
      let n ← NewEmptyStatement
      pure [AstNode.EmptyStatement n]
  | .NewLiteral handle => do
      let n ← NewLiteral V handle
      pure [AstNode.Literal n]
  | .NewNumberLiteral number_handle => do
      let n ← NewNumberLiteral V number_handle
      pure [AstNode.Literal n]
  | .NewObjectLiteral constant_properties properties literal_index is_simple
      fast_elements depth has_function => do
      let n ← NewObjectLiteral V constant_properties properties literal_index is_simple
        fast_elements depth has_function
      pure [AstNode.ObjectLiteral n]
  | .NewObjectLiteralProperty is_getter value value_name => do
      let prop ← NewObjectLiteralProperty V is_getter value value_name
      pure (match prop.key_ with
            | some key => [AstNode.Literal key]
            | none => [])
  | .NewRegExpLiteral pattern flags literal_index => do
      let n ← NewRegExpLiteral V pattern flags literal_index
      pure [AstNode.RegExpLiteral n]
  | .NewArrayLiteral constant_elements values literal_index is_simple depth => do
      let n ← NewArrayLiteral V constant_elements values literal_index is_simple depth
      pure [AstNode.ArrayLiteral n]
  | .NewVariableProxyBound var var_name var_is_this => do
      let n ← NewVariableProxyBound V var var_name var_is_this
      pure [AstNode.VariableProxy n]
  | .NewVariableProxy name is_this position => do
      let n ← NewVariableProxy V name is_this position
      pure [AstNode.VariableProxy n]
  | .NewProperty obj key pos => do
      let n ← NewProperty V obj key pos
      pure [AstNode.Property n]
  | .NewCall expression arguments pos => do
      let n ← NewCall V expression arguments pos
      pure [AstNode.Call n]
  | .NewCallNew expression arguments pos => do
      let n ← NewCallNew V expression arguments pos
      pure [AstNode.CallNew n]
  | .NewCallRuntime name function arguments => do
      let n ← NewCallRuntime V name function arguments
      pure [AstNode.CallRuntime n]
  | .NewUnaryOperation op expression pos => do
      let n ← NewUnaryOperation T V op expression pos
      pure [AstNode.UnaryOperation n]
  | .NewBinaryOperation op left right pos => do
      let n ← NewBinaryOperation T V op left right pos
      pure [AstNode.BinaryOperation n]
  | .NewCountOperation op is_prefix expr pos => do
      let n ← NewCountOperation V op is_prefix expr pos
      pure [AstNode.CountOperation n]
  | .NewCompareOperation op left right pos => do
      let n ← NewCompareOperation T V op left right pos
      pure [AstNode.CompareOperation n]
  | .NewConditional condition then_expression else_expression then_expression_position
      else_expression_position => do
      let n ← NewConditional V condition then_expression else_expression
        then_expression_position else_expression_position
      pure [AstNode.Conditional n]
  | .NewAssignment op target value pos => do
      let n ← NewAssignment T V op target value pos
      pure (match n.binary_operation_ with
            | some binary_operation =>
                [AstNode.BinaryOperation binary_operation, AstNode.Assignment n]
            | none => [AstNode.Assignment n])
  | .NewThrow exception pos => do
      let n ← NewThrow V exception pos
      pure [AstNode.Throw n]
  | .NewFunctionLiteral name scope body materialized_literal_count
      expected_property_count handler_count has_only_simple_this_property_assignments
      this_property_assignments parameter_count has_duplicate_parameters type
      is_function => do
      let n ← NewFunctionLiteral V name scope body materialized_literal_count
        expected_property_count handler_count has_only_simple_this_property_assignments
        this_property_assignments parameter_count has_duplicate_parameters type
        is_function
      pure [AstNode.FunctionLiteral n]
  | .NewSharedFunctionInfoLiteral shared_function_info => do
      let n ← NewSharedFunctionInfoLiteral V shared_function_info
      pure [AstNode.SharedFunctionInfoLiteral n]
  | .NewThisFunction => do
      let n ← NewThisFunction V
      pure [AstNode.ThisFunction n]

/-- Run a sequence of calls, one after the other, on the factory; the result
lists the nodes created, in order. A failed check in a call fails the
sequence. -/
def callAll (T : Token) (V : Visitor σ) : List FactoryCall → FactoryOp σ (List AstNode)
  | [] => pure []
  | c :: cs => do
      let nodes ← call T V c
      let rest ← callAll T V cs
      pure (nodes ++ rest)

end AstNodeFactory

namespace AstNode

/-- The compiler ids minted for a node, in the order in which its constructor
minted them: the values that `GetNextId` and `ReserveIdRange` returned for its
id members. A member left at the no-id sentinel (the materialize ids of a
unary operation other than `NOT`, the right id of a binary operation other
than `AND` and `OR`, the compound-load id of a simple assignment) holds no
minted id; the element ids of an array literal are `GetIdForElement(i)` for
`0 <= i < values()->length()`. -/
def mintedIds (T : Token) : AstNode → List Int
  | .VariableDeclaration _ => []
  | .ModuleDeclaration _ => []
  | .ModuleLiteral _ => []
  | .ModuleVariable _ => []
  | .ModulePath _ => []
  | .ModuleUrl _ => []
  | .Block n => [n.entry_id_, n.exit_id_]
  | .ExpressionStatement _ => []
  | .EmptyStatement _ => []
  | .IfStatement n => [n.if_id_, n.then_id_, n.else_id_]
  | .ContinueStatement _ => []
  | .BreakStatement _ => []
  | .ReturnStatement _ => []
  | .WithStatement _ => []
  | .SwitchStatement n => [n.entry_id_, n.exit_id_]
  | .DoWhileStatement n =>
      [n.entry_id_, n.exit_id_, n.osr_entry_id_, n.continue_id_, n.back_edge_id_]
  | .WhileStatement n => [n.entry_id_, n.exit_id_, n.osr_entry_id_, n.body_id_]
  | .ForStatement n =>
      [n.entry_id_, n.exit_id_, n.osr_entry_id_, n.continue_id_, n.body_id_]
  | .ForInStatement n =>
      [n.entry_id_, n.exit_id_, n.osr_entry_id_, n.body_id_, n.prepare_id_]
  | .TryCatchStatement _ => []
  | .TryFinallyStatement _ => []
  | .DebuggerStatement _ => []
  | .FunctionLiteral n => [n.id_, n.test_id_]
  | .SharedFunctionInfoLiteral n => [n.id_, n.test_id_]
  | .Conditional n => [n.id_, n.test_id_, n.then_id_, n.else_id_]
  | .VariableProxy n => [n.id_, n.test_id_]
  | .Literal n => [n.id_, n.test_id_]
  | .RegExpLiteral n => [n.id_, n.test_id_]
  | .ObjectLiteral n => [n.id_, n.test_id_]
  | .ArrayLiteral n =>
      [n.id_, n.test_id_] ++
        (List.range n.values_.length).map (fun i : Nat => n.GetIdForElement (i : Int))
  | .Assignment n =>
      [n.id_, n.test_id_, n.assignment_id_] ++
        (if n.is_compound T then [n.compound_load_id_] else [])
  | .Throw n => [n.id_, n.test_id_]
  | .Property n => [n.id_, n.test_id_]
  | .Call n => [n.id_, n.test_id_, n.return_id_]
  | .CallNew n => [n.id_, n.test_id_, n.return_id_]
  | .CallRuntime n => [n.id_, n.test_id_]
  | .UnaryOperation n =>
      [n.id_, n.test_id_] ++
        (if n.op_ == T.NOT then [n.materialize_true_id_, n.materialize_false_id_] else [])
  | .CountOperation n => [n.id_, n.test_id_, n.assignment_id_, n.count_id_]
  | .BinaryOperation n =>
      [n.id_, n.test_id_] ++ (if n.op_ == T.AND || n.op_ == T.OR then [n.right_id_] else [])
  | .CompareOperation n => [n.id_, n.test_id_]
  | .ThisFunction n => [n.id_, n.test_id_]
  | .TargetCollector _ => []

/-- All the ids minted for the nodes of a list, node after node. -/
def mintedIdsAll (T : Token) (nodes : List AstNode) : List Int :=
  (nodes.map (mintedIds T)).flatten

end AstNode

/-! ## Visitors and tokens for concrete evaluation -/

/-- The class `AstNullVisitor`: every `Visit##type` is empty. -/
def AstNullVisitor : Visitor Unit :=
  { Visit := fun _ _ state => state }

/-- A sample token table in the manner of `token.h`, for evaluating the
definitions on concrete inputs: the assignment operators are `13 .. 28` with
`ASSIGN = 17`, the binary operators `29 .. 42`, the compare operators
`43 .. 52`, the unary operators `53 .. 57` and `ADD`, `SUB`. -/
def Token.sample : Token :=
  { NOT := 53
    AND := 31
    OR := 30
    ASSIGN := 17
    INC := 11
    ADD := 38
    SUB := 39
    IsUnaryOp := fun op => decide (53 ≤ op ∧ op ≤ 57) || op == 38 || op == 39
    IsBinaryOp := fun op => decide (29 ≤ op ∧ op ≤ 42)
    IsCompareOp := fun op => decide (43 ≤ op ∧ op ≤ 52)
    IsAssignmentOp := fun op => decide (13 ≤ op ∧ op ≤ 28)
    binary_op := fun op => op + 14 }

/-! ## Runs of consecutive ids -/

/-- The list `ids` is the run of consecutive `int` values that starts at `c`,
each the C++ successor of the one before, and `c'` is the successor of the
last (or `c` itself for the empty run): what a counter at `c` hands out id by
id, ending at `c'`. -/
def Consec : Int → List Int → Int → Prop
  | c, [], c' => c' = c
  | c, x :: xs, c' => x = c ∧ Consec (wrapInt (c + 1)) xs c'

/-- The ids `ids`, in some order, are the run of consecutive values handed out
by a counter that starts at `c` and ends at `c'`. -/
def Mints (c : Int) (ids : List Int) (c' : Int) : Prop :=
  ∃ run : List Int, run.Perm ids ∧ Consec c run c'

/-! ## Accessors of expressions -/

/-- The conversion of an `int` to `unsigned`: the value modulo `2^32`. -/
def toUnsigned (x : Int) : Int := x % 4294967296

/-- The accessor `Expression::id()`, which returns `unsigned`. -/
def Expression.id (e : Expression) : Int := toUnsigned e.id_

/-- The accessor `Expression::test_id()`, which returns `unsigned`. -/
def Expression.test_id (e : Expression) : Int := toUnsigned e.test_id_

/-- The accessor `BinaryOperation::op()`. -/
def BinaryOperation.op (b : BinaryOperation) : Token.Value := b.op_

/-- The accessor `BinaryOperation::left()`. -/
def BinaryOperation.left (b : BinaryOperation) : Ptr := b.left_

/-- The accessor `BinaryOperation::right()`. -/
def BinaryOperation.right (b : BinaryOperation) : Ptr := b.right_

/-- The accessor `BinaryOperation::position()`. -/
def BinaryOperation.position (b : BinaryOperation) : Int := b.pos_

/-- The `Expression` base sub-object of a node of a class derived from
`Expression`; `none` for a node of another class. -/
def AstNode.expressionPart : AstNode → Option Expression
  | .FunctionLiteral n => some n.toExpression
  | .SharedFunctionInfoLiteral n => some n.toExpression
  | .Conditional n => some n.toExpression
  | .VariableProxy n => some n.toExpression
  | .Literal n => some n.toExpression
  | .RegExpLiteral n => some n.toExpression
  | .ObjectLiteral n => some n.toExpression
  | .ArrayLiteral n => some n.toExpression
  | .Assignment n => some n.toExpression
  | .Throw n => some n.toExpression
  | .Property n => some n.toExpression
  | .Call n => some n.toExpression
  | .CallNew n => some n.toExpression
  | .CallRuntime n => some n.toExpression
  | .UnaryOperation n => some n.toExpression
  | .CountOperation n => some n.toExpression
  | .BinaryOperation n => some n.toExpression
  | .CompareOperation n => some n.toExpression
  | .ThisFunction n => some n.toExpression
  | _ => none

/-! ## The class hierarchy and the family narrowing operations -/

/-- The classes derived from `IterationStatement`. -/
inductive IterationStatement.Class where
  | DoWhileStatement
  | WhileStatement
  | ForStatement
  | ForInStatement
deriving DecidableEq, Repr

/-- The classes derived from `BreakableStatement`: `Block`, `SwitchStatement`,
and, through `IterationStatement`, the loops. -/
inductive BreakableStatement.Class where
  | Block
  | SwitchStatement
  | IterationStatement (c : IterationStatement.Class)
deriving DecidableEq, Repr

/-- The classes derived from `TryStatement`. -/
inductive TryStatement.Class where
  | TryCatchStatement
  | TryFinallyStatement
deriving DecidableEq, Repr

/-- The classes derived from `Statement`, directly or through
`BreakableStatement` or `TryStatement`. -/
inductive Statement.Class where
  | BreakableStatement (c : BreakableStatement.Class)
  | ExpressionStatement
  | ContinueStatement
  | BreakStatement
  | ReturnStatement
  | WithStatement
  | IfStatement
  | TryStatement (c : TryStatement.Class)
  | DebuggerStatement
  | EmptyStatement
deriving DecidableEq, Repr

/-- The classes derived from `MaterializedLiteral`. -/
inductive MaterializedLiteral.Class where
  | ObjectLiteral
  | RegExpLiteral
  | ArrayLiteral
deriving DecidableEq, Repr

/-- The classes derived from `Expression`, directly or through
`MaterializedLiteral`. -/
inductive Expression.Class where
  | Literal
  | MaterializedLiteral (c : MaterializedLiteral.Class)
  | VariableProxy
  | Property
  | Call
  | CallNew
  | CallRuntime
  | UnaryOperation
  | BinaryOperation
  | CountOperation
  | CompareOperation
  | Conditional
  | Assignment
  | Throw
  | FunctionLiteral
  | SharedFunctionInfoLiteral
  | ThisFunction
deriving DecidableEq, Repr

/-- The classes derived from `Declaration`. -/
inductive Declaration.Class where
  | VariableDeclaration
  | ModuleDeclaration
deriving DecidableEq, Repr

/-- The classes derived from `Module`. -/
inductive Module.Class where
  | ModuleLiteral
  | ModuleVariable
  | ModulePath
  | ModuleUrl
deriving DecidableEq, Repr

/-- The classes derived from `AstNode`, each under the base class it names
after `public`: through `Statement`, `Expression`, `Declaration` or `Module`,
or `TargetCollector`, which derives from `AstNode` directly. -/
inductive AstNode.Class where
  | Statement (c : Statement.Class)
  | Expression (c : Expression.Class)
  | Declaration (c : Declaration.Class)
  | Module (c : Module.Class)
  | TargetCollector
deriving DecidableEq, Repr

namespace AstNode

/-- The class of a node, with the chain of base classes it derives from. -/
def dynamicClass : AstNode → AstNode.Class
  | .VariableDeclaration _ => .Declaration .VariableDeclaration
  | .ModuleDeclaration _ => .Declaration .ModuleDeclaration
  | .ModuleLiteral _ => .Module .ModuleLiteral
  | .ModuleVariable _ => .Module .ModuleVariable
  | .ModulePath _ => .Module .ModulePath
  | .ModuleUrl _ => .Module .ModuleUrl
  | .Block _ => .Statement (.BreakableStatement .Block)
  | .ExpressionStatement _ => .Statement .ExpressionStatement
  | .EmptyStatement _ => .Statement .EmptyStatement
  | .IfStatement _ => .Statement .IfStatement
  | .ContinueStatement _ => .Statement .ContinueStatement
  | .BreakStatement _ => .Statement .BreakStatement
  | .ReturnStatement _ => .Statement .ReturnStatement
  | .WithStatement _ => .Statement .WithStatement
  | .SwitchStatement _ => .Statement (.BreakableStatement .SwitchStatement)
  | .DoWhileStatement _ =>
      .Statement (.BreakableStatement (.IterationStatement .DoWhileStatement))
  | .WhileStatement _ =>
      .Statement (.BreakableStatement (.IterationStatement .WhileStatement))
  | .ForStatement _ =>
      .Statement (.BreakableStatement (.IterationStatement .ForStatement))
  | .ForInStatement _ =>
      .Statement (.BreakableStatement (.IterationStatement .ForInStatement))
  | .TryCatchStatement _ => .Statement (.TryStatement .TryCatchStatement)
  | .TryFinallyStatement _ => .Statement (.TryStatement .TryFinallyStatement)
  | .DebuggerStatement _ => .Statement .DebuggerStatement
  | .FunctionLiteral _ => .Expression .FunctionLiteral
  | .SharedFunctionInfoLiteral _ => .Expression .SharedFunctionInfoLiteral
  | .Conditional _ => .Expression .Conditional
  | .VariableProxy _ => .Expression .VariableProxy
  | .Literal _ => .Expression .Literal
  | .RegExpLiteral _ => .Expression (.MaterializedLiteral .RegExpLiteral)
  | .ObjectLiteral _ => .Expression (.MaterializedLiteral .ObjectLiteral)
  | .ArrayLiteral _ => .Expression (.MaterializedLiteral .ArrayLiteral)
  | .Assignment _ => .Expression .Assignment
  | .Throw _ => .Expression .Throw
  | .Property _ => .Expression .Property
  | .Call _ => .Expression .Call
  | .CallNew _ => .Expression .CallNew
  | .CallRuntime _ => .Expression .CallRuntime
  | .UnaryOperation _ => .Expression .UnaryOperation
  | .CountOperation _ => .Expression .CountOperation
  | .BinaryOperation _ => .Expression .BinaryOperation
  | .CompareOperation _ => .Expression .CompareOperation
  | .ThisFunction _ => .Expression .ThisFunction
  | .TargetCollector _ => .TargetCollector

/-- The virtual `AsDeclaration()`: `NULL` in `AstNode`, overridden in
`Declaration` to return `this`. -/
def AsDeclaration (x : AstNode) : Option AstNode :=
  match x.dynamicClass with
  | .Declaration _ => some x
  | _ => none

/-- The virtual `AsStatement()`: `NULL` in `AstNode`, overridden in `Statement`
to return `this`. -/
def AsStatement (x : AstNode) : Option AstNode :=
  match x.dynamicClass with
  | .Statement _ => some x
  | _ => none

/-- The virtual `AsExpression()`: `NULL` in `AstNode`, overridden in
`Expression` to return `this`. -/
def AsExpression (x : AstNode) : Option AstNode :=
  match x.dynamicClass with
  | .Expression _ => some x
  | _ => none

/-- The virtual `AsTargetCollector()`: `NULL` in `AstNode`, overridden in
`TargetCollector` to return `this`. -/
def AsTargetCollector (x : AstNode) : Option AstNode :=
  match x.dynamicClass with
  | .TargetCollector => some x
  | _ => none

/-- The virtual `AsBreakableStatement()`: `NULL` in `AstNode`, overridden in
`BreakableStatement` to return `this`. -/
def AsBreakableStatement (x : AstNode) : Option AstNode :=
  match x.dynamicClass with
  | .Statement (.BreakableStatement _) => some x
  | _ => none

/-- The virtual `AsIterationStatement()`: `NULL` in `AstNode`, overridden in
`IterationStatement` to return `this`. -/
def AsIterationStatement (x : AstNode) : Option AstNode :=
  match x.dynamicClass with
  | .Statement (.BreakableStatement (.IterationStatement _)) => some x
  | _ => none

/-- The virtual `AsMaterializedLiteral()`: `NULL` in `AstNode`, overridden in
`MaterializedLiteral` to return `this`. -/
def AsMaterializedLiteral (x : AstNode) : Option AstNode :=
  match x.dynamicClass with
  | .Expression (.MaterializedLiteral _) => some x
  | _ => none

end AstNode

/-! ## The visitor -/

/-- The data members of the class `AstVisitor` (the isolate apart), together
with the state `derived_` of the class derived from it. -/
structure AstVisitor (σ : Type) where
  stack_overflow_ : Bool
  derived_ : σ
deriving DecidableEq, Repr

namespace AstVisitor

variable {σ : Type}

/-- The constructor `AstVisitor()`: the overflow flag starts clear. -/
def new (derived : σ) : AstVisitor σ :=
  { stack_overflow_ := false, derived_ := derived }

/-- The function `HasStackOverflow()`. -/
def HasStackOverflow (v : AstVisitor σ) : Bool := v.stack_overflow_

/-- The function `SetStackOverflow()`. -/
def SetStackOverflow (v : AstVisitor σ) : AstVisitor σ :=
  { v with stack_overflow_ := true }

/-- The function `ClearStackOverflow()`. -/
def ClearStackOverflow (v : AstVisitor σ) : AstVisitor σ :=
  { v with stack_overflow_ := false }

/-- Modelled from the spec: `CheckStackOverflow()` is only declared in `ast.h`
and defined in `ast.cc`, outside the sources at hand. The recursion-depth
check of the driver: once the flag is set the answer is overflow; otherwise
the depth is checked (`stack_has_overflowed` is the outcome of that check at
this call) and, on overflow, the sticky flag is set. -/
def CheckStackOverflow (stack_has_overflowed : Bool) (v : AstVisitor σ) :
    Bool × AstVisitor σ :=
  if v.stack_overflow_ then (true, v)
  else if stack_has_overflowed then (true, { v with stack_overflow_ := true })
  else (false, v)

end AstVisitor

/-- Modelled from the spec: `Accept(v)` is only declared for the concrete
classes (`DECLARE_NODE_TYPE`) and defined in `ast.cc`, outside the sources at
hand. The double-dispatch entry point: it invokes the visitor case
`Visit##type` of the kind of the node, on the node. `TargetCollector::Accept`,
defined in `ast.h`, is `UNREACHABLE()`, a failure. The cases of the visitor are
the pure virtual `Visit##type`, as the derived class implements them. -/
def AstNode.Accept {σ : Type} (cases : Visitor (AstVisitor σ)) (x : AstNode)
    (v : AstVisitor σ) : Option (AstVisitor σ) :=
  match x with
  | .TargetCollector _ => none
  | _ => some (cases.Visit x.node_type x v)

namespace AstVisitor

variable {σ : Type}

/-- The function `Visit(node)`: the stack overflow check, and the dynamic
dispatch unless it reports an overflow. -/
def Visit (cases : Visitor (AstVisitor σ)) (stack_has_overflowed : Bool)
    (node : AstNode) (v : AstVisitor σ) : Option (AstVisitor σ) :=
  let check := v.CheckStackOverflow stack_has_overflowed
  if !check.1 then node.Accept cases check.2 else some check.2

/-- A sequence of `Visit` calls on the same visitor, each with the outcome of
the depth check at that call. -/
def visitAll (cases : Visitor (AstVisitor σ)) :
    List (Bool × AstNode) → AstVisitor σ → Option (AstVisitor σ)
  | [], v => some v
  | (stack_has_overflowed, node) :: rest, v =>
      match Visit cases stack_has_overflowed node v with
      | none => none
      | some v1 => visitAll cases rest v1

end AstVisitor

/-- A recording visitor: each case appends the kind it stands for and the node
it is given to the list it keeps. -/
def recordingVisitor : Visitor (AstVisitor (List (AstNode.Type_ × AstNode))) :=
  { Visit := fun type node v => { v with derived_ := v.derived_ ++ [(type, node)] } }

/-- A visitor for the factory that records its visits: each case appends the
kind it stands for and the node it is given to the list it keeps. -/
def recordingConstructionVisitor : Visitor (List (AstNode.Type_ × AstNode)) :=
  { Visit := fun type node visits => visits ++ [(type, node)] }

/-! ## Kinds of factory calls -/

/-- Whether a call is `NewEmptyStatement()`. -/
def FactoryCall.isNewEmptyStatement : FactoryCall → Bool
  | .NewEmptyStatement => true
  | _ => false

/-- Whether a call is a `NewFunctionLiteral` whose `is_function` argument is
`kGlobalOrEval`: a top-level literal. -/
def FactoryCall.isTopLevelFunctionLiteral : FactoryCall → Bool
  | .NewFunctionLiteral _ _ _ _ _ _ _ _ _ _ _ is_function =>
      is_function == FunctionLiteral.IsFunctionFlag.kGlobalOrEval
  | _ => false


/-! ## Operations on the regular expression tree -/

namespace RegExpText

/-- The member function `RegExpText::AddElement(elm)`: appends the element and
adds its length to `length_`; `none` on an object of another class. -/
def AddElement (elm : TextElement) : RegExpTree → Option RegExpTree
  | .Text elements_ length_ => some (.Text (elements_ ++ [elm]) (intAdd length_ elm.length))
  | _ => none

end RegExpText

namespace RegExpTree

/-- The node the `i`-th pointer of a node refers to: the `i`-th alternative of
a disjunction, the `i`-th node of an alternative, the body of a quantifier, a
capture or a lookahead, the body of the capture of a back reference. -/
def child : RegExpTree → Nat → Option RegExpTree
  | Disjunction alternatives_ _ _, i => alternatives_.get? i
  | Alternative nodes_ _ _, i => nodes_.get? i
  | Quantifier body_ _ _ _ _ _, 0 => some body_
  | Capture body_ _, 0 => some body_
  | Lookahead body_ _ _ _, 0 => some body_
  | BackReference capture_body_ _, 0 => some capture_body_
  | _, _ => none

/-- The node as it reads after the node its `i`-th pointer refers to has
changed to `c`: the data members of the node itself are as they were. -/
def withChild : RegExpTree → Nat → RegExpTree → RegExpTree
  | Disjunction alternatives_ min_match_ max_match_, i, c =>
      Disjunction (alternatives_.set i c) min_match_ max_match_
  | Alternative nodes_ min_match_ max_match_, i, c =>
      Alternative (nodes_.set i c) min_match_ max_match_
  | Quantifier _ min_ max_ min_match_ max_match_ type_, 0, c =>
      Quantifier c min_ max_ min_match_ max_match_ type_
  | Capture _ index_, 0, c => Capture c index_
  | Lookahead _ is_positive_ capture_count_ capture_from_, 0, c =>
      Lookahead c is_positive_ capture_count_ capture_from_
  | BackReference _ capture_index_, 0, c => BackReference c capture_index_
  | t, _, _ => t

/-- The call `text->AddElement(elm)` on the text node reached from a node by
following the pointers `path` (the node itself for the empty path), seen from
that node; `none` when the path does not lead to a `RegExpText`. -/
def AddElementAt (elm : TextElement) : List Nat → RegExpTree → Option RegExpTree
  | [], t => RegExpText.AddElement elm t
  | i :: path, t =>
      match t.child i with
      | none => none
      | some c =>
          match AddElementAt elm path c with
          | none => none
          | some c1 => some (t.withChild i c1)

/-- A sequence of `AddElement` calls on text nodes reached from a node, each
given by the path to the text node and the element added. -/
def AddElements : List (List Nat × TextElement) → RegExpTree → Option RegExpTree
  | [], t => some t
  | (path, elm) :: rest, t =>
      match AddElementAt elm path t with
      | none => none
      | some t1 => AddElements rest t1

/-- Whether the metrics of a node are kept in the node itself: stored at
construction (`RegExpDisjunction`, `RegExpAlternative`, `RegExpQuantifier`),
constants (`RegExpAssertion`, `RegExpCharacterClass`, `RegExpLookahead`,
`RegExpEmpty`) or the length of the constant data of a `RegExpAtom`. The
others read them on each call: a `RegExpText` from `length_`, a
`RegExpCapture` and a `RegExpBackReference` from the body of the capture. -/
def hasOwnMetrics : RegExpTree → Bool
  | Text _ _ => false
  | Capture _ _ => false
  | BackReference _ _ => false
  | _ => true

end RegExpTree

/-! ## Capture registers -/

/-- Modelled from the spec: the class `Interval` is declared in `jsregexp.h`,
outside the sources at hand. An interval of registers `[from, to]`, or the
empty interval. -/
inductive Interval where
  | Empty
  | mk (from_ to_ : Int)
deriving DecidableEq, Repr

/-- Modelled from the spec: `Interval::Union` of `jsregexp.h`, the smallest
interval enclosing both; the empty interval is neutral. -/
def Interval.Union : Interval → Interval → Interval
  | .Empty, that => that
  | this, .Empty => this
  | .mk from1 to1, .mk from2 to2 => .mk (Min.min from1 from2) (Max.max to1 to2)

namespace RegExpTree

mutual

/-- Modelled from the spec: the virtual `CaptureRegisters()` is defined in
`ast.h` for `RegExpTree` only (the empty interval) and declared for
`RegExpDisjunction`, `RegExpAlternative`, `RegExpQuantifier`, `RegExpCapture`
and `RegExpLookahead`, whose definitions are in `ast.cc`, outside the sources
at hand. A capture reports the union of its own registers
`[StartRegister(index), EndRegister(index)]` and those of its body; a
disjunction and an alternative the union of those of their children; a
quantifier and a lookahead those of their body. -/
def CaptureRegisters : RegExpTree → Interval
  | Disjunction alternatives_ _ _ => ListCaptureRegisters alternatives_
  | Alternative nodes_ _ _ => ListCaptureRegisters nodes_
  | Quantifier body_ _ _ _ _ _ => CaptureRegisters body_
  | Capture body_ index_ =>
      (Interval.mk (RegExpCapture.StartRegister index_)
        (RegExpCapture.EndRegister index_)).Union (CaptureRegisters body_)
  | Lookahead body_ _ _ _ => CaptureRegisters body_
  | _ => Interval.Empty

/-- Modelled from the spec: the union of the capture registers of the nodes of
a list. -/
def ListCaptureRegisters : List RegExpTree → Interval
  | [] => Interval.Empty
  | t :: rest => (CaptureRegisters t).Union (ListCaptureRegisters rest)

end

mutual

/-- Whether a capture occurs in a node: the node is a capture, or a capture
occurs in a child of a disjunction or an alternative or in the body of a
quantifier or a lookahead. -/
def containsCapture : RegExpTree → Bool
  | Disjunction alternatives_ _ _ => listContainsCapture alternatives_
  | Alternative nodes_ _ _ => listContainsCapture nodes_
  | Quantifier body_ _ _ _ _ _ => containsCapture body_
  | Capture _ _ => true
  | Lookahead body_ _ _ _ => containsCapture body_
  | _ => false

/-- Whether a capture occurs in a node of a list. -/
def listContainsCapture : List RegExpTree → Bool
  | [] => false
  | t :: rest => containsCapture t || listContainsCapture rest

end

end RegExpTree


/-! ## Accessors of declarations -/

/-- The accessor `Declaration::mode()`. -/
def Declaration.mode (d : Declaration) : VariableMode := d.mode_

/-! ## Case clauses -/

/-- The enumeration `CaseClause::CompareTypeFeedback`. -/
inductive CaseClause.CompareTypeFeedback where
  | NONE
  | SMI_ONLY
  | SYMBOL_ONLY
  | STRING_ONLY
  | OBJECT_ONLY
deriving DecidableEq, Repr

/-- The data members of the class `CaseClause` (the jump label `body_target_`
apart). -/
structure CaseClause where
  label_ : Ptr
  statements_ : Ptr
  position_ : Int
  compare_type_ : CaseClause.CompareTypeFeedback
  compare_id_ : Int
  entry_id_ : Int
deriving DecidableEq, Repr

namespace CaseClause

/-- Modelled from the spec: the constructor
`CaseClause(isolate, label, statements, pos)` is only declared in `ast.h` and
defined in `ast.cc`, outside the sources at hand. The clause carries the
optional label it is given (absence means "default"), the statement list, the
position, the feedback tag `NONE`, and mints one compare id and one entry id,
in the order of the data members. -/
def new (label statements : Ptr) (pos : Int) : Build CaseClause := do
  let compare_id ← Build.GetNextId
  let entry_id ← Build.GetNextId
  pure { label_ := label, statements_ := statements, position_ := pos,
         compare_type_ := CompareTypeFeedback.NONE,
         compare_id_ := compare_id, entry_id_ := entry_id }

/-- The function `is_default()`. -/
def is_default (c : CaseClause) : Bool := c.label_ == none

/-- The function `label()`: `CHECK(!is_default())`, then the label; `none`
stands for the failed check. -/
def label (c : CaseClause) : Option Ptr :=
  if !c.is_default then some c.label_ else none

end CaseClause

/-! ## Iteration over lists of nodes -/

namespace AstVisitor

variable {σ : Type}

/-- The loop of the iteration helpers: `Visit` on each node of the list, in
list order; `stack_has_overflowed i` is the outcome of the depth check at the
call on the node at index `i`. -/
def visitFrom (cases : Visitor (AstVisitor σ)) (stack_has_overflowed : Nat → Bool) :
    Nat → List AstNode → AstVisitor σ → Option (AstVisitor σ)
  | _, [], v => some v
  | i, node :: rest, v =>
      match Visit cases (stack_has_overflowed i) node v with
      | none => none
      | some v1 => visitFrom cases stack_has_overflowed (i + 1) rest v1

/-- Modelled from the spec: `VisitDeclarations(declarations)` is only declared
in `ast.h` and defined in `ast.cc`, outside the sources at hand. The
declarations are visited strictly in list order, `Visit` on each. -/
def VisitDeclarations (cases : Visitor (AstVisitor σ)) (stack_has_overflowed : Nat → Bool)
    (declarations : List AstNode) (v : AstVisitor σ) : Option (AstVisitor σ) :=
  visitFrom cases stack_has_overflowed 0 declarations v

/-- Modelled from the spec: `VisitStatements(statements)` is only declared in
`ast.h` and defined in `ast.cc`, outside the sources at hand. The statements
are visited strictly in list order, `Visit` on each. -/
def VisitStatements (cases : Visitor (AstVisitor σ)) (stack_has_overflowed : Nat → Bool)
    (statements : List AstNode) (v : AstVisitor σ) : Option (AstVisitor σ) :=
  visitFrom cases stack_has_overflowed 0 statements v

/-- Modelled from the spec: `VisitExpressions(expressions)` is only declared in
`ast.h` and defined in `ast.cc`, outside the sources at hand. The expressions
are visited strictly in list order, `Visit` on each. -/
def VisitExpressions (cases : Visitor (AstVisitor σ)) (stack_has_overflowed : Nat → Bool)
    (expressions : List AstNode) (v : AstVisitor σ) : Option (AstVisitor σ) :=
  visitFrom cases stack_has_overflowed 0 expressions v

end AstVisitor

/-! ## Stores of object literal properties -/

namespace ObjectLiteral

/-- Modelled from the spec: `Property::emit_store()` is only declared in
`ast.h` and defined in `ast.cc`, outside the sources at hand; it reads the
data member `emit_store_`. -/
def Property.emit_store (p : Property) : Bool := p.emit_store_

/-- Modelled from the spec: `Property::set_emit_store(emit_store)` is only
declared in `ast.h` and defined in `ast.cc`, outside the sources at hand; it
writes the data member `emit_store_`. -/
def Property.set_emit_store (p : Property) (emit_store : Bool) : Property :=
  { p with emit_store_ := emit_store }

/-- The accessor `Property::kind()`. -/
def Property.kind (p : Property) : Property.Kind := p.kind_

/-- The accessor `Property::key()`. -/
def Property.key (p : Property) : Option Literal := p.key_

/-- Whether two properties are bound to the same key: the key literals hold
the same value (the two literals are different nodes, with ids of their own). -/
def Property.sameKey (p q : Property) : Bool :=
  match p.key_, q.key_ with
  | some k1, some k2 => k1.handle_ == k2.handle_
  | _, _ => false

/-- Modelled from the spec: `CalculateEmitStore()` is only declared in `ast.h`
and defined in `ast.cc`, outside the sources at hand. It marks every computed
property bound to a key that is shadowed by a later occurrence of the same key
in the property list: the store of a marked property is suppressed
(`set_emit_store(false)`), the other properties are left as they are. -/
def CalculateEmitStore : List Property → List Property
  | [] => []
  | p :: rest =>
      (if p.kind == Property.Kind.COMPUTED && rest.any (fun q => p.sameKey q)
       then p.set_emit_store false else p) :: CalculateEmitStore rest

end ObjectLiteral


/-! ## The summary of the construction visitor -/

/-- The enumeration `AstPropertiesFlag`. -/
inductive AstPropertiesFlag where
  | kDontInline
  | kDontOptimize
  | kDontSelfOptimize
  | kDontSoftInline
deriving DecidableEq, Repr

/-- The numeric value of an `AstPropertiesFlag`. -/
def AstPropertiesFlag.value : AstPropertiesFlag → Nat
  | kDontInline => 0
  | kDontOptimize => 1
  | kDontSelfOptimize => 2
  | kDontSoftInline => 3

/-- Modelled from the spec: the template `EnumSet<E, T>`, the base of
`AstProperties::Flags`, is declared in `utils.h`, outside the sources at hand.
A set of flags kept as a bit set: bit `f` stands for the flag with value `f`. -/
structure AstProperties.Flags where
  bits_ : Nat
deriving DecidableEq, Repr

namespace AstProperties.Flags

/-- Modelled from the spec: the constructor `EnumSet()` of `utils.h`, the empty
set. -/
def new : AstProperties.Flags := { bits_ := 0 }

/-- Modelled from the spec: `EnumSet::IsEmpty()` of `utils.h`. -/
def IsEmpty (s : AstProperties.Flags) : Bool := s.bits_ == 0

/-- Modelled from the spec: `EnumSet::Contains(element)` of `utils.h`. -/
def Contains (s : AstProperties.Flags) (element : AstPropertiesFlag) : Bool :=
  s.bits_.testBit element.value

/-- Modelled from the spec: `EnumSet::Add(element)` of `utils.h`, the union
with the one flag. -/
def Add (s : AstProperties.Flags) (element : AstPropertiesFlag) : AstProperties.Flags :=
  { bits_ := s.bits_ ||| (1 <<< element.value) }

end AstProperties.Flags

/-- The data members of the class `AstProperties`. -/
structure AstProperties where
  flags_ : AstProperties.Flags
  node_count_ : Int
deriving DecidableEq, Repr

namespace AstProperties

/-- The constructor `AstProperties()`: the count is 0 and the flag set is
default-constructed. -/
def new : AstProperties := { flags_ := Flags.new, node_count_ := 0 }

/-- The accessor `flags()`. -/
def flags (p : AstProperties) : AstProperties.Flags := p.flags_

/-- The accessor `node_count()`. -/
def node_count (p : AstProperties) : Int := p.node_count_

/-- The function `add_node_count(count)`. -/
def add_node_count (p : AstProperties) (count : Int) : AstProperties :=
  { p with node_count_ := intAdd p.node_count_ count }

end AstProperties

/-- The data member of the class `AstConstructionVisitor`. -/
structure AstConstructionVisitor where
  properties_ : AstProperties
deriving DecidableEq, Repr

namespace AstConstructionVisitor

/-- The constructor `AstConstructionVisitor()`. -/
def new : AstConstructionVisitor := { properties_ := AstProperties.new }

/-- The accessor `ast_properties()`. -/
def ast_properties (v : AstConstructionVisitor) : AstProperties := v.properties_

/-- The function `increase_node_count()`. -/
def increase_node_count (v : AstConstructionVisitor) : AstConstructionVisitor :=
  { v with properties_ := v.properties_.add_node_count 1 }

/-- The function `add_flag(flag)`: `properties_.flags()->Add(flag)`. -/
def add_flag (v : AstConstructionVisitor) (flag : AstPropertiesFlag) :
    AstConstructionVisitor :=
  { v with properties_ := { v.properties_ with flags_ := v.properties_.flags.Add flag } }

end AstConstructionVisitor

/-- A visitor for the factory that counts one per visit. -/
def countingVisitor : Visitor Nat :=
  { Visit := fun _ _ count => count + 1 }

/-! ## The packed flags of a function literal -/

/-- Modelled from the spec: `BitField<T, shift, size>::mask()` of `utils.h`,
the bits the field occupies in the packed word. -/
def BitField.mask (shift size : Nat) : Nat := (2 ^ size - 1) <<< shift

namespace FunctionLiteral

/-- The function `is_expression()`. -/
def is_expression (f : FunctionLiteral) : Bool := BitField.decode 1 1 f.bitfield_ != 0

/-- The function `is_anonymous()`. -/
def is_anonymous (f : FunctionLiteral) : Bool := BitField.decode 2 1 f.bitfield_ != 0

/-- The function `has_only_simple_this_property_assignments()`. -/
def has_only_simple_this_property_assignments (f : FunctionLiteral) : Bool :=
  BitField.decode 0 1 f.bitfield_ != 0

/-- The function `pretenure()`. -/
def pretenure (f : FunctionLiteral) : Bool := BitField.decode 3 1 f.bitfield_ != 0

/-- The function `set_pretenure()`. -/
def set_pretenure (f : FunctionLiteral) : FunctionLiteral :=
  { f with bitfield_ := f.bitfield_ ||| BitField.encode 3 true.toNat }

/-- The function `has_duplicate_parameters()`: the decoded `ParameterFlag`,
read as a `bool`. -/
def has_duplicate_parameters (f : FunctionLiteral) : Bool :=
  BitField.decode 4 1 f.bitfield_ != 0

end FunctionLiteral

/-! ## Building a text node -/

namespace RegExpText

/-- The constructor `RegExpText()`: no elements, length 0. -/
def new : RegExpTree := RegExpTree.Text [] 0

/-- The accessor `elements()`; `none` on an object of another class. -/
def elements : RegExpTree → Option (List TextElement)
  | .Text elements_ _ => some elements_
  | _ => none

/-- The calls `AddElement(e1)`, ..., `AddElement(en)` one after the other on
the same node. -/
def addAll : List TextElement → RegExpTree → Option RegExpTree
  | [], t => some t
  | elm :: rest, t =>
      match AddElement elm t with
      | none => none
      | some t1 => addAll rest t1

end RegExpText

/-! ## Properties -/

/-! ### Machine integers -/

theorem wrapInt_of_isInt {x : Int} (h : IsInt x) : wrapInt x = x := by
  unfold IsInt kMinInt kMaxInt at h
  unfold wrapInt
  omega

theorem isInt_wrapInt (x : Int) : IsInt (wrapInt x) := by
  unfold IsInt kMinInt kMaxInt wrapInt
  omega

theorem wrapInt_wrapInt_add (a b : Int) : wrapInt (wrapInt a + b) = wrapInt (a + b) := by
  unfold wrapInt
  omega

/-! ### Running constructors and factory operations -/

namespace Build

theorem bind_def {α β : Type} (m : Build α) (f : α → Build β) :
    m >>= f = andThen m f := rfl

theorem pure_def {α : Type} (a : α) : (pure a : Build α) = ret a := rfl

theorem andThen_assoc {α β γ : Type} (m : Build α) (f : α → Build β) (g : β → Build γ) :
    andThen (andThen m f) g = andThen m (fun a => andThen (f a) g) := by
  funext s
  unfold andThen
  cases m s with
  | none => rfl
  | some p => rfl

theorem ret_andThen {α β : Type} (a : α) (f : α → Build β) : andThen (ret a) f = f a := rfl

theorem ite_andThen {α β : Type} (c : Prop) [Decidable c] (a b : Build α)
    (f : α → Build β) :
    andThen (if c then a else b) f = if c then andThen a f else andThen b f := by
  split <;> rfl

theorem GetNextId_andThen {β : Type} (f : Int → Build β) (s : Isolate) :
    andThen GetNextId f s
      = f s.ast_node_id { s with ast_node_id := intAdd s.ast_node_id 1 } := rfl

theorem ReserveIdRange_andThen {β : Type} (n : Int) (f : Int → Build β) (s : Isolate) :
    andThen (ReserveIdRange n) f s
      = f s.ast_node_id { s with ast_node_id := intAdd s.ast_node_id n } := rfl

theorem ASSERT_andThen {β : Type} (c : Bool) (f : Unit → Build β) (s : Isolate) :
    andThen (ASSERT c) f s = if c then f () s else none := by
  unfold andThen ASSERT
  cases c <;> rfl

theorem empty_string_andThen {β : Type} (f : Handle → Build β) (s : Isolate) :
    andThen empty_string f s = f s.empty_string s := rfl

theorem ret_apply {α : Type} (a : α) (s : Isolate) : ret a s = some (a, s) := rfl

end Build

namespace FactoryOp

variable {σ : Type}

theorem op_bind_def {α β : Type} (m : FactoryOp σ α) (f : α → FactoryOp σ β) :
    m >>= f = andThen m f := rfl

theorem op_pure_def {α : Type} (a : α) : (pure a : FactoryOp σ α) = ret a := rfl

theorem op_andThen_assoc {α β γ : Type} (m : FactoryOp σ α) (f : α → FactoryOp σ β)
    (g : β → FactoryOp σ γ) :
    andThen (andThen m f) g = andThen m (fun a => andThen (f a) g) := by
  funext s
  unfold andThen
  cases m s with
  | none => rfl
  | some p => rfl

theorem op_ret_andThen {α β : Type} (a : α) (f : α → FactoryOp σ β) :
    andThen (ret a) f = f a := rfl

theorem op_ite_andThen {α β : Type} (c : Prop) [Decidable c] (a b : FactoryOp σ α)
    (f : α → FactoryOp σ β) :
    andThen (if c then a else b) f = if c then andThen a f else andThen b f := by
  split <;> rfl

theorem op_ret_apply {α : Type} (a : α) (s : AstNodeFactory σ) : ret a s = some (a, s) := rfl

theorem ite_run {α : Type} (c : Prop) [Decidable c] (a b : FactoryOp σ α)
    (s : AstNodeFactory σ) :
    (if c then a else b) s = if c then a s else b s := by
  split <;> rfl

theorem construct_andThen {α β : Type} (m : Build α) (f : α → Build β) :
    (construct (Build.andThen m f) : FactoryOp σ β)
      = andThen (construct m) (fun a => construct (f a)) := by
  funext s
  unfold construct andThen Build.andThen
  beta_reduce
  cases m s.isolate_ <;> rfl

theorem construct_ret {α : Type} (a : α) :
    (construct (Build.ret a) : FactoryOp σ α) = ret a := rfl

theorem construct_ite {α : Type} (c : Prop) [Decidable c] (a b : Build α) :
    (construct (if c then a else b) : FactoryOp σ α)
      = if c then construct a else construct b := by
  split <;> rfl

theorem construct_GetNextId_andThen {β : Type} (f : Int → FactoryOp σ β)
    (s : AstNodeFactory σ) :
    andThen (construct Build.GetNextId) f s
      = f s.isolate_.ast_node_id
          { s with isolate_ :=
              { s.isolate_ with ast_node_id := intAdd s.isolate_.ast_node_id 1 } } := rfl

theorem construct_ReserveIdRange_andThen {β : Type} (n : Int) (f : Int → FactoryOp σ β)
    (s : AstNodeFactory σ) :
    andThen (construct (Build.ReserveIdRange n)) f s
      = f s.isolate_.ast_node_id
          { s with isolate_ :=
              { s.isolate_ with ast_node_id := intAdd s.isolate_.ast_node_id n } } := rfl

theorem construct_ASSERT_andThen {β : Type} (c : Bool) (f : Unit → FactoryOp σ β)
    (s : AstNodeFactory σ) :
    andThen (construct (Build.ASSERT c)) f s = if c then f () s else none := by
  unfold andThen construct Build.ASSERT
  cases c <;> rfl

theorem construct_empty_string_andThen {β : Type} (f : Handle → FactoryOp σ β)
    (s : AstNodeFactory σ) :
    andThen (construct Build.empty_string) f s = f s.isolate_.empty_string s := rfl

theorem visit_andThen {β : Type} (V : Visitor σ) (type : AstNode.Type_) (node : AstNode)
    (f : Unit → FactoryOp σ β) (s : AstNodeFactory σ) :
    andThen (visit V type node) f s
      = f () { s with visitor_ := V.Visit type node s.visitor_ } := rfl

end FactoryOp


/-! ### Runs of consecutive ids -/

theorem Consec_append {c c1 c2 : Int} {l1 l2 : List Int}
    (h1 : Consec c l1 c1) (h2 : Consec c1 l2 c2) : Consec c (l1 ++ l2) c2 := by
  induction l1 generalizing c with
  | nil => simp only [Consec] at h1; subst h1; simpa using h2
  | cons x xs ih =>
    simp only [Consec] at h1
    simp only [List.cons_append, Consec]
    exact ⟨h1.1, ih h1.2⟩

theorem Consec_range (n : Nat) (c : Int) (hc : IsInt c) :
    Consec c ((List.range n).map (fun i : Nat => intAdd c i)) (intAdd c n) := by
  induction n generalizing c with
  | zero => simp [Consec, intAdd, wrapInt_of_isInt hc]
  | succ n ih =>
    rw [List.range_succ_eq_map]
    simp only [List.map_cons, List.map_map, Consec]
    refine ⟨by simp [intAdd, wrapInt_of_isInt hc], ?_⟩
    have := ih (wrapInt (c + 1)) (isInt_wrapInt _)
    have e : ((fun i : Nat => intAdd c i) ∘ Nat.succ)
        = (fun i : Nat => intAdd (wrapInt (c + 1)) i) := by
      funext i
      simp only [Function.comp, intAdd, wrapInt_wrapInt_add]
      congr 1
      push_cast
      ring
    rw [e]
    have e2 : intAdd c ((n + 1 : Nat) : Int) = intAdd (wrapInt (c + 1)) n := by
      simp only [intAdd, wrapInt_wrapInt_add]
      congr 1
      push_cast
      ring
    rw [e2]
    exact this

theorem Consec_isInt {c c' : Int} {l : List Int} (hc : IsInt c) (h : Consec c l c') :
    IsInt c' := by
  induction l generalizing c with
  | nil => simp only [Consec] at h; subst h; exact hc
  | cons x xs ih =>
    simp only [Consec] at h
    exact ih (isInt_wrapInt _) h.2

theorem Consec_exact {c c' : Int} {l : List Int} (hc : IsInt c)
    (hov : c + l.length ≤ kMaxInt) (h : Consec c l c') :
    c' = c + l.length ∧ l.Pairwise (· < ·) ∧ ∀ x ∈ l, c ≤ x ∧ x < c + l.length := by
  induction l generalizing c with
  | nil => simp only [Consec] at h; subst h; simp
  | cons x xs ih =>
    simp only [Consec] at h
    obtain ⟨rfl, h2⟩ := h
    simp only [List.length_cons, Nat.cast_add, Nat.cast_one] at hov
    have hw : wrapInt (x + 1) = x + 1 := by
      apply wrapInt_of_isInt
      unfold IsInt kMinInt kMaxInt at *
      omega
    rw [hw] at h2
    have hc1 : IsInt (x + 1) := by
      unfold IsInt kMinInt kMaxInt at *
      omega
    obtain ⟨e, hp, hb⟩ := ih hc1 (by omega) h2
    refine ⟨?_, ?_, ?_⟩
    · simp only [List.length_cons, Nat.cast_add, Nat.cast_one]; omega
    · refine List.pairwise_cons.mpr ⟨?_, hp⟩
      intro y hy
      have := hb y hy
      omega
    · intro y hy
      simp only [List.length_cons, Nat.cast_add, Nat.cast_one]
      rcases List.mem_cons.mp hy with rfl | hy
      · omega
      · have := hb y hy
        omega

theorem Mints_nil (c : Int) : Mints c [] c := ⟨[], List.Perm.refl _, rfl⟩

theorem Mints_of_consec {c c' : Int} {l : List Int} (h : Consec c l c') : Mints c l c' :=
  ⟨l, List.Perm.refl _, h⟩

theorem Mints_append {c c1 c2 : Int} {l1 l2 : List Int}
    (h1 : Mints c l1 c1) (h2 : Mints c1 l2 c2) : Mints c (l1 ++ l2) c2 := by
  obtain ⟨r1, p1, k1⟩ := h1
  obtain ⟨r2, p2, k2⟩ := h2
  exact ⟨r1 ++ r2, p1.append p2, Consec_append k1 k2⟩

theorem Mints_isInt {c c' : Int} {l : List Int} (hc : IsInt c) (h : Mints c l c') :
    IsInt c' := by
  obtain ⟨r, _, k⟩ := h
  exact Consec_isInt hc k

theorem Mints_exact {c c' : Int} {l : List Int} (hc : IsInt c)
    (hov : c + l.length ≤ kMaxInt) (h : Mints c l c') :
    c' = c + l.length ∧ l.Nodup ∧ ∀ x ∈ l, c ≤ x ∧ x < c + l.length := by
  obtain ⟨r, p, k⟩ := h
  have hlen : r.length = l.length := p.length_eq
  obtain ⟨e, hp, hb⟩ := Consec_exact hc (by rw [hlen]; exact hov) k
  refine ⟨by rw [e, hlen], ?_, ?_⟩
  · exact p.nodup_iff.mp (hp.imp (fun h => ne_of_lt h))
  · intro x hx
    have := hb x (p.mem_iff.mpr hx)
    rw [hlen] at this
    exact this

theorem perm_rotate (a b c : List Int) : ((a ++ b) ++ c).Perm (b ++ (a ++ c)) := by
  have h : ((a ++ b) ++ c).Perm ((b ++ a) ++ c) :=
    List.Perm.append_right c List.perm_append_comm
  rw [List.append_assoc b a c] at h
  exact h

/-! ### The ids minted by factory calls -/

section FactoryRuns

open AstNodeFactory FactoryOp

variable {σ : Type}

theorem call_mints (T : Token) (V : Visitor σ) (c : FactoryCall)
    (f f' : AstNodeFactory σ) (nodes : List AstNode)
    (h : call T V c f = some (nodes, f')) :
    Mints f.isolate_.ast_node_id (AstNode.mintedIdsAll T nodes)
      f'.isolate_.ast_node_id := by
  cases c
  all_goals simp only [call, NewVariableDeclaration, NewModuleDeclaration, NewModuleLiteral,
    NewModuleVariable, NewModulePath, NewModuleUrl, NewBlock, NewDoWhileStatement,
    NewWhileStatement, NewForStatement, NewForInStatement, NewSwitchStatement,
    NewExpressionStatement, NewContinueStatement, NewBreakStatement, NewReturnStatement,
    NewWithStatement, NewIfStatement, NewTryCatchStatement, NewTryFinallyStatement,
    NewDebuggerStatement, NewEmptyStatement, NewLiteral, NewNumberLiteral, NewObjectLiteral,
    NewObjectLiteralProperty, NewRegExpLiteral, NewArrayLiteral, NewVariableProxyBound,
    NewVariableProxy, NewProperty, NewCall, NewCallNew, NewCallRuntime, NewUnaryOperation,
    NewBinaryOperation, NewCountOperation, NewCompareOperation, NewConditional,
    Assignment_Init, NewAssignment, NewThrow, NewFunctionLiteral,
    NewSharedFunctionInfoLiteral, NewThisFunction, VISIT_AND_RETURN,
    Declaration.new, VariableDeclaration.new, ModuleDeclaration.new,
    BreakableStatement.new, Block.new, IterationStatement.new, DoWhileStatement.new,
    WhileStatement.new, ForStatement.new, ForInStatement.new, SwitchStatement.new,
    IfStatement.new, Expression.new, Literal.new, MaterializedLiteral.new,
    ObjectLiteral.new, RegExpLiteral.new, ArrayLiteral.new, VariableProxy.newBound,
    VariableProxy.new, Property.new, Call.new, CallNew.new, CallRuntime.new,
    UnaryOperation.new, BinaryOperation.new, CountOperation.new, CompareOperation.new,
    Conditional.new, Assignment.new, Throw.new, FunctionLiteral.new,
    SharedFunctionInfoLiteral.new, ThisFunction.new,
    Assignment.is_compound, Assignment.binary_op, Assignment.op,
    FactoryOp.op_bind_def, FactoryOp.op_pure_def, Build.bind_def, Build.pure_def,
    Build.andThen_assoc, Build.ret_andThen, Build.ite_andThen,
    FactoryOp.construct_andThen, FactoryOp.construct_ite,
    FactoryOp.construct_ret, FactoryOp.op_andThen_assoc, FactoryOp.op_ret_andThen,
    FactoryOp.op_ite_andThen,
    FactoryOp.construct_GetNextId_andThen, FactoryOp.construct_ReserveIdRange_andThen,
    FactoryOp.construct_ASSERT_andThen, FactoryOp.construct_empty_string_andThen,
    FactoryOp.visit_andThen, FactoryOp.op_ret_apply, FactoryOp.ite_run] at h
  case NewArrayLiteral constant_elements values literal_index is_simple depth =>
    cases h
    refine Mints_of_consec ?_
    have hr := Consec_range values.length
      (intAdd (intAdd f.isolate_.ast_node_id 1) 1) (isInt_wrapInt _)
    simp only [AstNode.mintedIdsAll, AstNode.mintedIds, List.map_cons, List.map_nil,
      List.flatten_cons, List.flatten_nil, List.append_nil, List.cons_append,
      List.nil_append, Consec, ArrayLiteral.GetIdForElement]
    refine ⟨trivial, rfl, ?_⟩
    simp only [List.append_eq, List.nil_append, List.append_nil]
    exact hr
  case NewAssignment op target value pos =>
    repeat' split at h
    all_goals cases h
    · refine ⟨([f.isolate_.ast_node_id, intAdd f.isolate_.ast_node_id 1,
          intAdd (intAdd f.isolate_.ast_node_id 1) 1] ++
          [intAdd (intAdd (intAdd f.isolate_.ast_node_id 1) 1) 1,
            intAdd (intAdd (intAdd (intAdd f.isolate_.ast_node_id 1) 1) 1) 1,
            intAdd (intAdd (intAdd (intAdd (intAdd f.isolate_.ast_node_id 1) 1) 1) 1) 1]) ++
          [intAdd (intAdd (intAdd (intAdd (intAdd (intAdd
            f.isolate_.ast_node_id 1) 1) 1) 1) 1) 1], ?_, ?_⟩
      · refine (perm_rotate _ _ _).trans ?_
        simp [AstNode.mintedIdsAll, AstNode.mintedIds, Assignment.is_compound,
          Assignment.op, *]
      · simp [Consec, intAdd]
    · refine ⟨([f.isolate_.ast_node_id, intAdd f.isolate_.ast_node_id 1,
          intAdd (intAdd f.isolate_.ast_node_id 1) 1] ++
          [intAdd (intAdd (intAdd f.isolate_.ast_node_id 1) 1) 1,
            intAdd (intAdd (intAdd (intAdd f.isolate_.ast_node_id 1) 1) 1) 1]) ++
          [intAdd (intAdd (intAdd (intAdd (intAdd
            f.isolate_.ast_node_id 1) 1) 1) 1) 1], ?_, ?_⟩
      · refine (perm_rotate _ _ _).trans ?_
        simp [AstNode.mintedIdsAll, AstNode.mintedIds, Assignment.is_compound,
          Assignment.op, *]
      · simp [Consec, intAdd]
    · refine Mints_of_consec ?_
      simp [AstNode.mintedIdsAll, AstNode.mintedIds, Consec, intAdd,
        Assignment.is_compound, Assignment.op, *]
  all_goals (repeat' split at h)
  all_goals cases h
  all_goals refine Mints_of_consec ?_
  all_goals simp [AstNode.mintedIdsAll, AstNode.mintedIds, Consec, intAdd, *]

theorem callAll_mints (T : Token) (V : Visitor σ) (calls : List FactoryCall)
    (f f' : AstNodeFactory σ) (nodes : List AstNode)
    (hc : IsInt f.isolate_.ast_node_id)
    (h : callAll T V calls f = some (nodes, f')) :
    Mints f.isolate_.ast_node_id (AstNode.mintedIdsAll T nodes)
      f'.isolate_.ast_node_id := by
  induction calls generalizing f nodes with
  | nil =>
    simp only [callAll, FactoryOp.op_pure_def, FactoryOp.op_ret_apply] at h
    cases h
    exact Mints_nil _
  | cons c cs ih =>
    simp only [callAll, FactoryOp.op_bind_def, FactoryOp.op_pure_def] at h
    unfold FactoryOp.andThen at h
    cases h1 : call T V c f with
    | none => rw [h1] at h; cases h
    | some p1 =>
      obtain ⟨n1, f1⟩ := p1
      rw [h1] at h
      simp only at h
      cases h2 : callAll T V cs f1 with
      | none => rw [h2] at h; cases h
      | some p2 =>
        obtain ⟨n2, f2⟩ := p2
        rw [h2] at h
        simp only [FactoryOp.op_ret_apply] at h
        cases h
        have m1 := call_mints T V c f f1 n1 h1
        have m2 := ih f1 n2 (Mints_isInt hc m1) h2
        have := Mints_append m1 m2
        simpa [AstNode.mintedIdsAll, List.map_append, List.flatten_append] using this

end FactoryRuns

/-! ### The id allocator -/

/-- C1 (as stated, refuted): with the counter at `kMaxInt`, `ReserveIdRange(1)`
does not leave the counter at `c + 1`; the `int` sum wraps to `kMinInt`. -/
theorem ReserveIdRange_overflow_counterexample :
    IsInt 2147483647 ∧
    (AstNode.ReserveIdRange { ast_node_id := 2147483647, empty_string := 0 } 1).2.ast_node_id
      = -2147483648 ∧
    (AstNode.ReserveIdRange { ast_node_id := 2147483647, empty_string := 0 } 1).2.ast_node_id
      ≠ 2147483647 + 1 := by
  decide

/-- C1 (amended): for every counter value `c` and every `n >= 0` such that
`c + n` does not exceed `kMaxInt`, `ReserveIdRange(n)` returns `c` and leaves
the counter at `c + n` (nothing else of the isolate changes), so the reserved
block is the contiguous range `[c, c+n)`; `GetNextId()` is `ReserveIdRange(1)`
and, when `c + 1` does not exceed `kMaxInt`, returns `c` and leaves the counter
at `c + 1`. -/
theorem ReserveIdRange_contiguous (isolate : Isolate) (n : Int)
    (hc : IsInt isolate.ast_node_id) (hn : 0 ≤ n)
    (hfit : isolate.ast_node_id + n ≤ kMaxInt) :
    AstNode.ReserveIdRange isolate n
      = (isolate.ast_node_id, { isolate with ast_node_id := isolate.ast_node_id + n }) ∧
    AstNode.GetNextId isolate = AstNode.ReserveIdRange isolate 1 ∧
    (isolate.ast_node_id + 1 ≤ kMaxInt →
      AstNode.GetNextId isolate
        = (isolate.ast_node_id, { isolate with ast_node_id := isolate.ast_node_id + 1 })) := by
  have hw : ∀ k : Int, 0 ≤ k → isolate.ast_node_id + k ≤ kMaxInt →
      intAdd isolate.ast_node_id k = isolate.ast_node_id + k := by
    intro k hk hle
    apply wrapInt_of_isInt
    unfold IsInt kMinInt kMaxInt at *
    omega
  refine ⟨?_, rfl, ?_⟩
  · simp only [AstNode.ReserveIdRange, hw n hn hfit]
  · intro h1
    simp only [AstNode.GetNextId, AstNode.ReserveIdRange, hw 1 (by decide) h1]

/-- C1 (amended), at the counter value 5 and `n = 3`. -/
theorem ReserveIdRange_contiguous_witness :
    AstNode.ReserveIdRange { ast_node_id := 5, empty_string := 0 } 3
      = (5, { ast_node_id := 5 + 3, empty_string := 0 }) ∧
    AstNode.GetNextId { ast_node_id := 5, empty_string := 0 }
      = AstNode.ReserveIdRange { ast_node_id := 5, empty_string := 0 } 1 ∧
    ((5 : Int) + 1 ≤ kMaxInt →
      AstNode.GetNextId { ast_node_id := 5, empty_string := 0 }
        = (5, { ast_node_id := 5 + 1, empty_string := 0 })) :=
  ReserveIdRange_contiguous { ast_node_id := 5, empty_string := 0 } 3
    (by decide) (by decide) (by decide)

/-! ### Distinctness and monotonicity of minted ids -/

/-- C2: for every finite sequence of factory operations that completes without
a failed invariant check (`callAll` returns the nodes it created), started on
an `int` counter `c` and not taking the counter out of the `int` range (`c`
plus the number of ids minted does not exceed `kMaxInt`), all compiler ids
minted in the sequence are pairwise distinct. -/
theorem minted_ids_pairwise_distinct {σ : Type} (T : Token) (V : Visitor σ)
    (calls : List FactoryCall) (f f' : AstNodeFactory σ) (nodes : List AstNode)
    (hrun : AstNodeFactory.callAll T V calls f = some (nodes, f'))
    (hc : IsInt f.isolate_.ast_node_id)
    (hfit : f.isolate_.ast_node_id + (AstNode.mintedIdsAll T nodes).length ≤ kMaxInt) :
    (AstNode.mintedIdsAll T nodes).Nodup :=
  (Mints_exact hc hfit (callAll_mints T V calls f f' nodes hc hrun)).2.1

/-- C2, on a literal, a compound assignment and a two-element array literal
built from the counter value 0: the ids minted are `0 .. 9`; the synthesized
binary operation holds 5 and 6, in the middle of the ids of the assignment. -/
theorem minted_ids_pairwise_distinct_witness :
    (AstNodeFactory.callAll Token.sample AstNullVisitor
        [.NewLiteral 7, .NewAssignment 24 (some 1) (some 2) 10,
          .NewArrayLiteral 0 [none, none] 0 true 1]
        { isolate_ := { ast_node_id := 0, empty_string := 0 }, visitor_ := () }).map
      (fun r => AstNode.mintedIdsAll Token.sample r.1)
      = some [0, 1, 5, 6, 2, 3, 4, 7, 8, 9, 10, 11] ∧
    ([0, 1, 5, 6, 2, 3, 4, 7, 8, 9, 10, 11] : List Int).Nodup :=
  ⟨rfl,
   minted_ids_pairwise_distinct Token.sample AstNullVisitor
    [.NewLiteral 7, .NewAssignment 24 (some 1) (some 2) 10,
      .NewArrayLiteral 0 [none, none] 0 true 1]
    { isolate_ := { ast_node_id := 0, empty_string := 0 }, visitor_ := () } _ _
    rfl (by decide) (by decide)⟩

/-- C3 (as stated, refuted): a literal A built when the counter is
`kMaxInt - 1` holds the ids `kMaxInt - 1` and `kMaxInt`; the literal B built
right after it holds `kMinInt` and `kMinInt + 1`, which are below the ids of
A. -/
theorem ids_monotone_counterexample :
    AstNodeFactory.call Token.sample AstNullVisitor (.NewLiteral 7)
        { isolate_ := { ast_node_id := 2147483646, empty_string := 0 }, visitor_ := () }
      = some ([AstNode.Literal { id_ := 2147483646, test_id_ := 2147483647, handle_ := 7 }],
          { isolate_ := { ast_node_id := -2147483648, empty_string := 0 },
            visitor_ := () }) ∧
    AstNodeFactory.call Token.sample AstNullVisitor (.NewLiteral 8)
        { isolate_ := { ast_node_id := -2147483648, empty_string := 0 }, visitor_ := () }
      = some ([AstNode.Literal { id_ := -2147483648, test_id_ := -2147483647, handle_ := 8 }],
          { isolate_ := { ast_node_id := -2147483646, empty_string := 0 },
            visitor_ := () }) ∧
    AstNode.mintedIdsAll Token.sample
        [AstNode.Literal { id_ := 2147483646, test_id_ := 2147483647, handle_ := 7 }]
      = [2147483646, 2147483647] ∧
    AstNode.mintedIdsAll Token.sample
        [AstNode.Literal { id_ := -2147483648, test_id_ := -2147483647, handle_ := 8 }]
      = [-2147483648, -2147483647] ∧
    ¬ ((-2147483648 : Int) ≥ 2147483646) :=
  ⟨rfl, rfl, rfl, rfl, by decide⟩

/-- C3 (amended): for any two factory calls A and B on the same factory and
counter, B starting after A has returned (any sequence of calls in between),
as long as the counter does not leave the `int` range (the counter before A
plus the number of ids minted from A to B does not exceed `kMaxInt`): every
id minted for B is `>=` every id reserved for A, and indeed strictly above
it, so the id range reserved for A and the id range reserved for B do not
overlap. -/
theorem ids_monotone_across_operations {σ : Type} (T : Token) (V : Visitor σ)
    (callA callB : FactoryCall) (between : List FactoryCall)
    (f0 f1 f2 f3 : AstNodeFactory σ) (nodesA nodesBetween nodesB : List AstNode)
    (hA : AstNodeFactory.call T V callA f0 = some (nodesA, f1))
    (hBetween : AstNodeFactory.callAll T V between f1 = some (nodesBetween, f2))
    (hB : AstNodeFactory.call T V callB f2 = some (nodesB, f3))
    (hc : IsInt f0.isolate_.ast_node_id)
    (hfit : f0.isolate_.ast_node_id +
        ((AstNode.mintedIdsAll T nodesA).length +
          (AstNode.mintedIdsAll T nodesBetween).length +
          (AstNode.mintedIdsAll T nodesB).length : Nat) ≤ kMaxInt) :
    (∀ a ∈ AstNode.mintedIdsAll T nodesA, ∀ b ∈ AstNode.mintedIdsAll T nodesB, b ≥ a) ∧
    (∀ a ∈ AstNode.mintedIdsAll T nodesA, ∀ b ∈ AstNode.mintedIdsAll T nodesB, a < b) := by
  have mA := call_mints T V callA f0 f1 nodesA hA
  have i1 := Mints_isInt hc mA
  have mM := callAll_mints T V between f1 f2 nodesBetween i1 hBetween
  have i2 := Mints_isInt i1 mM
  have mB := call_mints T V callB f2 f3 nodesB hB
  push_cast at hfit
  have hl1 := Int.natCast_nonneg (AstNode.mintedIdsAll T nodesA).length
  have hl2 := Int.natCast_nonneg (AstNode.mintedIdsAll T nodesBetween).length
  have hl3 := Int.natCast_nonneg (AstNode.mintedIdsAll T nodesB).length
  obtain ⟨e1, _, b1⟩ := Mints_exact hc (by omega) mA
  obtain ⟨e2, _, _⟩ := Mints_exact i1 (by omega) mM
  obtain ⟨_, _, b3⟩ := Mints_exact i2 (by omega) mB
  have key : ∀ a ∈ AstNode.mintedIdsAll T nodesA,
      ∀ b ∈ AstNode.mintedIdsAll T nodesB, a < b := by
    intro a ha b hb
    have := b1 a ha
    have := b3 b hb
    omega
  exact ⟨fun a ha b hb => le_of_lt (key a ha b hb), key⟩

/-- C3 (amended), on a call A = `NewCall`, a unary `NOT` in between and a call
B = `NewWhileStatement`, from the counter value 0: A holds the ids 0, 1, 2 and
B the ids 7, 8, 9, 10. -/
theorem ids_monotone_across_operations_witness :
    (∀ a ∈ ([0, 1, 2] : List Int), ∀ b ∈ ([7, 8, 9, 10] : List Int), b ≥ a) ∧
    (∀ a ∈ ([0, 1, 2] : List Int), ∀ b ∈ ([7, 8, 9, 10] : List Int), a < b) :=
  ids_monotone_across_operations Token.sample AstNullVisitor
    (.NewCall (some 1) (some 2) 5) (.NewWhileStatement none)
    [.NewUnaryOperation 53 (some 3) 4]
    { isolate_ := { ast_node_id := 0, empty_string := 0 }, visitor_ := () } _ _ _ _ _ _
    rfl rfl rfl (by decide) (by decide)

/-! ### Quantifier bounds and capture registers -/

theorem intDiv_kInfinity {hi : Int} (h0 : 0 < hi) :
    intDiv RegExpTree.kInfinity hi = kMaxInt / hi := by
  have hk : (0 : Int) ≤ kMaxInt := by decide
  unfold intDiv RegExpTree.kInfinity
  rw [Int.tdiv_eq_ediv hk (le_of_lt h0)]
  apply wrapInt_of_isInt
  have hnn : 0 ≤ kMaxInt / hi := Int.ediv_nonneg hk (le_of_lt h0)
  have hle : kMaxInt / hi ≤ kMaxInt := Int.ediv_le_self hi hk
  unfold IsInt
  exact ⟨le_trans (by decide) hnn, hle⟩

/-- C4: for every `RegExpQuantifier` built with repetition bounds `(lo, hi)`,
`hi >= 0`, over a body whose `max_match()` `M` is finite (`0 <= M < kInfinity`;
the proof only uses `0 <= M`), the construction yields a node whose `max_match()` is `kInfinity` (`= kMaxInt`)
when the exact product `hi * M` exceeds the `int` range and is exactly `hi * M`
otherwise; whenever the constructor performs the multiplication for the
maximum, the exact product is within the `int` range, so it does not
overflow. -/
theorem RegExpQuantifier_max_match (lo hi : Int) (type : RegExpQuantifier.Type_)
    (body : RegExpTree)
    (hhi : 0 ≤ hi) (hM : 0 ≤ body.max_match) :
    RegExpTree.kInfinity = kMaxInt ∧
    ∃ q, RegExpQuantifier.new lo hi type body = some q ∧
      q.max_match
        = (if hi * body.max_match > kMaxInt then RegExpTree.kInfinity
           else hi * body.max_match) ∧
      (¬ (hi > 0 ∧ body.max_match > intDiv RegExpTree.kInfinity hi) →
        IsInt (hi * body.max_match) ∧ intMul hi body.max_match = hi * body.max_match) := by
  refine ⟨rfl, _, rfl, ?_, ?_⟩
  · simp only [RegExpQuantifier.init, RegExpTree.max_match]
    rcases eq_or_lt_of_le hhi with h0 | h0
    · subst h0
      simp [intMul, wrapInt, kMaxInt]
    · have hd := intDiv_kInfinity h0
      have hiff : body.max_match > kMaxInt / hi ↔ hi * body.max_match > kMaxInt := by
        rw [gt_iff_lt, gt_iff_lt, Int.ediv_lt_iff_lt_mul h0, mul_comm]
      rw [hd]
      by_cases hc : hi * body.max_match > kMaxInt
      · rw [if_pos ⟨h0, hiff.mpr hc⟩, if_pos hc]
      · rw [if_neg (fun h => hc (hiff.mp h.2)), if_neg hc]
        have hnn : 0 ≤ hi * body.max_match := mul_nonneg hhi hM
        apply wrapInt_of_isInt
        unfold IsInt kMinInt
        unfold kMaxInt at hc ⊢
        omega
  · intro hno
    have hnn : 0 ≤ hi * body.max_match := mul_nonneg hhi hM
    have hle : hi * body.max_match ≤ kMaxInt := by
      rcases eq_or_lt_of_le hhi with h0 | h0
      · subst h0
        simp [kMaxInt]
      · have hd := intDiv_kInfinity h0
        rw [hd] at hno
        by_contra hgt
        apply hno
        refine ⟨h0, ?_⟩
        rw [gt_iff_lt, Int.ediv_lt_iff_lt_mul h0, mul_comm]
        exact lt_of_not_le hgt
    have hi' : IsInt (hi * body.max_match) := by
      unfold IsInt kMinInt
      unfold kMaxInt at hle ⊢
      omega
    exact ⟨hi', wrapInt_of_isInt hi'⟩

/-- C4, on the quantifier `{2,3}` over a three-character atom: the maximum is
`3 * 3`. -/
theorem RegExpQuantifier_max_match_witness :
    RegExpTree.kInfinity = kMaxInt ∧
    ∃ q, RegExpQuantifier.new 2 3 .GREEDY (.Atom [97, 98, 99]) = some q ∧
      q.max_match
        = (if 3 * (RegExpTree.Atom [97, 98, 99]).max_match > kMaxInt
           then RegExpTree.kInfinity
           else 3 * (RegExpTree.Atom [97, 98, 99]).max_match) ∧
      (¬ ((3 : Int) > 0 ∧
          (RegExpTree.Atom [97, 98, 99]).max_match > intDiv RegExpTree.kInfinity 3) →
        IsInt (3 * (RegExpTree.Atom [97, 98, 99]).max_match) ∧
        intMul 3 (RegExpTree.Atom [97, 98, 99]).max_match
          = 3 * (RegExpTree.Atom [97, 98, 99]).max_match) :=
  RegExpQuantifier_max_match 2 3 .GREEDY (.Atom [97, 98, 99]) (by decide) (by decide)

/-- C5 (as stated, refuted): the quantifier `{65536,65536}` over a body with
minimum match length 65536 (itself `a{65536}`) reports the minimum 0, not the
product `65536 * 65536`: the `int` multiplication wraps around. -/
theorem RegExpQuantifier_min_match_overflow_counterexample :
    (RegExpQuantifier.init 65536 65536 .GREEDY (.Atom [97])).min_match = 65536 ∧
    (RegExpQuantifier.new 65536 65536 .GREEDY
        (RegExpQuantifier.init 65536 65536 .GREEDY (.Atom [97]))).map RegExpTree.min_match
      = some 0 ∧
    (65536 : Int) * (RegExpQuantifier.init 65536 65536 .GREEDY (.Atom [97])).min_match
      = 4294967296 := by
  decide

/-- C5 (amended): for every `RegExpQuantifier` built with repetition bounds
`(lo, hi)`, `lo >= 0`, over a body with minimum match length `m >= 0`, whenever
the exact product `lo * m` does not exceed `kMaxInt`, `min_match()` equals
`lo * m`. -/
theorem RegExpQuantifier_min_match (lo hi : Int) (type : RegExpQuantifier.Type_)
    (body : RegExpTree)
    (hlo : 0 ≤ lo) (hm : 0 ≤ body.min_match)
    (hfit : lo * body.min_match ≤ kMaxInt) :
    ∃ q, RegExpQuantifier.new lo hi type body = some q ∧
      q.min_match = lo * body.min_match := by
  refine ⟨_, rfl, ?_⟩
  simp only [RegExpQuantifier.init, RegExpTree.min_match, intMul]
  have hnn : 0 ≤ lo * body.min_match := mul_nonneg hlo hm
  apply wrapInt_of_isInt
  unfold IsInt kMinInt
  unfold kMaxInt at hfit ⊢
  omega

/-- C5 (amended), on the quantifier `{2,3}` over a three-character atom: the
minimum is `2 * 3`. -/
theorem RegExpQuantifier_min_match_witness :
    ∃ q, RegExpQuantifier.new 2 3 .GREEDY (.Atom [97, 98, 99]) = some q ∧
      q.min_match = 2 * (RegExpTree.Atom [97, 98, 99]).min_match :=
  RegExpQuantifier_min_match 2 3 .GREEDY (.Atom [97, 98, 99])
    (by decide) (by decide) (by decide)

/-- C8 (as stated, refuted): constructing a quantifier with `min = 3` and
`max = 2` does not fail; it produces a quantifier node. -/
theorem RegExpQuantifier_min_above_max_counterexample :
    (3 : Int) > 2 ∧
    RegExpQuantifier.new 3 2 .GREEDY (.Atom [97])
      = some (.Quantifier (.Atom [97]) 3 2 3 2 .GREEDY) :=
  ⟨by decide, rfl⟩

/-- C8 (amended): the constructor of `RegExpQuantifier` makes no check that
relates `min` and `max`: for all arguments, `min > max` included, the
construction succeeds and produces a quantifier node over the given body with
`min()` and `max()` as given. -/
theorem RegExpQuantifier_new_always_succeeds (min max : Int)
    (type : RegExpQuantifier.Type_) (body : RegExpTree) :
    ∃ q, RegExpQuantifier.new min max type body = some q ∧
      q.min = some min ∧ q.max = some max ∧ q.body = some body :=
  ⟨_, rfl, rfl, rfl, rfl⟩

/-- C9 (as stated, refuted): for the capture index `2^30` the start register
is not `2 * i`; the `int` multiplication wraps to `kMinInt`. -/
theorem StartRegister_overflow_counterexample :
    IsInt 1073741824 ∧
    RegExpCapture.StartRegister 1073741824 = -2147483648 ∧
    RegExpCapture.StartRegister 1073741824 ≠ 2 * 1073741824 := by
  decide

/-- C9 (amended): for every capture index `i` such that `2*i` and `2*i + 1`
are within the `int` range, `StartRegister(i) = 2*i` and
`EndRegister(i) = 2*i + 1`; and for every `i`,
`EndRegister(i) = StartRegister(i) + 1`. -/
theorem capture_registers (i : Int) :
    (kMinInt ≤ 2 * i ∧ 2 * i + 1 ≤ kMaxInt →
      RegExpCapture.StartRegister i = 2 * i ∧ RegExpCapture.EndRegister i = 2 * i + 1) ∧
    RegExpCapture.EndRegister i = RegExpCapture.StartRegister i + 1 := by
  unfold RegExpCapture.StartRegister RegExpCapture.EndRegister intAdd intMul wrapInt
    kMinInt kMaxInt
  omega

/-- C9 (amended), at the capture index 3: the registers are 6 and 7. -/
theorem capture_registers_witness :
    RegExpCapture.StartRegister 3 = 2 * 3 ∧ RegExpCapture.EndRegister 3 = 2 * 3 + 1 :=
  (capture_registers 3).1 (by decide)

/-! ### Invariant checks of the constructors -/

section Checks

open AstNodeFactory FactoryOp

variable {σ : Type}

/-- C6: constructing a breakable statement (`Block`, `SwitchStatement`,
`DoWhileStatement`, `WhileStatement`, `ForStatement`, `ForInStatement`) through
the factory with a non-null label list of length 0 fails the invariant check;
with a null label list or a label list of length `>= 1` it succeeds, and
`labels()` of the node returned is the list given. -/
theorem breakable_statement_labels (V : Visitor σ) (f : AstNodeFactory σ)
    (labels : Option ZoneStringList) (capacity : Int) (is_initializer_block : Bool) :
    ((∃ list, labels = some list ∧ list.length = 0) →
      NewBlock V labels capacity is_initializer_block f = none ∧
      NewSwitchStatement V labels f = none ∧
      NewDoWhileStatement V labels f = none ∧
      NewWhileStatement V labels f = none ∧
      NewForStatement V labels f = none ∧
      NewForInStatement V labels f = none) ∧
    ((labels = none ∨ ∃ list, labels = some list ∧ list.length ≥ 1) →
      (∃ node f', NewBlock V labels capacity is_initializer_block f = some (node, f') ∧
        node.labels = labels) ∧
      (∃ node f', NewSwitchStatement V labels f = some (node, f') ∧ node.labels = labels) ∧
      (∃ node f', NewDoWhileStatement V labels f = some (node, f') ∧ node.labels = labels) ∧
      (∃ node f', NewWhileStatement V labels f = some (node, f') ∧ node.labels = labels) ∧
      (∃ node f', NewForStatement V labels f = some (node, f') ∧ node.labels = labels) ∧
      (∃ node f', NewForInStatement V labels f = some (node, f') ∧
        node.labels = labels)) := by
  constructor
  · rintro ⟨list, rfl, hlen⟩
    have hnil : list = [] := List.length_eq_zero.mp hlen
    subst hnil
    simp [NewBlock, NewSwitchStatement, NewDoWhileStatement, NewWhileStatement,
      NewForStatement, NewForInStatement, VISIT_AND_RETURN, Block.new, SwitchStatement.new,
      DoWhileStatement.new, WhileStatement.new, ForStatement.new, ForInStatement.new,
      IterationStatement.new, BreakableStatement.new,
      FactoryOp.op_bind_def, FactoryOp.op_pure_def, Build.bind_def, Build.pure_def,
      Build.andThen_assoc, Build.ret_andThen, FactoryOp.construct_andThen,
      FactoryOp.construct_ret, FactoryOp.op_andThen_assoc, FactoryOp.op_ret_andThen,
      FactoryOp.construct_GetNextId_andThen, FactoryOp.construct_ASSERT_andThen,
      FactoryOp.visit_andThen, FactoryOp.op_ret_apply]
  · intro h
    rcases h with rfl | ⟨list, rfl, hlen⟩
    · simp [NewBlock, NewSwitchStatement, NewDoWhileStatement, NewWhileStatement,
        NewForStatement, NewForInStatement, VISIT_AND_RETURN, Block.new, SwitchStatement.new,
        DoWhileStatement.new, WhileStatement.new, ForStatement.new, ForInStatement.new,
        IterationStatement.new, BreakableStatement.new, BreakableStatement.labels,
        FactoryOp.op_bind_def, FactoryOp.op_pure_def, Build.bind_def, Build.pure_def,
        Build.andThen_assoc, Build.ret_andThen, FactoryOp.construct_andThen,
        FactoryOp.construct_ret, FactoryOp.op_andThen_assoc, FactoryOp.op_ret_andThen,
        FactoryOp.construct_GetNextId_andThen, FactoryOp.construct_ASSERT_andThen,
        FactoryOp.visit_andThen, FactoryOp.op_ret_apply]
    · have hpos : 0 < list.length := by omega
      simp [NewBlock, NewSwitchStatement, NewDoWhileStatement, NewWhileStatement,
        NewForStatement, NewForInStatement, VISIT_AND_RETURN, Block.new, SwitchStatement.new,
        DoWhileStatement.new, WhileStatement.new, ForStatement.new, ForInStatement.new,
        IterationStatement.new, BreakableStatement.new, BreakableStatement.labels,
        FactoryOp.op_bind_def, FactoryOp.op_pure_def, Build.bind_def, Build.pure_def,
        Build.andThen_assoc, Build.ret_andThen, FactoryOp.construct_andThen,
        FactoryOp.construct_ret, FactoryOp.op_andThen_assoc, FactoryOp.op_ret_andThen,
        FactoryOp.construct_GetNextId_andThen, FactoryOp.construct_ASSERT_andThen,
        FactoryOp.visit_andThen, FactoryOp.op_ret_apply, hpos]

/-- C6, on the empty label list (each construction fails) and on the one-label
list `[7]` (each construction succeeds and keeps the labels), from the counter
value 0. -/
theorem breakable_statement_labels_witness :
    (NewBlock AstNullVisitor (some []) 0 false
        { isolate_ := { ast_node_id := 0, empty_string := 0 }, visitor_ := () } = none ∧
      NewSwitchStatement AstNullVisitor (some [])
        { isolate_ := { ast_node_id := 0, empty_string := 0 }, visitor_ := () } = none ∧
      NewDoWhileStatement AstNullVisitor (some [])
        { isolate_ := { ast_node_id := 0, empty_string := 0 }, visitor_ := () } = none ∧
      NewWhileStatement AstNullVisitor (some [])
        { isolate_ := { ast_node_id := 0, empty_string := 0 }, visitor_ := () } = none ∧
      NewForStatement AstNullVisitor (some [])
        { isolate_ := { ast_node_id := 0, empty_string := 0 }, visitor_ := () } = none ∧
      NewForInStatement AstNullVisitor (some [])
        { isolate_ := { ast_node_id := 0, empty_string := 0 }, visitor_ := () } = none) ∧
    ((∃ node f', NewBlock AstNullVisitor (some [7]) 0 false
        { isolate_ := { ast_node_id := 0, empty_string := 0 }, visitor_ := () }
          = some (node, f') ∧ node.labels = some [7]) ∧
      (∃ node f', NewSwitchStatement AstNullVisitor (some [7])
        { isolate_ := { ast_node_id := 0, empty_string := 0 }, visitor_ := () }
          = some (node, f') ∧ node.labels = some [7]) ∧
      (∃ node f', NewDoWhileStatement AstNullVisitor (some [7])
        { isolate_ := { ast_node_id := 0, empty_string := 0 }, visitor_ := () }
          = some (node, f') ∧ node.labels = some [7]) ∧
      (∃ node f', NewWhileStatement AstNullVisitor (some [7])
        { isolate_ := { ast_node_id := 0, empty_string := 0 }, visitor_ := () }
          = some (node, f') ∧ node.labels = some [7]) ∧
      (∃ node f', NewForStatement AstNullVisitor (some [7])
        { isolate_ := { ast_node_id := 0, empty_string := 0 }, visitor_ := () }
          = some (node, f') ∧ node.labels = some [7]) ∧
      (∃ node f', NewForInStatement AstNullVisitor (some [7])
        { isolate_ := { ast_node_id := 0, empty_string := 0 }, visitor_ := () }
          = some (node, f') ∧ node.labels = some [7])) :=
  ⟨(breakable_statement_labels AstNullVisitor
      { isolate_ := { ast_node_id := 0, empty_string := 0 }, visitor_ := () }
      (some []) 0 false).1 ⟨[], rfl, rfl⟩,
   (breakable_statement_labels AstNullVisitor
      { isolate_ := { ast_node_id := 0, empty_string := 0 }, visitor_ := () }
      (some [7]) 0 false).2 (Or.inr ⟨[7], rfl, by decide⟩)⟩

/-- C7: `NewVariableDeclaration(proxy, mode, fun, scope)` with a non-null `fun`
fails the invariant check when `mode` is `CONST` or `CONST_HARMONY`, and
succeeds when `mode` is `VAR` or `LET`, returning a declaration with
`fun() == fun` and `mode() == mode`; with `fun == NULL` it succeeds for all
four modes. -/
theorem NewVariableDeclaration_mode_check (V : Visitor σ) (f : AstNodeFactory σ)
    (proxy : Ptr) (mode : VariableMode) (fun_ : Ptr) (scope : Ptr) :
    (fun_ ≠ none → mode = VariableMode.CONST ∨ mode = VariableMode.CONST_HARMONY →
      NewVariableDeclaration V proxy mode fun_ scope f = none) ∧
    (fun_ ≠ none → mode = VariableMode.VAR ∨ mode = VariableMode.LET →
      ∃ decl f', NewVariableDeclaration V proxy mode fun_ scope f = some (decl, f') ∧
        decl.«fun» = fun_ ∧ decl.mode = mode) ∧
    (fun_ = none →
      mode = VariableMode.VAR ∨ mode = VariableMode.CONST ∨
        mode = VariableMode.CONST_HARMONY ∨ mode = VariableMode.LET →
      ∃ decl f', NewVariableDeclaration V proxy mode fun_ scope f = some (decl, f') ∧
        decl.«fun» = fun_ ∧ decl.mode = mode) := by
  refine ⟨?_, ?_, ?_⟩
  · intro hfun hmode
    rcases hmode with rfl | rfl <;>
    simp [NewVariableDeclaration, VISIT_AND_RETURN, VariableDeclaration.new, Declaration.new,
      FactoryOp.op_bind_def, FactoryOp.op_pure_def, Build.bind_def, Build.pure_def,
      Build.andThen_assoc, Build.ret_andThen, FactoryOp.construct_andThen,
      FactoryOp.construct_ret, FactoryOp.op_andThen_assoc, FactoryOp.op_ret_andThen,
      FactoryOp.construct_ASSERT_andThen, FactoryOp.visit_andThen, FactoryOp.op_ret_apply, hfun]
  · intro _ hmode
    rcases hmode with rfl | rfl <;>
    simp [NewVariableDeclaration, VISIT_AND_RETURN, VariableDeclaration.new, Declaration.new,
      VariableDeclaration.«fun», VariableDeclaration.mode,
      FactoryOp.op_bind_def, FactoryOp.op_pure_def, Build.bind_def, Build.pure_def,
      Build.andThen_assoc, Build.ret_andThen, FactoryOp.construct_andThen,
      FactoryOp.construct_ret, FactoryOp.op_andThen_assoc, FactoryOp.op_ret_andThen,
      FactoryOp.construct_ASSERT_andThen, FactoryOp.visit_andThen, FactoryOp.op_ret_apply]
  · intro hfun hmode
    subst hfun
    rcases hmode with rfl | rfl | rfl | rfl <;>
    simp [NewVariableDeclaration, VISIT_AND_RETURN, VariableDeclaration.new, Declaration.new,
      VariableDeclaration.«fun», VariableDeclaration.mode,
      FactoryOp.op_bind_def, FactoryOp.op_pure_def, Build.bind_def, Build.pure_def,
      Build.andThen_assoc, Build.ret_andThen, FactoryOp.construct_andThen,
      FactoryOp.construct_ret, FactoryOp.op_andThen_assoc, FactoryOp.op_ret_andThen,
      FactoryOp.construct_ASSERT_andThen, FactoryOp.visit_andThen, FactoryOp.op_ret_apply]

/-- C7, with the function literal at address 4: the mode `CONST` fails, the
mode `LET` succeeds; and with a null function the mode `CONST_HARMONY`
succeeds. -/
theorem NewVariableDeclaration_mode_check_witness :
    NewVariableDeclaration AstNullVisitor (some 1) VariableMode.CONST (some 4) (some 2)
        { isolate_ := { ast_node_id := 0, empty_string := 0 }, visitor_ := () } = none ∧
    (∃ decl f', NewVariableDeclaration AstNullVisitor (some 1) VariableMode.LET (some 4)
        (some 2) { isolate_ := { ast_node_id := 0, empty_string := 0 }, visitor_ := () }
          = some (decl, f') ∧ decl.«fun» = some 4 ∧ decl.mode = VariableMode.LET) ∧
    (∃ decl f', NewVariableDeclaration AstNullVisitor (some 1) VariableMode.CONST_HARMONY
        none (some 2) { isolate_ := { ast_node_id := 0, empty_string := 0 }, visitor_ := () }
          = some (decl, f') ∧ decl.«fun» = none ∧ decl.mode = VariableMode.CONST_HARMONY) :=
  ⟨(NewVariableDeclaration_mode_check AstNullVisitor
      { isolate_ := { ast_node_id := 0, empty_string := 0 }, visitor_ := () }
      (some 1) VariableMode.CONST (some 4) (some 2)).1 (by decide) (Or.inl rfl),
   (NewVariableDeclaration_mode_check AstNullVisitor
      { isolate_ := { ast_node_id := 0, empty_string := 0 }, visitor_ := () }
      (some 1) VariableMode.LET (some 4) (some 2)).2.1 (by decide) (Or.inr rfl),
   (NewVariableDeclaration_mode_check AstNullVisitor
      { isolate_ := { ast_node_id := 0, empty_string := 0 }, visitor_ := () }
      (some 1) VariableMode.CONST_HARMONY none (some 2)).2.2 rfl (Or.inr (Or.inr (Or.inl rfl)))⟩

end Checks

/-! ### Type testing and conversion -/

theorem AST_NODE_LIST_complete (t : AstNode.Type_) :
    t ∈ AST_NODE_LIST ↔ t ≠ AstNode.Type_.kInvalid := by
  cases t <;> decide

/-- C10: `AST_NODE_LIST` names 41 distinct kinds, and for every AST node `x`
and every kind `K` of the list: `x.IsK()` holds iff `x.node_type() == kK`;
`x.AsK()` is `x` itself when `x.IsK()` holds and `NULL` otherwise; a node of a
concrete kind passes exactly one `IsK` test; and for a node whose
`node_type()` is `kInvalid` every `IsK` is false and every `AsK` is `NULL`. -/
theorem node_type_tests (x : AstNode) :
    AST_NODE_LIST.length = 41 ∧ AST_NODE_LIST.Nodup ∧
    (∀ K ∈ AST_NODE_LIST,
      (x.Is K = true ↔ x.node_type = K) ∧
      (x.Is K = true → x.As K = some x) ∧
      (x.Is K = false → x.As K = none)) ∧
    (x.node_type ∈ AST_NODE_LIST → ∃! K, K ∈ AST_NODE_LIST ∧ x.Is K = true) ∧
    (x.node_type = AstNode.Type_.kInvalid →
      ∀ K ∈ AST_NODE_LIST, x.Is K = false ∧ x.As K = none) := by
  refine ⟨by decide, by decide, ?_, ?_, ?_⟩
  · intro K _
    refine ⟨?_, ?_, ?_⟩
    · simp [AstNode.Is]
    · intro h
      simp [AstNode.As, h]
    · intro h
      simp [AstNode.As, h]
  · intro hx
    refine ⟨x.node_type, ⟨hx, by simp [AstNode.Is]⟩, ?_⟩
    rintro K ⟨_, hK⟩
    simp only [AstNode.Is, beq_iff_eq] at hK
    exact hK.symm
  · intro hx K hK
    have hne : K ≠ AstNode.Type_.kInvalid := (AST_NODE_LIST_complete K).mp hK
    have hfalse : x.Is K = false := by
      simp only [AstNode.Is, hx, beq_eq_false_iff_ne, ne_eq]
      exact fun h => hne h.symm
    exact ⟨hfalse, by simp [AstNode.As, hfalse]⟩

/-- C10, on an `EmptyStatement` node: it passes `IsEmptyStatement`, and
`AsEmptyStatement` returns the node; it fails `IsBlock`, and `AsBlock` returns
`NULL`; on a `TargetCollector`, whose `node_type()` is `kInvalid`, `IsBlock` is
false and `AsBlock` is `NULL`. -/
theorem node_type_tests_witness :
    ((AstNode.EmptyStatement {}).Is .kEmptyStatement = true ↔
        (AstNode.EmptyStatement {}).node_type = .kEmptyStatement) ∧
    ((AstNode.EmptyStatement {}).Is .kEmptyStatement = true →
        (AstNode.EmptyStatement {}).As .kEmptyStatement = some (AstNode.EmptyStatement {})) ∧
    ((AstNode.EmptyStatement {}).Is .kBlock = false →
        (AstNode.EmptyStatement {}).As .kBlock = none) ∧
    (∃! K, K ∈ AST_NODE_LIST ∧ (AstNode.EmptyStatement {}).Is K = true) ∧
    ((AstNode.TargetCollector { targets_ := [] }).Is .kBlock = false ∧
        (AstNode.TargetCollector { targets_ := [] }).As .kBlock = none) :=
  ⟨((node_type_tests (AstNode.EmptyStatement {})).2.2.1 .kEmptyStatement (by decide)).1,
   ((node_type_tests (AstNode.EmptyStatement {})).2.2.1 .kEmptyStatement (by decide)).2.1,
   ((node_type_tests (AstNode.EmptyStatement {})).2.2.1 .kBlock (by decide)).2.2,
   (node_type_tests (AstNode.EmptyStatement {})).2.2.2.1 (by decide),
   (node_type_tests (AstNode.TargetCollector { targets_ := [] })).2.2.2.2 rfl
     .kBlock (by decide)⟩

/-! ### Family narrowing -/

/-- C11: the family narrowing operations return the node itself exactly for
the kinds of the family and `NULL` for every other node: `AsStatement` for the
16 kinds of `STATEMENT_NODE_LIST`, `AsExpression` for the 19 kinds of
`EXPRESSION_NODE_LIST`, `AsDeclaration` for `VariableDeclaration` and
`ModuleDeclaration`, `AsBreakableStatement` for `Block`, `SwitchStatement` and
the four loop kinds, `AsIterationStatement` for the four loop kinds,
`AsMaterializedLiteral` for `ObjectLiteral`, `ArrayLiteral` and
`RegExpLiteral`; a node of one of the four module kinds narrows to none of
them. -/
theorem family_narrowing (x : AstNode) :
    STATEMENT_NODE_LIST.length = 16 ∧ EXPRESSION_NODE_LIST.length = 19 ∧
    x.AsStatement = (if x.node_type ∈ STATEMENT_NODE_LIST then some x else none) ∧
    x.AsExpression = (if x.node_type ∈ EXPRESSION_NODE_LIST then some x else none) ∧
    x.AsDeclaration
      = (if x.node_type ∈ [AstNode.Type_.kVariableDeclaration, .kModuleDeclaration]
         then some x else none) ∧
    x.AsBreakableStatement
      = (if x.node_type ∈ [AstNode.Type_.kBlock, .kSwitchStatement, .kDoWhileStatement,
            .kWhileStatement, .kForStatement, .kForInStatement]
         then some x else none) ∧
    x.AsIterationStatement
      = (if x.node_type ∈ [AstNode.Type_.kDoWhileStatement, .kWhileStatement,
            .kForStatement, .kForInStatement]
         then some x else none) ∧
    x.AsMaterializedLiteral
      = (if x.node_type ∈ [AstNode.Type_.kObjectLiteral, .kArrayLiteral, .kRegExpLiteral]
         then some x else none) ∧
    (x.node_type ∈ MODULE_NODE_LIST →
      x.AsStatement = none ∧ x.AsExpression = none ∧ x.AsDeclaration = none ∧
      x.AsBreakableStatement = none ∧ x.AsIterationStatement = none ∧
      x.AsMaterializedLiteral = none) := by
  refine ⟨by decide, by decide, ?_⟩
  cases x <;>
    simp [AstNode.AsStatement, AstNode.AsExpression, AstNode.AsDeclaration,
      AstNode.AsBreakableStatement, AstNode.AsIterationStatement,
      AstNode.AsMaterializedLiteral, AstNode.dynamicClass, AstNode.node_type,
      STATEMENT_NODE_LIST, EXPRESSION_NODE_LIST, MODULE_NODE_LIST]

/-- C11, on a `ModulePath` node: its kind is a module kind, and it narrows to
no family. -/
theorem family_narrowing_witness :
    (AstNode.ModulePath { module_ := none, name_ := 0 }).AsStatement = none ∧
    (AstNode.ModulePath { module_ := none, name_ := 0 }).AsExpression = none ∧
    (AstNode.ModulePath { module_ := none, name_ := 0 }).AsDeclaration = none ∧
    (AstNode.ModulePath { module_ := none, name_ := 0 }).AsBreakableStatement = none ∧
    (AstNode.ModulePath { module_ := none, name_ := 0 }).AsIterationStatement = none ∧
    (AstNode.ModulePath { module_ := none, name_ := 0 }).AsMaterializedLiteral = none :=
  (family_narrowing (AstNode.ModulePath { module_ := none, name_ := 0 })).2.2.2.2.2.2.2.2
    (by decide)

/-! ### The overflow flag of a visitor -/

theorem Visit_of_overflow {σ : Type} (cases : Visitor (AstVisitor σ))
    (stack_has_overflowed : Bool) (x : AstNode) (v : AstVisitor σ)
    (hset : v.HasStackOverflow = true) :
    AstVisitor.Visit cases stack_has_overflowed x v = some v := by
  simp only [AstVisitor.HasStackOverflow] at hset
  simp [AstVisitor.Visit, AstVisitor.CheckStackOverflow, hset]

/-- C12: for every `AstVisitor` `v` whose overflow flag is set, whatever the
cases of the visitor and whatever the depth check would say, `v.Visit(x)`
leaves the visitor as it is for every node `x` (it does not reach `Accept`, so
no case fires, and `HasStackOverflow()` is still true), and so does every
sequence of `Visit` calls; the flag is set after `SetStackOverflow()` and after
a `Visit` on which the guard trips, and that `Visit` fires no case either. -/
theorem Visit_is_noop_after_overflow {σ : Type} (cases : Visitor (AstVisitor σ))
    (v : AstVisitor σ) (hset : v.HasStackOverflow = true) :
    (∀ (stack_has_overflowed : Bool) (x : AstNode),
      AstVisitor.Visit cases stack_has_overflowed x v = some v) ∧
    (∀ calls : List (Bool × AstNode), AstVisitor.visitAll cases calls v = some v) ∧
    (∀ v0 : AstVisitor σ, v0.SetStackOverflow.HasStackOverflow = true) ∧
    (∀ (v0 : AstVisitor σ) (x : AstNode), v0.HasStackOverflow = false →
      AstVisitor.Visit cases true x v0 = some v0.SetStackOverflow ∧
      v0.SetStackOverflow.derived_ = v0.derived_) := by
  refine ⟨fun s x => Visit_of_overflow cases s x v hset, ?_, fun _ => rfl, ?_⟩
  · intro calls
    induction calls with
    | nil => rfl
    | cons c rest ih =>
      obtain ⟨s, x⟩ := c
      simp only [AstVisitor.visitAll, Visit_of_overflow cases s x v hset]
      exact ih
  · intro v0 x h0
    simp only [AstVisitor.HasStackOverflow] at h0
    simp [AstVisitor.Visit, AstVisitor.CheckStackOverflow, AstVisitor.SetStackOverflow, h0]

/-- C12, on a recording visitor: after the guard has tripped on a first
`Visit`, two further `Visit` calls (whose depth checks would pass) record
nothing; without the trip the same two calls record both nodes. -/
theorem Visit_is_noop_after_overflow_witness :
    AstVisitor.Visit recordingVisitor true (AstNode.EmptyStatement {}) (AstVisitor.new [])
      = some { stack_overflow_ := true, derived_ := [] } ∧
    AstVisitor.visitAll recordingVisitor
        [(false, AstNode.EmptyStatement {}), (false, AstNode.DebuggerStatement {})]
        { stack_overflow_ := true, derived_ := [] }
      = some { stack_overflow_ := true, derived_ := [] } ∧
    AstVisitor.visitAll recordingVisitor
        [(false, AstNode.EmptyStatement {}), (false, AstNode.DebuggerStatement {})]
        (AstVisitor.new [])
      = some { stack_overflow_ := false,
               derived_ := [(.kEmptyStatement, AstNode.EmptyStatement {}),
                            (.kDebuggerStatement, AstNode.DebuggerStatement {})] } :=
  ⟨rfl,
   (Visit_is_noop_after_overflow recordingVisitor
      { stack_overflow_ := true, derived_ := [] } rfl).2.1
      [(false, AstNode.EmptyStatement {}), (false, AstNode.DebuggerStatement {})],
   rfl⟩

/-! ### Visits of the construction visitor -/

section Visits

open AstNodeFactory FactoryOp

variable {σ : Type}

/-- C13 (what the code does): a factory call other than `NewEmptyStatement()`
and other than a `NewFunctionLiteral` with the flag `kGlobalOrEval` invokes,
for each AST node it creates and in the order of creation, the case
`Visit##type` of the construction visitor once on that node, before it
returns; `NewEmptyStatement()` creates an `EmptyStatement` and returns it with
the visitor untouched: `VisitEmptyStatement` is not invoked; and a top-level
function literal is not visited. -/
theorem factory_visits_created_nodes (T : Token) (V : Visitor σ) (fc : FactoryCall)
    (f f' : AstNodeFactory σ) (nodes : List AstNode)
    (h : call T V fc f = some (nodes, f')) :
    (fc.isNewEmptyStatement = false → fc.isTopLevelFunctionLiteral = false →
      nodes ≠ [] ∧
      f'.visitor_ = nodes.foldl (fun state node => V.Visit node.node_type node state)
        f.visitor_) ∧
    (fc.isNewEmptyStatement = true →
      nodes = [AstNode.EmptyStatement {}] ∧ f'.visitor_ = f.visitor_) ∧
    (fc.isTopLevelFunctionLiteral = true → f'.visitor_ = f.visitor_) := by
  cases fc
  case NewFunctionLiteral name scope body mlc epc hc hos tpa pc hdp type is_function =>
    cases is_function <;>
      simp +decide [call, NewFunctionLiteral, FunctionLiteral.new, Expression.new,
        FactoryOp.op_bind_def, FactoryOp.op_pure_def, Build.bind_def, Build.pure_def,
        Build.andThen_assoc, Build.ret_andThen, FactoryOp.construct_andThen,
        FactoryOp.construct_ret, FactoryOp.op_andThen_assoc, FactoryOp.op_ret_andThen,
        FactoryOp.op_ite_andThen, FactoryOp.construct_GetNextId_andThen,
        FactoryOp.construct_empty_string_andThen, FactoryOp.visit_andThen,
        FactoryOp.op_ret_apply, FactoryOp.ite_run] at h <;>
      obtain ⟨rfl, rfl⟩ := h <;>
      simp [FactoryCall.isNewEmptyStatement, FactoryCall.isTopLevelFunctionLiteral,
        AstNode.node_type]
  all_goals simp only [call, NewVariableDeclaration, NewModuleDeclaration, NewModuleLiteral,
    NewModuleVariable, NewModulePath, NewModuleUrl, NewBlock, NewDoWhileStatement,
    NewWhileStatement, NewForStatement, NewForInStatement, NewSwitchStatement,
    NewExpressionStatement, NewContinueStatement, NewBreakStatement, NewReturnStatement,
    NewWithStatement, NewIfStatement, NewTryCatchStatement, NewTryFinallyStatement,
    NewDebuggerStatement, NewEmptyStatement, NewLiteral, NewNumberLiteral, NewObjectLiteral,
    NewObjectLiteralProperty, NewRegExpLiteral, NewArrayLiteral, NewVariableProxyBound,
    NewVariableProxy, NewProperty, NewCall, NewCallNew, NewCallRuntime, NewUnaryOperation,
    NewBinaryOperation, NewCountOperation, NewCompareOperation, NewConditional,
    Assignment_Init, NewAssignment, NewThrow, NewFunctionLiteral,
    NewSharedFunctionInfoLiteral, NewThisFunction, VISIT_AND_RETURN,
    Declaration.new, VariableDeclaration.new, ModuleDeclaration.new,
    BreakableStatement.new, Block.new, IterationStatement.new, DoWhileStatement.new,
    WhileStatement.new, ForStatement.new, ForInStatement.new, SwitchStatement.new,
    IfStatement.new, Expression.new, Literal.new, MaterializedLiteral.new,
    ObjectLiteral.new, RegExpLiteral.new, ArrayLiteral.new, VariableProxy.newBound,
    VariableProxy.new, Property.new, Call.new, CallNew.new, CallRuntime.new,
    UnaryOperation.new, BinaryOperation.new, CountOperation.new, CompareOperation.new,
    Conditional.new, Assignment.new, Throw.new, FunctionLiteral.new,
    SharedFunctionInfoLiteral.new, ThisFunction.new,
    Assignment.is_compound, Assignment.binary_op, Assignment.op,
    FactoryOp.op_bind_def, FactoryOp.op_pure_def, Build.bind_def, Build.pure_def,
    Build.andThen_assoc, Build.ret_andThen, Build.ite_andThen,
    FactoryOp.construct_andThen, FactoryOp.construct_ite,
    FactoryOp.construct_ret, FactoryOp.op_andThen_assoc, FactoryOp.op_ret_andThen,
    FactoryOp.op_ite_andThen,
    FactoryOp.construct_GetNextId_andThen, FactoryOp.construct_ReserveIdRange_andThen,
    FactoryOp.construct_ASSERT_andThen, FactoryOp.construct_empty_string_andThen,
    FactoryOp.visit_andThen, FactoryOp.op_ret_apply, FactoryOp.ite_run] at h
  all_goals (repeat' split at h)
  all_goals cases h
  all_goals simp [FactoryCall.isNewEmptyStatement, FactoryCall.isTopLevelFunctionLiteral,
    AstNode.node_type]

/-- C13, on `NewEmptyStatement()` with a recording visitor: the node is created
and nothing is recorded; `NewDebuggerStatement()`, next to it in the factory,
records its visit. -/
theorem factory_visits_created_nodes_witness :
    call Token.sample recordingConstructionVisitor .NewEmptyStatement
        { isolate_ := { ast_node_id := 0, empty_string := 0 }, visitor_ := [] }
      = some ([AstNode.EmptyStatement {}],
          { isolate_ := { ast_node_id := 0, empty_string := 0 }, visitor_ := [] }) ∧
    ([AstNode.EmptyStatement {}] = [AstNode.EmptyStatement {}] ∧
      ([] : List (AstNode.Type_ × AstNode)) = []) ∧
    call Token.sample recordingConstructionVisitor .NewDebuggerStatement
        { isolate_ := { ast_node_id := 0, empty_string := 0 }, visitor_ := [] }
      = some ([AstNode.DebuggerStatement {}],
          { isolate_ := { ast_node_id := 0, empty_string := 0 },
            visitor_ := [(.kDebuggerStatement, AstNode.DebuggerStatement {})] }) :=
  ⟨rfl,
   (factory_visits_created_nodes Token.sample recordingConstructionVisitor
      .NewEmptyStatement
      { isolate_ := { ast_node_id := 0, empty_string := 0 }, visitor_ := [] }
      { isolate_ := { ast_node_id := 0, empty_string := 0 }, visitor_ := [] }
      [AstNode.EmptyStatement {}] rfl).2.1 rfl,
   rfl⟩

end Visits

/-! ### Compound assignments -/

section Compound

open AstNodeFactory FactoryOp

variable {σ : Type}

theorem FactoryOp.andThen_eq_some {α β : Type} (m : FactoryOp σ α)
    (g : α → FactoryOp σ β) (s : AstNodeFactory σ) (r : β × AstNodeFactory σ)
    (h : FactoryOp.andThen m g s = some r) :
    ∃ a s1, m s = some (a, s1) ∧ g a s1 = some r := by
  unfold FactoryOp.andThen at h
  cases hm : m s with
  | none => rw [hm] at h; cases h
  | some p =>
    obtain ⟨a, s1⟩ := p
    rw [hm] at h
    exact ⟨a, s1, rfl, h⟩

theorem NewBinaryOperation_fields (T : Token) (V : Visitor σ) (op : Token.Value)
    (left right : Ptr) (pos : Int) (f f' : AstNodeFactory σ) (b : BinaryOperation)
    (h : NewBinaryOperation T V op left right pos f = some (b, f')) :
    b.op = op ∧ b.left = left ∧ b.right = right ∧ b.position = pos := by
  simp only [call, NewVariableDeclaration, NewModuleDeclaration, NewModuleLiteral,
    NewModuleVariable, NewModulePath, NewModuleUrl, NewBlock, NewDoWhileStatement,
    NewWhileStatement, NewForStatement, NewForInStatement, NewSwitchStatement,
    NewExpressionStatement, NewContinueStatement, NewBreakStatement, NewReturnStatement,
    NewWithStatement, NewIfStatement, NewTryCatchStatement, NewTryFinallyStatement,
    NewDebuggerStatement, NewEmptyStatement, NewLiteral, NewNumberLiteral, NewObjectLiteral,
    NewObjectLiteralProperty, NewRegExpLiteral, NewArrayLiteral, NewVariableProxyBound,
    NewVariableProxy, NewProperty, NewCall, NewCallNew, NewCallRuntime, NewUnaryOperation,
    NewBinaryOperation, NewCountOperation, NewCompareOperation, NewConditional,
    Assignment_Init, NewAssignment, NewThrow, NewFunctionLiteral,
    NewSharedFunctionInfoLiteral, NewThisFunction, VISIT_AND_RETURN,
    Declaration.new, VariableDeclaration.new, ModuleDeclaration.new,
    BreakableStatement.new, Block.new, IterationStatement.new, DoWhileStatement.new,
    WhileStatement.new, ForStatement.new, ForInStatement.new, SwitchStatement.new,
    IfStatement.new, Expression.new, Literal.new, MaterializedLiteral.new,
    ObjectLiteral.new, RegExpLiteral.new, ArrayLiteral.new, VariableProxy.newBound,
    VariableProxy.new, Property.new, Call.new, CallNew.new, CallRuntime.new,
    UnaryOperation.new, BinaryOperation.new, CountOperation.new, CompareOperation.new,
    Conditional.new, Assignment.new, Throw.new, FunctionLiteral.new,
    SharedFunctionInfoLiteral.new, ThisFunction.new,
    Assignment.is_compound, Assignment.binary_op, Assignment.op,
    FactoryOp.op_bind_def, FactoryOp.op_pure_def, Build.bind_def, Build.pure_def,
    Build.andThen_assoc, Build.ret_andThen, Build.ite_andThen,
    FactoryOp.construct_andThen, FactoryOp.construct_ite,
    FactoryOp.construct_ret, FactoryOp.op_andThen_assoc, FactoryOp.op_ret_andThen,
    FactoryOp.op_ite_andThen,
    FactoryOp.construct_GetNextId_andThen, FactoryOp.construct_ReserveIdRange_andThen,
    FactoryOp.construct_ASSERT_andThen, FactoryOp.construct_empty_string_andThen,
    FactoryOp.visit_andThen, FactoryOp.op_ret_apply, FactoryOp.ite_run] at h
  repeat' split at h
  all_goals cases h
  all_goals simp [BinaryOperation.op, BinaryOperation.left, BinaryOperation.right,
    BinaryOperation.position]

theorem Assignment_new_fields (op : Token.Value) (target value : Ptr) (pos : Int)
    (f f1 : AstNodeFactory σ) (a0 : Assignment)
    (h : construct (Assignment.new op target value pos) f = some (a0, f1)) :
    a0.op_ = op ∧ a0.target_ = target ∧ a0.value_ = value ∧ a0.pos_ = pos ∧
    a0.binary_operation_ = none ∧ a0.compound_load_id_ = AstNode.kNoNumber := by
  simp only [call, NewVariableDeclaration, NewModuleDeclaration, NewModuleLiteral,
    NewModuleVariable, NewModulePath, NewModuleUrl, NewBlock, NewDoWhileStatement,
    NewWhileStatement, NewForStatement, NewForInStatement, NewSwitchStatement,
    NewExpressionStatement, NewContinueStatement, NewBreakStatement, NewReturnStatement,
    NewWithStatement, NewIfStatement, NewTryCatchStatement, NewTryFinallyStatement,
    NewDebuggerStatement, NewEmptyStatement, NewLiteral, NewNumberLiteral, NewObjectLiteral,
    NewObjectLiteralProperty, NewRegExpLiteral, NewArrayLiteral, NewVariableProxyBound,
    NewVariableProxy, NewProperty, NewCall, NewCallNew, NewCallRuntime, NewUnaryOperation,
    NewBinaryOperation, NewCountOperation, NewCompareOperation, NewConditional,
    Assignment_Init, NewAssignment, NewThrow, NewFunctionLiteral,
    NewSharedFunctionInfoLiteral, NewThisFunction, VISIT_AND_RETURN,
    Declaration.new, VariableDeclaration.new, ModuleDeclaration.new,
    BreakableStatement.new, Block.new, IterationStatement.new, DoWhileStatement.new,
    WhileStatement.new, ForStatement.new, ForInStatement.new, SwitchStatement.new,
    IfStatement.new, Expression.new, Literal.new, MaterializedLiteral.new,
    ObjectLiteral.new, RegExpLiteral.new, ArrayLiteral.new, VariableProxy.newBound,
    VariableProxy.new, Property.new, Call.new, CallNew.new, CallRuntime.new,
    UnaryOperation.new, BinaryOperation.new, CountOperation.new, CompareOperation.new,
    Conditional.new, Assignment.new, Throw.new, FunctionLiteral.new,
    SharedFunctionInfoLiteral.new, ThisFunction.new,
    Assignment.is_compound, Assignment.binary_op, Assignment.op,
    FactoryOp.op_bind_def, FactoryOp.op_pure_def, Build.bind_def, Build.pure_def,
    Build.andThen_assoc, Build.ret_andThen, Build.ite_andThen,
    FactoryOp.construct_andThen, FactoryOp.construct_ite,
    FactoryOp.construct_ret, FactoryOp.op_andThen_assoc, FactoryOp.op_ret_andThen,
    FactoryOp.op_ite_andThen,
    FactoryOp.construct_GetNextId_andThen, FactoryOp.construct_ReserveIdRange_andThen,
    FactoryOp.construct_ASSERT_andThen, FactoryOp.construct_empty_string_andThen,
    FactoryOp.visit_andThen, FactoryOp.op_ret_apply, FactoryOp.ite_run] at h
  cases h
  simp

/-- C14 (amended): for `NewAssignment(op, target, value, pos)` that returns the
node `a`, with `pos + 1` within the `int` range. When `op` is a compound
assignment operator (`op > Token::ASSIGN`), `a.binary_operation()` is a
`BinaryOperation` built by `NewBinaryOperation` of the same factory, on the
state the constructor of the assignment left, with `op = binary_op()`,
`left = target`, `right = value` and position `pos + 1`, and
`CompoundLoadId()` is the id minted right after that operation returned: the
value of the counter it left. When `op` is `Token::ASSIGN`, `Init` returns the
assignment and the factory as they are (no `BinaryOperation`, no id minted, the
counter unchanged), `binary_operation()` is `NULL` and `CompoundLoadId()` is
the no-id sentinel. -/
theorem NewAssignment_compound (T : Token) (V : Visitor σ) (op : Token.Value)
    (target value : Ptr) (pos : Int) (f f' : AstNodeFactory σ) (a : Assignment)
    (h : NewAssignment T V op target value pos f = some (a, f'))
    (hpos : IsInt pos) (hfit : pos + 1 ≤ kMaxInt) :
    (op > T.ASSIGN →
      ∃ a0 f1 b f2,
        construct (Assignment.new op target value pos) f = some (a0, f1) ∧
        NewBinaryOperation T V (T.binary_op op) target value (intAdd pos 1) f1
          = some (b, f2) ∧
        a.binary_operation = some b ∧
        b.op = a.binary_op T ∧ b.left = target ∧ b.right = value ∧
        b.position = pos + 1 ∧
        a.CompoundLoadId = f2.isolate_.ast_node_id ∧
        f'.isolate_.ast_node_id = intAdd f2.isolate_.ast_node_id 1) ∧
    (op = T.ASSIGN →
      ∃ a0 f1,
        construct (Assignment.new op target value pos) f = some (a0, f1) ∧
        Assignment_Init T V a0 f1 = some (a0, f1) ∧
        f'.isolate_ = f1.isolate_ ∧
        a.binary_operation = none ∧ a.CompoundLoadId = AstNode.kNoNumber) := by
  have hw : intAdd pos 1 = pos + 1 := by
    apply wrapInt_of_isInt
    unfold IsInt kMinInt kMaxInt at *
    omega
  simp only [NewAssignment, FactoryOp.op_bind_def] at h
  obtain ⟨a0, f1, h0, h1⟩ := FactoryOp.andThen_eq_some _ _ _ _ h
  obtain ⟨a1, f3, hInit, hVisit⟩ := FactoryOp.andThen_eq_some _ _ _ _ h1
  obtain ⟨e1, e2, e3, e4, e5, e6⟩ := Assignment_new_fields op target value pos f f1 a0 h0
  simp only [VISIT_AND_RETURN, FactoryOp.op_bind_def, FactoryOp.op_pure_def,
    FactoryOp.visit_andThen, FactoryOp.op_ret_apply] at hVisit
  cases hVisit
  simp only [Assignment_Init, FactoryOp.op_bind_def, FactoryOp.op_pure_def,
    FactoryOp.construct_ASSERT_andThen, Assignment.is_compound, Assignment.op,
    Assignment.binary_op, e1, e2, e3, e4] at hInit
  constructor
  · intro hcomp
    split at hInit
    · rw [FactoryOp.ite_run, if_pos (by simpa using hcomp)] at hInit
      obtain ⟨b, f2, hb, hrest⟩ := FactoryOp.andThen_eq_some _ _ _ _ hInit
      simp only [FactoryOp.construct_GetNextId_andThen, FactoryOp.op_ret_apply] at hrest
      cases hrest
      obtain ⟨b1, b2, b3, b4⟩ := NewBinaryOperation_fields T V _ _ _ _ f1 f2 b hb
      refine ⟨a0, f1, b, f2, h0, hb, rfl, ?_, b2, b3, ?_, rfl, rfl⟩
      · simp [Assignment.binary_op, Assignment.op, e1, b1]
      · rw [b4, hw]
    · cases hInit
  · intro hsimple
    have hnot : ¬ (T.ASSIGN < op) := by rw [hsimple]; exact lt_irrefl _
    split at hInit
    · rename_i hassert
      rw [FactoryOp.ite_run, if_neg (by simpa using hnot), FactoryOp.op_ret_apply] at hInit
      cases hInit
      refine ⟨a, f1, h0, ?_, rfl, ?_, ?_⟩
      · simp [Assignment_Init, FactoryOp.op_bind_def, FactoryOp.op_pure_def,
          FactoryOp.construct_ASSERT_andThen, Assignment.is_compound, Assignment.op,
          FactoryOp.ite_run, FactoryOp.op_ret_apply, e1, hassert, hnot]
      · simp [Assignment.binary_operation, e5]
      · simp [Assignment.CompoundLoadId, e6]
    · cases hInit

/-- C14 (as stated, refuted): a compound assignment at the position `kMaxInt`
gets a binary operation whose position is `kMinInt`, not `pos + 1`. -/
theorem NewAssignment_position_counterexample :
    (NewAssignment Token.sample AstNullVisitor 24 (some 1) (some 2) 2147483647
        { isolate_ := { ast_node_id := 0, empty_string := 0 }, visitor_ := () }).map
      (fun r => r.1.binary_operation.map BinaryOperation.position)
      = some (some (-2147483648)) ∧
    (-2147483648 : Int) ≠ 2147483647 + 1 := by
  constructor
  · rfl
  · decide

/-- C14 (amended), on the compound assignment `+=` (24, whose binary operator
is `+`, 38) at position 10 and on the simple assignment `=` (17), from the
counter value 0. -/
theorem NewAssignment_compound_witness :
    (∃ a f', NewAssignment Token.sample AstNullVisitor 24 (some 1) (some 2) 10
        { isolate_ := { ast_node_id := 0, empty_string := 0 }, visitor_ := () }
          = some (a, f') ∧
      ∃ a0 f1 b f2,
        construct (Assignment.new 24 (some 1) (some 2) 10)
            { isolate_ := { ast_node_id := 0, empty_string := 0 }, visitor_ := () }
          = some (a0, f1) ∧
        NewBinaryOperation Token.sample AstNullVisitor (Token.sample.binary_op 24)
            (some 1) (some 2) (intAdd 10 1) f1 = some (b, f2) ∧
        a.binary_operation = some b ∧
        b.op = a.binary_op Token.sample ∧ b.left = some 1 ∧ b.right = some 2 ∧
        b.position = 10 + 1 ∧
        a.CompoundLoadId = f2.isolate_.ast_node_id ∧
        f'.isolate_.ast_node_id = intAdd f2.isolate_.ast_node_id 1) ∧
    (∃ a f', NewAssignment Token.sample AstNullVisitor 17 (some 1) (some 2) 10
        { isolate_ := { ast_node_id := 0, empty_string := 0 }, visitor_ := () }
          = some (a, f') ∧
      ∃ a0 f1,
        construct (Assignment.new 17 (some 1) (some 2) 10)
            { isolate_ := { ast_node_id := 0, empty_string := 0 }, visitor_ := () }
          = some (a0, f1) ∧
        Assignment_Init Token.sample AstNullVisitor a0 f1 = some (a0, f1) ∧
        f'.isolate_ = f1.isolate_ ∧
        a.binary_operation = none ∧ a.CompoundLoadId = AstNode.kNoNumber) :=
  ⟨⟨_, _, rfl,
     (NewAssignment_compound Token.sample AstNullVisitor 24 (some 1) (some 2) 10
        { isolate_ := { ast_node_id := 0, empty_string := 0 }, visitor_ := () } _ _
        rfl (by decide) (by decide)).1 (by decide)⟩,
   ⟨_, _, rfl,
     (NewAssignment_compound Token.sample AstNullVisitor 17 (some 1) (some 2) 10
        { isolate_ := { ast_node_id := 0, empty_string := 0 }, visitor_ := () } _ _
        rfl (by decide) (by decide)).2 rfl⟩⟩

end Compound

/-! ### Ids of binary operations, array literals, loops and calls -/

theorem Build.ctor_ite_run {α : Type} (c : Prop) [Decidable c] (a b : Build α) (s : Isolate) :
    (if c then a else b) s = if c then a s else b s := by
  split <;> rfl

theorem intAdd_of_fit {a b : Int} (ha : IsInt a) (hb : 0 ≤ b) (hfit : a + b ≤ kMaxInt) :
    intAdd a b = a + b := by
  apply wrapInt_of_isInt
  unfold IsInt kMinInt kMaxInt at *
  omega

theorem toUnsigned_of_nonneg {x : Int} (h0 : 0 ≤ x) (h1 : x ≤ kMaxInt) :
    toUnsigned x = x := by
  unfold toUnsigned
  unfold kMaxInt at h1
  omega

/-- C15 (as stated, refuted): a binary operation with the operator `AND` built
when the counter is `-3` has `RightId()` equal to the no-id sentinel; and one
built when the counter is `kMaxInt - 1` has `test_id() = kMaxInt` and
`RightId() = kMinInt`, which is not `test_id() + 1`. -/
theorem BinaryOperation_RightId_counterexample :
    Token.sample.AND = 31 ∧
    (BinaryOperation.new Token.sample 31 none none 0
        { ast_node_id := -3, empty_string := 0 }).map (fun r => r.1.RightId)
      = some AstNode.kNoNumber ∧
    (BinaryOperation.new Token.sample 31 none none 0
        { ast_node_id := 2147483646, empty_string := 0 }).map
      (fun r => (r.1.test_id, r.1.RightId))
      = some (2147483647, -2147483648) ∧
    (-2147483648 : Int) ≠ 2147483647 + 1 := by
  refine ⟨rfl, rfl, rfl, by decide⟩

/-- C15 (amended): for every `BinaryOperation` built with a binary operator
`op` when the counter is `c`, with `c >= 0` and the counter staying within the
`int` range: `RightId()` equals the no-id sentinel `kNoNumber` iff `op` is
neither `Token::AND` nor `Token::OR`; for `AND` and `OR`, `RightId()` is a
freshly minted id, the third of the node, equal to `test_id() + 1`; otherwise
the node mints exactly two ids. For the operator `ADD` of `b + 1`, given that
`ADD` is neither `AND` nor `OR`, `RightId() == kNoNumber` and the node mints
exactly two ids. -/
theorem BinaryOperation_RightId (T : Token) (op : Token.Value) (left right : Ptr)
    (pos : Int) (isolate isolate' : Isolate) (b : BinaryOperation)
    (h : BinaryOperation.new T op left right pos isolate = some (b, isolate'))
    (h0 : 0 ≤ isolate.ast_node_id)
    (hfit : isolate.ast_node_id + (AstNode.mintedIds T (.BinaryOperation b)).length
      ≤ kMaxInt) :
    (b.RightId = AstNode.kNoNumber ↔ ¬ (op = T.AND ∨ op = T.OR)) ∧
    (op = T.AND ∨ op = T.OR →
      b.RightId = b.test_id + 1 ∧
      AstNode.mintedIds T (.BinaryOperation b)
        = [isolate.ast_node_id, isolate.ast_node_id + 1, isolate.ast_node_id + 2] ∧
      b.RightId = isolate.ast_node_id + 2 ∧
      isolate'.ast_node_id = isolate.ast_node_id + 3) ∧
    (¬ (op = T.AND ∨ op = T.OR) →
      AstNode.mintedIds T (.BinaryOperation b)
        = [isolate.ast_node_id, isolate.ast_node_id + 1] ∧
      isolate'.ast_node_id = isolate.ast_node_id + 2) ∧
    (op = T.ADD → T.ADD ≠ T.AND → T.ADD ≠ T.OR →
      b.RightId = AstNode.kNoNumber ∧
      (AstNode.mintedIds T (.BinaryOperation b)).length = 2) := by
  simp only [BinaryOperation.new, Expression.new, Build.bind_def, Build.pure_def,
    Build.andThen_assoc, Build.ret_andThen, Build.ite_andThen, Build.GetNextId_andThen,
    Build.ASSERT_andThen, Build.ret_apply, Build.ctor_ite_run] at h
  split at h
  · split at h
    · rename_i hop
      cases h
      simp only [Bool.or_eq_true, beq_iff_eq] at hop
      simp only [AstNode.mintedIds, Bool.or_eq_true, beq_iff_eq, hop, if_true,
        List.cons_append, List.nil_append, List.length_cons, List.length_nil] at hfit
      simp only [BinaryOperation.RightId, Expression.test_id, AstNode.kNoNumber,
        AstNode.mintedIds, Bool.or_eq_true, beq_iff_eq, hop, if_true, intAdd, wrapInt,
        toUnsigned, List.cons_append, List.nil_append, List.length_cons,
        List.cons.injEq, and_true, not_true_eq_false, iff_false, false_implies,
        true_implies, true_and]
      unfold kMaxInt at hfit
      push_cast at hfit
      refine ⟨by omega, ⟨by omega, ⟨by omega, by omega⟩, by omega, by omega⟩, ?_⟩
      intro hadd hne1 hne2
      rcases hop with rfl | rfl
      · exact absurd hadd.symm hne1
      · exact absurd hadd.symm hne2
    · rename_i hop
      cases h
      simp only [Bool.or_eq_true, beq_iff_eq] at hop
      simp only [AstNode.mintedIds, Bool.or_eq_true, beq_iff_eq, hop, if_false,
        List.append_nil, List.length_cons, List.length_nil] at hfit
      simp only [BinaryOperation.RightId, AstNode.kNoNumber,
        AstNode.mintedIds, Bool.or_eq_true, beq_iff_eq, hop, if_false, intAdd, wrapInt,
        List.append_nil, List.length_cons, List.length_nil,
        List.cons.injEq, and_true, not_false_eq_true, iff_true, false_implies,
        true_implies, true_and]
      unfold kMaxInt at hfit
      push_cast at hfit
      refine ⟨⟨by omega, by omega⟩, ?_⟩
      intros
      trivial
  · cases h

/-- C15 (amended), on `b + 1`: the operator `ADD` (38 in the sample table) is
neither `AND` nor `OR`; built from the counter value 0 the node has
`RightId() == kNoNumber` and mints exactly two ids. -/
theorem BinaryOperation_RightId_witness :
    BinaryOperation.RightId
        { id_ := 0, test_id_ := 1, op_ := 38, left_ := some 1, right_ := some 2, pos_ := 0,
          right_id_ := -1 } = AstNode.kNoNumber ∧
    (AstNode.mintedIds Token.sample (.BinaryOperation
        { id_ := 0, test_id_ := 1, op_ := 38, left_ := some 1, right_ := some 2, pos_ := 0,
          right_id_ := -1 })).length = 2 :=
  (BinaryOperation_RightId Token.sample 38 (some 1) (some 2) 0
    { ast_node_id := 0, empty_string := 0 } { ast_node_id := 2, empty_string := 0 }
    { id_ := 0, test_id_ := 1, op_ := 38, left_ := some 1, right_ := some 2, pos_ := 0,
      right_id_ := -1 }
    rfl (by decide) (by decide)).2.2.2 rfl (by decide) (by decide)

/-- C16 (as stated, refuted): an array literal over one value built when the
counter is `kMaxInt - 1` has `GetIdForElement(0) = kMinInt`, not `c + 2`, and
leaves the counter at `kMinInt + 1`, not at `c + 3`. -/
theorem ArrayLiteral_ids_counterexample :
    (ArrayLiteral.new 0 [none] 0 true 1
        { ast_node_id := 2147483646, empty_string := 0 }).map
      (fun r => (r.1.GetIdForElement 0, r.2.ast_node_id))
      = some (-2147483648, -2147483647) ∧
    (-2147483648 : Int) ≠ 2147483646 + 2 + 0 ∧
    (-2147483647 : Int) ≠ 2147483646 + 2 + 1 := by
  refine ⟨rfl, by decide, by decide⟩

/-- C16 (amended): an `ArrayLiteral` built over a value list of length `k` when
the counter is `c`, with `c >= 0` and `c + 2 + k` within the `int` range, has
`id() = c`, `test_id() = c + 1` and `GetIdForElement(i) = c + 2 + i` for
`0 <= i < k`; the counter is `c + 2 + k` afterwards; and for all
`0 <= i < j < k` the ids `GetIdForElement(i)` and `GetIdForElement(j)` are
distinct, lie inside the block `[c + 2, c + 2 + k)` reserved for the elements,
and differ from `id()` and `test_id()`. -/
theorem ArrayLiteral_element_ids (constant_elements : Handle) (values : List Ptr)
    (literal_index : Int) (is_simple : Bool) (depth : Int) (isolate : Isolate)
    (h0 : 0 ≤ isolate.ast_node_id)
    (hfit : isolate.ast_node_id + 2 + values.length ≤ kMaxInt) :
    ∃ a isolate',
      ArrayLiteral.new constant_elements values literal_index is_simple depth isolate
        = some (a, isolate') ∧
      a.id = isolate.ast_node_id ∧ a.test_id = isolate.ast_node_id + 1 ∧
      (∀ i : Int, 0 ≤ i → i < values.length →
        a.GetIdForElement i = isolate.ast_node_id + 2 + i) ∧
      isolate'.ast_node_id = isolate.ast_node_id + 2 + values.length ∧
      (∀ i j : Int, 0 ≤ i → i < j → j < values.length →
        a.GetIdForElement i ≠ a.GetIdForElement j ∧
        isolate.ast_node_id + 2 ≤ a.GetIdForElement i ∧
        a.GetIdForElement i < isolate.ast_node_id + 2 + values.length ∧
        isolate.ast_node_id + 2 ≤ a.GetIdForElement j ∧
        a.GetIdForElement j < isolate.ast_node_id + 2 + values.length ∧
        a.GetIdForElement i ≠ a.id ∧ a.GetIdForElement i ≠ a.test_id ∧
        a.GetIdForElement j ≠ a.id ∧ a.GetIdForElement j ≠ a.test_id) := by
  have hk : (0 : Int) ≤ values.length := Int.natCast_nonneg _
  unfold kMaxInt at hfit
  refine ⟨_, _, rfl, ?_, ?_, ?_, ?_, ?_⟩
  · simp only [Expression.id, toUnsigned]
    omega
  · simp only [Expression.test_id, toUnsigned]
    show wrapInt (isolate.ast_node_id + 1) % 4294967296 = _
    unfold wrapInt
    omega
  · intro i hi hik
    show wrapInt (wrapInt (wrapInt (isolate.ast_node_id + 1) + 1) + i) = _
    unfold wrapInt
    omega
  · show wrapInt (wrapInt (wrapInt (isolate.ast_node_id + 1) + 1) + values.length) = _
    unfold wrapInt
    omega
  · intro i j hi hij hjk
    have ei : ArrayLiteral.GetIdForElement
        { id_ := isolate.ast_node_id, test_id_ := intAdd isolate.ast_node_id 1,
          literal_index_ := literal_index, is_simple_ := is_simple, depth_ := depth,
          constant_elements_ := constant_elements, values_ := values,
          first_element_id_ := intAdd (intAdd isolate.ast_node_id 1) 1 } i
        = isolate.ast_node_id + 2 + i := by
      show wrapInt (wrapInt (wrapInt (isolate.ast_node_id + 1) + 1) + i) = _
      unfold wrapInt
      omega
    have ej : ArrayLiteral.GetIdForElement
        { id_ := isolate.ast_node_id, test_id_ := intAdd isolate.ast_node_id 1,
          literal_index_ := literal_index, is_simple_ := is_simple, depth_ := depth,
          constant_elements_ := constant_elements, values_ := values,
          first_element_id_ := intAdd (intAdd isolate.ast_node_id 1) 1 } j
        = isolate.ast_node_id + 2 + j := by
      show wrapInt (wrapInt (wrapInt (isolate.ast_node_id + 1) + 1) + j) = _
      unfold wrapInt
      omega
    have eid : Expression.id
        { id_ := isolate.ast_node_id, test_id_ := intAdd isolate.ast_node_id 1 }
        = isolate.ast_node_id := by
      simp only [Expression.id, toUnsigned]
      omega
    have etid : Expression.test_id
        { id_ := isolate.ast_node_id, test_id_ := intAdd isolate.ast_node_id 1 }
        = isolate.ast_node_id + 1 := by
      show wrapInt (isolate.ast_node_id + 1) % 4294967296 = _
      unfold wrapInt
      omega
    refine ⟨?_, ?_, ?_, ?_, ?_, ?_, ?_, ?_, ?_⟩
    all_goals first
      | (rw [ei, ej]; omega)
      | (rw [ei]; omega)
      | (rw [ej]; omega)
      | (rw [ei, eid]; omega)
      | (rw [ei, etid]; omega)
      | (rw [ej, eid]; omega)
      | (rw [ej, etid]; omega)

/-- C16 (amended), on an array literal over three values built from the
counter value 10. -/
theorem ArrayLiteral_element_ids_witness :
    ∃ a isolate',
      ArrayLiteral.new 0 [none, none, none] 0 true 1 { ast_node_id := 10, empty_string := 0 }
        = some (a, isolate') ∧
      a.id = 10 ∧ a.test_id = 10 + 1 ∧
      (∀ i : Int, 0 ≤ i → i < ([none, none, none] : List Ptr).length →
        a.GetIdForElement i = 10 + 2 + i) ∧
      isolate'.ast_node_id = 10 + 2 + ([none, none, none] : List Ptr).length ∧
      (∀ i j : Int, 0 ≤ i → i < j → j < ([none, none, none] : List Ptr).length →
        a.GetIdForElement i ≠ a.GetIdForElement j ∧
        10 + 2 ≤ a.GetIdForElement i ∧
        a.GetIdForElement i < 10 + 2 + ([none, none, none] : List Ptr).length ∧
        10 + 2 ≤ a.GetIdForElement j ∧
        a.GetIdForElement j < 10 + 2 + ([none, none, none] : List Ptr).length ∧
        a.GetIdForElement i ≠ a.id ∧ a.GetIdForElement i ≠ a.test_id ∧
        a.GetIdForElement j ≠ a.id ∧ a.GetIdForElement j ≠ a.test_id) :=
  ArrayLiteral_element_ids 0 [none, none, none] 0 true 1
    { ast_node_id := 10, empty_string := 0 } (by decide) (by decide)

/-! ### The ids of an expression come first -/

section ExpressionIds

open AstNodeFactory FactoryOp

variable {σ : Type}

/-- C17 (as stated, refuted): a literal built when the counter is `kMaxInt` has
`test_id() = 2^31` (the `unsigned` reading of `kMinInt`) in place of `c + 1`
read as an `int`, and leaves the counter at `kMinInt + 1`, below `c + 2`; and a
literal built when the counter is `-5` has `id() = 2^32 - 5`, not `c`. -/
theorem expression_ids_counterexample :
    (Literal.new 7 { ast_node_id := 2147483647, empty_string := 0 }).map
      (fun r => (r.1.id_, r.1.test_id_, r.2.ast_node_id))
      = some (2147483647, -2147483648, -2147483647) ∧
    ¬ ((-2147483647 : Int) ≥ 2147483647 + 2) ∧
    (Literal.new 7 { ast_node_id := -5, empty_string := 0 }).map (fun r => r.1.id)
      = some 4294967291 ∧
    (4294967291 : Int) ≠ -5 := by
  refine ⟨rfl, by decide, rfl, by decide⟩

/-- C17 (amended): for every factory call that returns an expression node (of
whatever expression kind), started when the counter is `c`, with `c >= 0` and
the counter staying within the `int` range: the node has `id() = c` and
`test_id() = c + 1`; every other id minted for the node is above `c + 1`, so
these two are minted before any kind-specific id; and the counter is at least
`c + 2` afterwards. -/
theorem expression_ids_first (T : Token) (V : Visitor σ) (fc : FactoryCall)
    (f f' : AstNodeFactory σ) (nodes : List AstNode) (x : AstNode) (e : Expression)
    (h : call T V fc f = some (nodes, f'))
    (hx : nodes.getLast? = some x) (he : x.expressionPart = some e)
    (h0 : 0 ≤ f.isolate_.ast_node_id)
    (hfit : f.isolate_.ast_node_id + (AstNode.mintedIdsAll T nodes).length ≤ kMaxInt) :
    e.id = f.isolate_.ast_node_id ∧ e.test_id = f.isolate_.ast_node_id + 1 ∧
    (∀ i ∈ AstNode.mintedIds T x,
      i = f.isolate_.ast_node_id ∨ i = f.isolate_.ast_node_id + 1 ∨
        f.isolate_.ast_node_id + 1 < i) ∧
    f.isolate_.ast_node_id + 2 ≤ f'.isolate_.ast_node_id := by
  cases fc
  all_goals simp only [call, NewVariableDeclaration, NewModuleDeclaration, NewModuleLiteral,
    NewModuleVariable, NewModulePath, NewModuleUrl, NewBlock, NewDoWhileStatement,
    NewWhileStatement, NewForStatement, NewForInStatement, NewSwitchStatement,
    NewExpressionStatement, NewContinueStatement, NewBreakStatement, NewReturnStatement,
    NewWithStatement, NewIfStatement, NewTryCatchStatement, NewTryFinallyStatement,
    NewDebuggerStatement, NewEmptyStatement, NewLiteral, NewNumberLiteral, NewObjectLiteral,
    NewObjectLiteralProperty, NewRegExpLiteral, NewArrayLiteral, NewVariableProxyBound,
    NewVariableProxy, NewProperty, NewCall, NewCallNew, NewCallRuntime, NewUnaryOperation,
    NewBinaryOperation, NewCountOperation, NewCompareOperation, NewConditional,
    Assignment_Init, NewAssignment, NewThrow, NewFunctionLiteral,
    NewSharedFunctionInfoLiteral, NewThisFunction, VISIT_AND_RETURN,
    Declaration.new, VariableDeclaration.new, ModuleDeclaration.new,
    BreakableStatement.new, Block.new, IterationStatement.new, DoWhileStatement.new,
    WhileStatement.new, ForStatement.new, ForInStatement.new, SwitchStatement.new,
    IfStatement.new, Expression.new, Literal.new, MaterializedLiteral.new,
    ObjectLiteral.new, RegExpLiteral.new, ArrayLiteral.new, VariableProxy.newBound,
    VariableProxy.new, Property.new, Call.new, CallNew.new, CallRuntime.new,
    UnaryOperation.new, BinaryOperation.new, CountOperation.new, CompareOperation.new,
    Conditional.new, Assignment.new, Throw.new, FunctionLiteral.new,
    SharedFunctionInfoLiteral.new, ThisFunction.new,
    Assignment.is_compound, Assignment.binary_op, Assignment.op,
    FactoryOp.op_bind_def, FactoryOp.op_pure_def, Build.bind_def, Build.pure_def,
    Build.andThen_assoc, Build.ret_andThen, Build.ite_andThen,
    FactoryOp.construct_andThen, FactoryOp.construct_ite,
    FactoryOp.construct_ret, FactoryOp.op_andThen_assoc, FactoryOp.op_ret_andThen,
    FactoryOp.op_ite_andThen,
    FactoryOp.construct_GetNextId_andThen, FactoryOp.construct_ReserveIdRange_andThen,
    FactoryOp.construct_ASSERT_andThen, FactoryOp.construct_empty_string_andThen,
    FactoryOp.visit_andThen, FactoryOp.op_ret_apply, FactoryOp.ite_run] at h
  all_goals (repeat' split at h)
  all_goals cases h
  all_goals simp [List.getLast?] at hx
  all_goals subst hx
  all_goals simp [AstNode.expressionPart] at he
  all_goals subst he
  all_goals (try simp [AstNode.mintedIdsAll, AstNode.mintedIds, Assignment.is_compound,
    Assignment.op, *] at hfit)
  all_goals unfold kMaxInt at hfit
  all_goals (try simp [Expression.id, Expression.test_id, toUnsigned, AstNode.mintedIds,
    Assignment.is_compound, Assignment.op, intAdd, wrapInt, *])
  all_goals (try omega)
  simp only [ArrayLiteral.GetIdForElement, intAdd, wrapInt]
  refine ⟨by omega, by omega, ⟨by omega, ?_⟩, by omega⟩
  intro a ha
  omega

/-- C17 (amended), on a `NewCountOperation` from the counter value 4: the node
has `id() = 4`, `test_id() = 5`, its two further ids are 6 and 7, and the
counter ends at 8. -/
theorem expression_ids_first_witness :
    Expression.id { id_ := 4, test_id_ := 5 } = 4 ∧
    Expression.test_id { id_ := 4, test_id_ := 5 } = 4 + 1 ∧
    (∀ i ∈ AstNode.mintedIds Token.sample (.CountOperation
          { id_ := 4, test_id_ := 5, op_ := 11, is_prefix_ := true, expression_ := some 1,
            pos_ := 0, assignment_id_ := 6, count_id_ := 7 }),
      i = 4 ∨ i = 4 + 1 ∨ 4 + 1 < i) ∧
    (4 : Int) + 2 ≤ 8 :=
  expression_ids_first Token.sample AstNullVisitor (.NewCountOperation 11 true (some 1) 0)
    { isolate_ := { ast_node_id := 4, empty_string := 0 }, visitor_ := () }
    { isolate_ := { ast_node_id := 8, empty_string := 0 }, visitor_ := () }
    [.CountOperation
      { id_ := 4, test_id_ := 5, op_ := 11, is_prefix_ := true, expression_ := some 1,
        pos_ := 0, assignment_id_ := 6, count_id_ := 7 }]
    (.CountOperation
      { id_ := 4, test_id_ := 5, op_ := 11, is_prefix_ := true, expression_ := some 1,
        pos_ := 0, assignment_id_ := 6, count_id_ := 7 })
    { id_ := 4, test_id_ := 5 }
    rfl rfl rfl (by decide) (by decide)

end ExpressionIds


/-! ### Ids of loops -/

/-- C18 (as stated, refuted): a `DoWhileStatement` built when the counter is
`kMaxInt` has `EntryId() = kMaxInt` and `ExitId() = kMinInt`, which is not
`c + 1`. -/
theorem loop_ids_overflow_counterexample :
    (DoWhileStatement.new none { ast_node_id := 2147483647, empty_string := 0 }).map
      (fun r => (r.1.EntryId, r.1.ExitId))
      = some (2147483647, -2147483648) ∧
    (-2147483648 : Int) ≠ 2147483647 + 1 := by
  refine ⟨rfl, by decide⟩

/-- C18 (amended): for each loop kind built, with a null or a non-empty label
list, when the counter is an `int` value `c` and the ids minted stay within the
`int` range (`c + 5 <= kMaxInt`, or `c + 4 <= kMaxInt` for a `WhileStatement`):
`EntryId() = c`, `ExitId() = c + 1`, `OsrEntryId() = c + 2`; a
`DoWhileStatement` mints the 5 ids `c .. c+4` with `ContinueId() = c + 3` and
`StackCheckId() = BackEdgeId() = c + 4`; a `WhileStatement` mints the 4 ids
`c .. c+3` with `ContinueId() = EntryId()` and `StackCheckId() = BodyId() =
c + 3`; a `ForStatement` mints the 5 ids `c .. c+4` with `ContinueId() = c + 3`
and `StackCheckId() = BodyId() = c + 4`; a `ForInStatement` mints the 5 ids
`c .. c+4` with `ContinueId() = EntryId()`, `StackCheckId() = BodyId() = c + 3`
and `PrepareId() = c + 4`. The counter afterwards is `c` plus the number of ids
minted. -/
theorem loop_ids (T : Token) (labels : Option ZoneStringList) (isolate : Isolate)
    (hl : labels = none ∨ ∃ list, labels = some list ∧ list.length ≥ 1)
    (hc : IsInt isolate.ast_node_id) :
    (isolate.ast_node_id + 5 ≤ kMaxInt →
      ∃ s isolate', DoWhileStatement.new labels isolate = some (s, isolate') ∧
        s.EntryId = isolate.ast_node_id ∧ s.ExitId = isolate.ast_node_id + 1 ∧
        s.OsrEntryId = isolate.ast_node_id + 2 ∧
        s.ContinueId = isolate.ast_node_id + 3 ∧
        s.StackCheckId = isolate.ast_node_id + 4 ∧ s.BackEdgeId = isolate.ast_node_id + 4 ∧
        AstNode.mintedIds T (.DoWhileStatement s)
          = [isolate.ast_node_id, isolate.ast_node_id + 1, isolate.ast_node_id + 2,
             isolate.ast_node_id + 3, isolate.ast_node_id + 4] ∧
        isolate'.ast_node_id = isolate.ast_node_id + 5) ∧
    (isolate.ast_node_id + 4 ≤ kMaxInt →
      ∃ s isolate', WhileStatement.new labels isolate = some (s, isolate') ∧
        s.EntryId = isolate.ast_node_id ∧ s.ExitId = isolate.ast_node_id + 1 ∧
        s.OsrEntryId = isolate.ast_node_id + 2 ∧
        s.ContinueId = s.EntryId ∧
        s.StackCheckId = isolate.ast_node_id + 3 ∧ s.BodyId = isolate.ast_node_id + 3 ∧
        AstNode.mintedIds T (.WhileStatement s)
          = [isolate.ast_node_id, isolate.ast_node_id + 1, isolate.ast_node_id + 2,
             isolate.ast_node_id + 3] ∧
        isolate'.ast_node_id = isolate.ast_node_id + 4) ∧
    (isolate.ast_node_id + 5 ≤ kMaxInt →
      ∃ s isolate', ForStatement.new labels isolate = some (s, isolate') ∧
        s.EntryId = isolate.ast_node_id ∧ s.ExitId = isolate.ast_node_id + 1 ∧
        s.OsrEntryId = isolate.ast_node_id + 2 ∧
        s.ContinueId = isolate.ast_node_id + 3 ∧
        s.StackCheckId = isolate.ast_node_id + 4 ∧ s.BodyId = isolate.ast_node_id + 4 ∧
        AstNode.mintedIds T (.ForStatement s)
          = [isolate.ast_node_id, isolate.ast_node_id + 1, isolate.ast_node_id + 2,
             isolate.ast_node_id + 3, isolate.ast_node_id + 4] ∧
        isolate'.ast_node_id = isolate.ast_node_id + 5) ∧
    (isolate.ast_node_id + 5 ≤ kMaxInt →
      ∃ s isolate', ForInStatement.new labels isolate = some (s, isolate') ∧
        s.EntryId = isolate.ast_node_id ∧ s.ExitId = isolate.ast_node_id + 1 ∧
        s.OsrEntryId = isolate.ast_node_id + 2 ∧
        s.ContinueId = s.EntryId ∧
        s.StackCheckId = isolate.ast_node_id + 3 ∧ s.BodyId = isolate.ast_node_id + 3 ∧
        s.PrepareId = isolate.ast_node_id + 4 ∧
        AstNode.mintedIds T (.ForInStatement s)
          = [isolate.ast_node_id, isolate.ast_node_id + 1, isolate.ast_node_id + 2,
             isolate.ast_node_id + 3, isolate.ast_node_id + 4] ∧
        isolate'.ast_node_id = isolate.ast_node_id + 5) := by
  have hw : ∀ k : Int, 0 ≤ k → isolate.ast_node_id + k ≤ kMaxInt →
      wrapInt (isolate.ast_node_id + k) = isolate.ast_node_id + k := by
    intro k hk hle
    apply wrapInt_of_isInt
    unfold IsInt kMinInt kMaxInt at *
    omega
  have hlen : ∀ list : ZoneStringList, list.length ≥ 1 → list ≠ [] := by
    intro list h e
    subst e
    simp at h
  refine ⟨?_, ?_, ?_, ?_⟩ <;> intro hfit
  all_goals
    have h1 := hw 1 (by decide) (by omega)
    have h2 := hw 2 (by decide) (by omega)
    have h3 := hw 3 (by decide) (by omega)
    have h4 := hw 4 (by decide) (by omega)
  case refine_2 =>
    rcases hl with rfl | ⟨list, rfl, hpos⟩
    all_goals
      simp [WhileStatement.new,
        IterationStatement.new, BreakableStatement.new, Build.bind_def, Build.pure_def,
        Build.andThen_assoc, Build.ret_andThen, Build.GetNextId_andThen, Build.ASSERT_andThen,
        Build.ret_apply, AstNode.GetNextId, AstNode.ReserveIdRange, intAdd,
        WhileStatement.ContinueId, WhileStatement.StackCheckId, WhileStatement.BodyId,
        IterationStatement.OsrEntryId, BreakableStatement.EntryId,
        BreakableStatement.ExitId, AstNode.mintedIds, wrapInt_wrapInt_add, Int.add_assoc,
        h1, h2, h3, h4, hlen]
    all_goals
      first
        | exact ⟨_, _, ⟨rfl, rfl⟩, by simp⟩
        | exact ⟨_, _, ⟨by omega, rfl, rfl⟩, by simp⟩
  all_goals
    have h5 := hw 5 (by decide) hfit
    rcases hl with rfl | ⟨list, rfl, hpos⟩
  all_goals
    simp [DoWhileStatement.new, ForStatement.new, ForInStatement.new,
      IterationStatement.new, BreakableStatement.new, Build.bind_def, Build.pure_def,
      Build.andThen_assoc, Build.ret_andThen, Build.GetNextId_andThen, Build.ASSERT_andThen,
      Build.ret_apply, AstNode.GetNextId, AstNode.ReserveIdRange, intAdd,
      DoWhileStatement.ContinueId, DoWhileStatement.StackCheckId, DoWhileStatement.BackEdgeId,
      ForStatement.ContinueId, ForStatement.StackCheckId, ForStatement.BodyId,
      ForInStatement.ContinueId, ForInStatement.StackCheckId, ForInStatement.BodyId,
      ForInStatement.PrepareId, IterationStatement.OsrEntryId, BreakableStatement.EntryId,
      BreakableStatement.ExitId, AstNode.mintedIds, wrapInt_wrapInt_add, Int.add_assoc,
      h1, h2, h3, h4, h5, hlen]
  all_goals
    first
      | exact ⟨_, _, ⟨rfl, rfl⟩, by simp⟩
      | exact ⟨_, _, ⟨by omega, rfl, rfl⟩, by simp⟩

/-- C18 (amended), on the four loops built without labels from the counter
value 10. -/
theorem loop_ids_witness :
    ((10 : Int) + 5 ≤ kMaxInt →
      ∃ s isolate', DoWhileStatement.new none { ast_node_id := 10, empty_string := 0 }
          = some (s, isolate') ∧
        s.EntryId = 10 ∧ s.ExitId = 10 + 1 ∧ s.OsrEntryId = 10 + 2 ∧
        s.ContinueId = 10 + 3 ∧ s.StackCheckId = 10 + 4 ∧ s.BackEdgeId = 10 + 4 ∧
        AstNode.mintedIds Token.sample (.DoWhileStatement s)
          = [10, 10 + 1, 10 + 2, 10 + 3, 10 + 4] ∧
        isolate'.ast_node_id = 10 + 5) ∧
    ((10 : Int) + 4 ≤ kMaxInt →
      ∃ s isolate', WhileStatement.new none { ast_node_id := 10, empty_string := 0 }
          = some (s, isolate') ∧
        s.EntryId = 10 ∧ s.ExitId = 10 + 1 ∧ s.OsrEntryId = 10 + 2 ∧
        s.ContinueId = s.EntryId ∧ s.StackCheckId = 10 + 3 ∧ s.BodyId = 10 + 3 ∧
        AstNode.mintedIds Token.sample (.WhileStatement s) = [10, 10 + 1, 10 + 2, 10 + 3] ∧
        isolate'.ast_node_id = 10 + 4) ∧
    ((10 : Int) + 5 ≤ kMaxInt →
      ∃ s isolate', ForStatement.new none { ast_node_id := 10, empty_string := 0 }
          = some (s, isolate') ∧
        s.EntryId = 10 ∧ s.ExitId = 10 + 1 ∧ s.OsrEntryId = 10 + 2 ∧
        s.ContinueId = 10 + 3 ∧ s.StackCheckId = 10 + 4 ∧ s.BodyId = 10 + 4 ∧
        AstNode.mintedIds Token.sample (.ForStatement s)
          = [10, 10 + 1, 10 + 2, 10 + 3, 10 + 4] ∧
        isolate'.ast_node_id = 10 + 5) ∧
    ((10 : Int) + 5 ≤ kMaxInt →
      ∃ s isolate', ForInStatement.new none { ast_node_id := 10, empty_string := 0 }
          = some (s, isolate') ∧
        s.EntryId = 10 ∧ s.ExitId = 10 + 1 ∧ s.OsrEntryId = 10 + 2 ∧
        s.ContinueId = s.EntryId ∧ s.StackCheckId = 10 + 3 ∧ s.BodyId = 10 + 3 ∧
        s.PrepareId = 10 + 4 ∧
        AstNode.mintedIds Token.sample (.ForInStatement s)
          = [10, 10 + 1, 10 + 2, 10 + 3, 10 + 4] ∧
        isolate'.ast_node_id = 10 + 5) :=
  loop_ids Token.sample none { ast_node_id := 10, empty_string := 0 } (Or.inl rfl)
    (by decide)


/-! ### Ids of calls -/

/-- C19 (as stated, refuted): a `CallRuntime` built when the counter is 0
mints the two ids of an expression only and leaves the counter at 2, not 3;
and a `Call` built when the counter is `kMaxInt - 2` leaves the counter at
`kMinInt`. -/
theorem call_family_ids_counterexample :
    (CallRuntime.new 0 none none { ast_node_id := 0, empty_string := 0 }).map
      (fun r => (AstNode.mintedIds Token.sample (.CallRuntime r.1), r.2.ast_node_id))
      = some ([0, 1], 2) ∧
    (2 : Int) ≠ 0 + 3 ∧
    (Call.new none none 0 { ast_node_id := 2147483645, empty_string := 0 }).map
      (fun r => r.2.ast_node_id) = some (-2147483648) ∧
    (-2147483648 : Int) ≠ 2147483645 + 3 := by
  refine ⟨rfl, by decide, rfl, by decide⟩

/-- C19 (amended): built when the counter is an `int` value `c` with
`c + 3 <= kMaxInt`, a `Call` and a `CallNew` each mint exactly one return
bailout id, `ReturnId() = c + 2`, after the `id` and `test_id` every expression
has, and advance the counter by 3; a `CallRuntime` has no return id: it mints
the two ids of an expression only and advances the counter by 2. -/
theorem call_family_ids (T : Token) (expression arguments function : Ptr) (pos : Int)
    (name : Handle) (isolate : Isolate)
    (hc : IsInt isolate.ast_node_id) (hfit : isolate.ast_node_id + 3 ≤ kMaxInt) :
    (∃ n isolate', Call.new expression arguments pos isolate = some (n, isolate') ∧
      n.ReturnId = isolate.ast_node_id + 2 ∧
      AstNode.mintedIds T (.Call n)
        = [isolate.ast_node_id, isolate.ast_node_id + 1, isolate.ast_node_id + 2] ∧
      isolate'.ast_node_id = isolate.ast_node_id + 3) ∧
    (∃ n isolate', CallNew.new expression arguments pos isolate = some (n, isolate') ∧
      n.ReturnId = isolate.ast_node_id + 2 ∧
      AstNode.mintedIds T (.CallNew n)
        = [isolate.ast_node_id, isolate.ast_node_id + 1, isolate.ast_node_id + 2] ∧
      isolate'.ast_node_id = isolate.ast_node_id + 3) ∧
    (∃ n isolate', CallRuntime.new name function arguments isolate = some (n, isolate') ∧
      AstNode.mintedIds T (.CallRuntime n)
        = [isolate.ast_node_id, isolate.ast_node_id + 1] ∧
      isolate'.ast_node_id = isolate.ast_node_id + 2) := by
  have hw : ∀ k : Int, 0 ≤ k → isolate.ast_node_id + k ≤ kMaxInt →
      wrapInt (isolate.ast_node_id + k) = isolate.ast_node_id + k := by
    intro k hk hle
    apply wrapInt_of_isInt
    unfold IsInt kMinInt kMaxInt at *
    omega
  have h1 := hw 1 (by decide) (by omega)
  have h2 := hw 2 (by decide) (by omega)
  have h3 := hw 3 (by decide) hfit
  refine ⟨?_, ?_, ?_⟩
  all_goals
    simp [Call.new, CallNew.new, CallRuntime.new, Expression.new, Build.bind_def,
      Build.pure_def, Build.andThen_assoc, Build.ret_andThen, Build.GetNextId_andThen,
      Build.ReserveIdRange_andThen, Build.ret_apply, AstNode.GetNextId,
      AstNode.ReserveIdRange, intAdd, Call.ReturnId, CallNew.ReturnId, AstNode.mintedIds,
      wrapInt_wrapInt_add, Int.add_assoc, h1, h2, h3]
  all_goals exact ⟨_, _, ⟨rfl, rfl⟩, by simp⟩

/-- C19 (amended), on the three call nodes built from the counter value 7. -/
theorem call_family_ids_witness :
    (∃ n isolate', Call.new (some 1) (some 2) 0 { ast_node_id := 7, empty_string := 0 }
        = some (n, isolate') ∧
      n.ReturnId = 7 + 2 ∧
      AstNode.mintedIds Token.sample (.Call n) = [7, 7 + 1, 7 + 2] ∧
      isolate'.ast_node_id = 7 + 3) ∧
    (∃ n isolate', CallNew.new (some 1) (some 2) 0 { ast_node_id := 7, empty_string := 0 }
        = some (n, isolate') ∧
      n.ReturnId = 7 + 2 ∧
      AstNode.mintedIds Token.sample (.CallNew n) = [7, 7 + 1, 7 + 2] ∧
      isolate'.ast_node_id = 7 + 3) ∧
    (∃ n isolate', CallRuntime.new 5 none (some 2) { ast_node_id := 7, empty_string := 0 }
        = some (n, isolate') ∧
      AstNode.mintedIds Token.sample (.CallRuntime n) = [7, 7 + 1] ∧
      isolate'.ast_node_id = 7 + 2) :=
  call_family_ids Token.sample (some 1) (some 2) none 0 5
    { ast_node_id := 7, empty_string := 0 } (by decide) (by decide)


/-! ### Reserved ids -/

/-- C20 (as stated, refuted): the allocator hands out the reserved values when
the counter stands at them: `GetNextId()` at the counter values 2, 3 and -1
returns `kFunctionEntryId`, `kDeclarationsId` and `kNoNumber`; and
`ReserveIdRange(4)` at the counter value 0 returns the block `0 .. 3`, which
holds 2 and 3. -/
theorem allocated_ids_reserved_counterexample :
    (AstNode.GetNextId { ast_node_id := 2, empty_string := 0 }).1
      = AstNode.kFunctionEntryId ∧
    (AstNode.GetNextId { ast_node_id := 3, empty_string := 0 }).1
      = AstNode.kDeclarationsId ∧
    (AstNode.GetNextId { ast_node_id := -1, empty_string := 0 }).1 = AstNode.kNoNumber ∧
    AstNode.ReserveIdRange { ast_node_id := 0, empty_string := 0 } 4
      = (0, { ast_node_id := 4, empty_string := 0 }) := by
  refine ⟨rfl, rfl, rfl, rfl⟩

/-- C20 (amended): when the counter `c` is above `kDeclarationsId` and
`c + n` does not exceed `kMaxInt`, with `n >= 0`, no id of the block
`[c, c+n)` returned by `ReserveIdRange(n)` equals `kNoNumber`,
`kFunctionEntryId` or `kDeclarationsId`, and the counter stays above
`kDeclarationsId` afterwards; the same holds of the id returned by
`GetNextId()` when `c + 1` does not exceed `kMaxInt`. -/
theorem allocated_ids_avoid_reserved (isolate : Isolate) (n : Int)
    (hc : AstNode.kDeclarationsId < isolate.ast_node_id) (hn : 0 ≤ n)
    (hfit : isolate.ast_node_id + n ≤ kMaxInt) :
    (∀ i : Int, 0 ≤ i → i < n →
      (AstNode.ReserveIdRange isolate n).1 + i ≠ AstNode.kNoNumber ∧
      (AstNode.ReserveIdRange isolate n).1 + i ≠ AstNode.kFunctionEntryId ∧
      (AstNode.ReserveIdRange isolate n).1 + i ≠ AstNode.kDeclarationsId) ∧
    (AstNode.ReserveIdRange isolate n).2.ast_node_id = isolate.ast_node_id + n ∧
    AstNode.kDeclarationsId < (AstNode.ReserveIdRange isolate n).2.ast_node_id ∧
    (isolate.ast_node_id + 1 ≤ kMaxInt →
      (AstNode.GetNextId isolate).1 ≠ AstNode.kNoNumber ∧
      (AstNode.GetNextId isolate).1 ≠ AstNode.kFunctionEntryId ∧
      (AstNode.GetNextId isolate).1 ≠ AstNode.kDeclarationsId ∧
      AstNode.kDeclarationsId < (AstNode.GetNextId isolate).2.ast_node_id) := by
  unfold AstNode.kDeclarationsId at hc
  unfold kMaxInt at hfit
  simp only [AstNode.GetNextId, AstNode.ReserveIdRange, AstNode.kNoNumber,
    AstNode.kFunctionEntryId, AstNode.kDeclarationsId, intAdd, wrapInt, kMaxInt]
  refine ⟨?_, by omega, by omega, ?_⟩
  · intro i h0 hi
    omega
  · intro h1
    omega

/-- C20 (amended), at the counter value 4 and `n = 3`. -/
theorem allocated_ids_avoid_reserved_witness :
    (∀ i : Int, 0 ≤ i → i < 3 →
      (AstNode.ReserveIdRange { ast_node_id := 4, empty_string := 0 } 3).1 + i
        ≠ AstNode.kNoNumber ∧
      (AstNode.ReserveIdRange { ast_node_id := 4, empty_string := 0 } 3).1 + i
        ≠ AstNode.kFunctionEntryId ∧
      (AstNode.ReserveIdRange { ast_node_id := 4, empty_string := 0 } 3).1 + i
        ≠ AstNode.kDeclarationsId) ∧
    (AstNode.ReserveIdRange { ast_node_id := 4, empty_string := 0 } 3).2.ast_node_id
      = 4 + 3 ∧
    AstNode.kDeclarationsId
      < (AstNode.ReserveIdRange { ast_node_id := 4, empty_string := 0 } 3).2.ast_node_id ∧
    ((4 : Int) + 1 ≤ kMaxInt →
      (AstNode.GetNextId { ast_node_id := 4, empty_string := 0 }).1 ≠ AstNode.kNoNumber ∧
      (AstNode.GetNextId { ast_node_id := 4, empty_string := 0 }).1
        ≠ AstNode.kFunctionEntryId ∧
      (AstNode.GetNextId { ast_node_id := 4, empty_string := 0 }).1
        ≠ AstNode.kDeclarationsId ∧
      AstNode.kDeclarationsId
        < (AstNode.GetNextId { ast_node_id := 4, empty_string := 0 }).2.ast_node_id) :=
  allocated_ids_avoid_reserved { ast_node_id := 4, empty_string := 0 } 3
    (by decide) (by decide) (by decide)


/-! ### Overflow of the id counter -/

/-- C21 (as stated, refuted): at the counter value `kMaxInt`,
`ReserveIdRange(1)` does not fail: it returns `kMaxInt` and stores the wrapped
counter `kMinInt`; and the factory builds a literal there, with the ids
`kMaxInt` and `kMinInt`. -/
theorem ReserveIdRange_overflow_returns_counterexample :
    (2147483647 : Int) + 1 > kMaxInt ∧
    AstNode.ReserveIdRange { ast_node_id := 2147483647, empty_string := 0 } 1
      = (2147483647, { ast_node_id := -2147483648, empty_string := 0 }) ∧
    Build.ReserveIdRange 1 { ast_node_id := 2147483647, empty_string := 0 }
      = some (2147483647, { ast_node_id := -2147483648, empty_string := 0 }) ∧
    (AstNodeFactory.NewLiteral AstNullVisitor 7
        { isolate_ := { ast_node_id := 2147483647, empty_string := 0 },
          visitor_ := () }).map (fun r => (r.1.id_, r.1.test_id_, r.2.isolate_.ast_node_id))
      = some (2147483647, -2147483648, -2147483647) := by
  refine ⟨by decide, rfl, rfl, rfl⟩

/-- C21 (amended): `ReserveIdRange(n)` never fails: for every counter value `c`
and every `n` it returns `c` and stores the `int` sum `c + n`, nothing else of
the isolate changing; when `c + n` exceeds `kMaxInt` (for `int` values `c` and
`n`) the counter stored is the wrapped value `c + n - 2^32`, which is
negative. -/
theorem ReserveIdRange_never_fails (isolate : Isolate) (n : Int)
    (hc : IsInt isolate.ast_node_id) (hn : IsInt n)
    (hover : isolate.ast_node_id + n > kMaxInt) :
    Build.ReserveIdRange n isolate
      = some (isolate.ast_node_id,
          { isolate with ast_node_id := isolate.ast_node_id + n - 4294967296 }) ∧
    AstNode.ReserveIdRange isolate n
      = (isolate.ast_node_id,
          { isolate with ast_node_id := isolate.ast_node_id + n - 4294967296 }) ∧
    isolate.ast_node_id + n - 4294967296 < 0 ∧
    Build.GetNextId isolate = Build.ReserveIdRange 1 isolate ∧
    (∀ (s : Isolate) (m : Int),
      ∃ s1, Build.ReserveIdRange m s = some (s.ast_node_id, s1) ∧
        s1.ast_node_id = intAdd s.ast_node_id m) := by
  have hw : intAdd isolate.ast_node_id n = isolate.ast_node_id + n - 4294967296 := by
    unfold intAdd wrapInt
    unfold IsInt kMinInt kMaxInt at *
    omega
  unfold IsInt kMinInt kMaxInt at *
  refine ⟨?_, ?_, by omega, rfl, fun s m => ⟨_, rfl, rfl⟩⟩
  · simp only [Build.ReserveIdRange, AstNode.ReserveIdRange, hw]
  · simp only [AstNode.ReserveIdRange, hw]

/-- C21 (amended), at the counter value `kMaxInt - 1` and `n = 5`. -/
theorem ReserveIdRange_never_fails_witness :
    Build.ReserveIdRange 5 { ast_node_id := 2147483646, empty_string := 0 }
      = some (2147483646,
          { ast_node_id := 2147483646 + 5 - 4294967296, empty_string := 0 }) ∧
    AstNode.ReserveIdRange { ast_node_id := 2147483646, empty_string := 0 } 5
      = (2147483646, { ast_node_id := 2147483646 + 5 - 4294967296, empty_string := 0 }) ∧
    (2147483646 : Int) + 5 - 4294967296 < 0 ∧
    Build.GetNextId { ast_node_id := 2147483646, empty_string := 0 }
      = Build.ReserveIdRange 1 { ast_node_id := 2147483646, empty_string := 0 } ∧
    (∀ (s : Isolate) (m : Int),
      ∃ s1, Build.ReserveIdRange m s = some (s.ast_node_id, s1) ∧
        s1.ast_node_id = intAdd s.ast_node_id m) :=
  ReserveIdRange_never_fails { ast_node_id := 2147483646, empty_string := 0 } 5
    (by decide) (by decide) (by decide)

/-! ### Function literals and case clauses -/

section FunctionLiterals

open AstNodeFactory FactoryOp

variable {σ : Type}

/-- C22: `NewFunctionLiteral` returns a literal; the construction visitor is
left with `VisitFunctionLiteral` applied once to that literal when
`is_function == kIsFunction`, and is left as it was when
`is_function == kGlobalOrEval`; in both cases `is_function()` of the literal
equals `(is_function == kIsFunction)`, and the literal has minted `id` (the
counter value) and `test_id` (the next one) and nothing more. -/
theorem NewFunctionLiteral_visits (V : Visitor σ) (name : Handle) (scope body : Ptr)
    (materialized_literal_count expected_property_count handler_count : Int)
    (has_only_simple_this_property_assignments : Bool)
    (this_property_assignments : Handle) (parameter_count : Int)
    (has_duplicate_parameters : FunctionLiteral.ParameterFlag)
    (type : FunctionLiteral.Type_) (is_function : FunctionLiteral.IsFunctionFlag)
    (T : Token) (f : AstNodeFactory σ) :
    ∃ lit f',
      NewFunctionLiteral V name scope body materialized_literal_count
        expected_property_count handler_count has_only_simple_this_property_assignments
        this_property_assignments parameter_count has_duplicate_parameters type is_function f
        = some (lit, f') ∧
      (is_function = FunctionLiteral.IsFunctionFlag.kIsFunction →
        f'.visitor_ = V.Visit .kFunctionLiteral (AstNode.FunctionLiteral lit) f.visitor_) ∧
      (is_function = FunctionLiteral.IsFunctionFlag.kGlobalOrEval →
        f'.visitor_ = f.visitor_) ∧
      lit.is_function = decide (is_function = FunctionLiteral.IsFunctionFlag.kIsFunction) ∧
      lit.id_ = f.isolate_.ast_node_id ∧
      lit.test_id_ = intAdd f.isolate_.ast_node_id 1 ∧
      AstNode.mintedIds T (AstNode.FunctionLiteral lit) = [lit.id_, lit.test_id_] ∧
      f'.isolate_.ast_node_id = intAdd (intAdd f.isolate_.ast_node_id 1) 1 := by
  cases is_function <;> cases has_only_simple_this_property_assignments <;>
    cases has_duplicate_parameters <;> cases type <;>
    simp +decide [NewFunctionLiteral, FunctionLiteral.new, Expression.new,
      FunctionLiteral.is_function, AstNode.mintedIds, AstNode.GetNextId,
      AstNode.ReserveIdRange,
      FactoryOp.op_bind_def, FactoryOp.op_pure_def, Build.bind_def, Build.pure_def,
      Build.andThen_assoc, Build.ret_andThen, FactoryOp.construct_andThen,
      FactoryOp.construct_ret, FactoryOp.op_andThen_assoc, FactoryOp.op_ret_andThen,
      FactoryOp.op_ite_andThen, FactoryOp.construct_GetNextId_andThen,
      FactoryOp.construct_empty_string_andThen, FactoryOp.visit_andThen,
      FactoryOp.op_ret_apply, FactoryOp.ite_run]
  all_goals
    exact ⟨_, _, ⟨rfl, rfl⟩, by
      simp +decide [BitField.decode, BitField.encode, FunctionLiteral.IsFunctionFlag.value,
        FunctionLiteral.ParameterFlag.value]⟩

/-- C23: for every `CaseClause`, built by the constructor with the label
`label`: `is_default()` holds iff `label` is null; `label()` returns the label
when the clause is not a default clause and fails the `CHECK` when it is. The
same holds of every clause in terms of its data member `label_`. -/
theorem CaseClause_label_check (label statements : Ptr) (pos : Int) (isolate : Isolate) :
    (∃ c isolate', CaseClause.new label statements pos isolate = some (c, isolate') ∧
      (c.is_default = true ↔ label = none) ∧
      (c.is_default = false → c.label = some label) ∧
      (c.is_default = true → c.label = none)) ∧
    (∀ c : CaseClause,
      (c.is_default = true ↔ c.label_ = none) ∧
      (c.is_default = false → c.label = some c.label_) ∧
      (c.is_default = true → c.label = none)) := by
  constructor
  · refine ⟨_, _, rfl, ?_, ?_, ?_⟩
    · cases label <;> simp [CaseClause.is_default]
    · intro h
      simp [CaseClause.label, h]
    · intro h
      simp [CaseClause.label, h]
  · intro c
    refine ⟨?_, ?_, ?_⟩
    · cases hl : c.label_ <;> simp [CaseClause.is_default, hl]
    · intro h
      simp [CaseClause.label, h]
    · intro h
      simp [CaseClause.label, h]

end FunctionLiterals


/-! ### Metrics of pattern nodes after construction -/

theorem RegExpTree.withChild_metrics (t : RegExpTree) (i : Nat) (c : RegExpTree)
    (hown : t.hasOwnMetrics = true) :
    (t.withChild i c).min_match = t.min_match ∧
    (t.withChild i c).max_match = t.max_match ∧
    (t.withChild i c).hasOwnMetrics = true := by
  cases t <;> cases i <;>
    simp_all [RegExpTree.withChild, RegExpTree.min_match, RegExpTree.max_match,
      RegExpTree.hasOwnMetrics]

theorem RegExpTree.AddElementAt_metrics (elm : TextElement) (path : List Nat)
    (t t1 : RegExpTree) (hown : t.hasOwnMetrics = true)
    (h : t.AddElementAt elm path = some t1) :
    t1.min_match = t.min_match ∧ t1.max_match = t.max_match ∧
    t1.hasOwnMetrics = true := by
  cases path with
  | nil =>
    cases t <;> simp_all [RegExpTree.AddElementAt, RegExpText.AddElement,
      RegExpTree.hasOwnMetrics]
  | cons i rest =>
    simp only [RegExpTree.AddElementAt] at h
    cases hc : t.child i with
    | none => simp [hc] at h
    | some c =>
      simp only [hc] at h
      cases hr : RegExpTree.AddElementAt elm rest c with
      | none => simp [hr] at h
      | some c1 =>
        simp only [hr, Option.some.injEq] at h
        subst h
        exact RegExpTree.withChild_metrics t i c1 hown

/-- C24 (as stated, refuted): a `RegExpText` built empty has `min_match()` and
`max_match()` 0; after the public `AddElement` of an element of length 3 both
are 3. A capture over that text reads the metrics of its body: 0 before the
call on the body, 3 after it. -/
theorem RegExpText_metrics_counterexample :
    (RegExpTree.Text [] 0).min_match = 0 ∧ (RegExpTree.Text [] 0).max_match = 0 ∧
    (RegExpText.AddElement { length := 3 } (RegExpTree.Text [] 0)).map
      (fun t => (t.min_match, t.max_match)) = some (3, 3) ∧
    (RegExpTree.Capture (RegExpTree.Text [] 0) 1).min_match = 0 ∧
    (RegExpTree.Capture (RegExpTree.Text [] 0) 1).max_match = 0 ∧
    (RegExpTree.AddElementAt { length := 3 } [0]
        (RegExpTree.Capture (RegExpTree.Text [] 0) 1)).map
      (fun t => (t.min_match, t.max_match)) = some (3, 3) := by
  refine ⟨rfl, rfl, rfl, rfl, rfl, rfl⟩

/-- C24 (amended): the metrics of a pattern node that keeps them itself (a
disjunction, an alternative, a quantifier: stored at construction; an
assertion, a character class, an atom, a lookahead, the empty node: constants
or constant data) are fixed once the node is built: after every sequence of
`AddElement` calls on text nodes it refers to, and after any change of a node
it points to, `min_match()` and `max_match()` return what they returned
before. A `RegExpText` is built up by `AddElement(elm)`, after which both
metrics are `length_ + elm.length()`; a capture returns the metrics of its
body as they then are, and a back reference the `max_match()` of the body of
its capture. -/
theorem pattern_metrics_fixed (t t1 : RegExpTree) (ops : List (List Nat × TextElement))
    (hown : t.hasOwnMetrics = true) (h : t.AddElements ops = some t1) :
    (t1.min_match = t.min_match ∧ t1.max_match = t.max_match) ∧
    (∀ (i : Nat) (c : RegExpTree),
      (t.withChild i c).min_match = t.min_match ∧
      (t.withChild i c).max_match = t.max_match) ∧
    (∀ (elements : List TextElement) (length : Int) (elm : TextElement),
      ∃ text, RegExpText.AddElement elm (RegExpTree.Text elements length) = some text ∧
        text.min_match = intAdd length elm.length ∧
        text.max_match = intAdd length elm.length) ∧
    (∀ (body : RegExpTree) (index : Int),
      (RegExpTree.Capture body index).min_match = body.min_match ∧
      (RegExpTree.Capture body index).max_match = body.max_match ∧
      (RegExpTree.BackReference body index).max_match = body.max_match) := by
  refine ⟨?_, fun i c => ⟨(RegExpTree.withChild_metrics t i c hown).1,
    (RegExpTree.withChild_metrics t i c hown).2.1⟩, ?_, fun _ _ => ⟨rfl, rfl, rfl⟩⟩
  · induction ops generalizing t with
    | nil =>
      simp only [RegExpTree.AddElements, Option.some.injEq] at h
      subst h
      exact ⟨rfl, rfl⟩
    | cons op rest ih =>
      obtain ⟨path, elm⟩ := op
      simp only [RegExpTree.AddElements] at h
      cases hr : RegExpTree.AddElementAt elm path t with
      | none => simp [hr] at h
      | some t2 =>
        simp only [hr] at h
        obtain ⟨h1, h2, h3⟩ := RegExpTree.AddElementAt_metrics elm path t t2 hown hr
        obtain ⟨h4, h5⟩ := ih t2 h3 h
        exact ⟨h4.trans h1, h5.trans h2⟩
  · intro elements length elm
    exact ⟨_, rfl, rfl, rfl⟩

/-- C24 (amended), on a quantifier `{2,3}` over a capture of a one-character
text: after two `AddElement` calls on the text (lengths 1 and 4), the
quantifier still returns the metrics 2 and 3 stored when it was built. -/
theorem pattern_metrics_fixed_witness :
    ((RegExpTree.Quantifier
        (RegExpTree.Capture
          (RegExpTree.Text [{ length := 1 }, { length := 1 }, { length := 4 }] 6) 0)
        2 3 2 3 RegExpQuantifier.Type_.GREEDY).min_match
      = (RegExpQuantifier.init 2 3 RegExpQuantifier.Type_.GREEDY
          (RegExpTree.Capture (RegExpTree.Text [{ length := 1 }] 1) 0)).min_match ∧
     (RegExpTree.Quantifier
        (RegExpTree.Capture
          (RegExpTree.Text [{ length := 1 }, { length := 1 }, { length := 4 }] 6) 0)
        2 3 2 3 RegExpQuantifier.Type_.GREEDY).max_match
      = (RegExpQuantifier.init 2 3 RegExpQuantifier.Type_.GREEDY
          (RegExpTree.Capture (RegExpTree.Text [{ length := 1 }] 1) 0)).max_match) :=
  (pattern_metrics_fixed
    (RegExpQuantifier.init 2 3 RegExpQuantifier.Type_.GREEDY
      (RegExpTree.Capture (RegExpTree.Text [{ length := 1 }] 1) 0))
    (RegExpTree.Quantifier
      (RegExpTree.Capture
          (RegExpTree.Text [{ length := 1 }, { length := 1 }, { length := 4 }] 6) 0)
      2 3 2 3 RegExpQuantifier.Type_.GREEDY)
    [([0, 0], { length := 1 }), ([0, 0], { length := 4 })] rfl rfl).1


/-! ### The overflow flag and the dispatch of a visitor -/

theorem AstVisitor.visitFrom_of_overflow {σ : Type} (cases : Visitor (AstVisitor σ))
    (stack_has_overflowed : Nat → Bool) (nodes : List AstNode) (i : Nat)
    (v : AstVisitor σ) (hset : v.HasStackOverflow = true) :
    AstVisitor.visitFrom cases stack_has_overflowed i nodes v = some v := by
  induction nodes generalizing i with
  | nil => rfl
  | cons x rest ih =>
    simp only [AstVisitor.visitFrom, Visit_of_overflow cases _ x v hset]
    exact ih (i + 1)

/-- C25 (as stated, refuted): `ClearStackOverflow()`, a public operation of
`AstVisitor`, returns `HasStackOverflow()` to false on a visitor whose flag has
been set. -/
theorem ClearStackOverflow_counterexample :
    (AstVisitor.new ()).SetStackOverflow.HasStackOverflow = true ∧
    (AstVisitor.new ()).SetStackOverflow.ClearStackOverflow.HasStackOverflow = false := by
  refine ⟨rfl, rfl⟩

/-- C25 (amended): once the overflow flag of an `AstVisitor` has been set it
stays set until `ClearStackOverflow()` is called: `SetStackOverflow()`,
`CheckStackOverflow()`, `Visit`, every sequence of `Visit` calls and the
iteration helpers `VisitDeclarations`, `VisitStatements` and
`VisitExpressions` leave `HasStackOverflow()` true (and the visitor as it is);
`ClearStackOverflow()` alone returns it to false. -/
theorem overflow_flag_sticky {σ : Type} (cases : Visitor (AstVisitor σ))
    (v : AstVisitor σ) (hset : v.HasStackOverflow = true) :
    v.SetStackOverflow.HasStackOverflow = true ∧
    (∀ stack_has_overflowed : Bool,
      (v.CheckStackOverflow stack_has_overflowed).1 = true ∧
      (v.CheckStackOverflow stack_has_overflowed).2.HasStackOverflow = true) ∧
    (∀ (stack_has_overflowed : Bool) (x : AstNode),
      ∃ v1, AstVisitor.Visit cases stack_has_overflowed x v = some v1 ∧
        v1.HasStackOverflow = true) ∧
    (∀ calls : List (Bool × AstNode),
      ∃ v1, AstVisitor.visitAll cases calls v = some v1 ∧ v1.HasStackOverflow = true) ∧
    (∀ (stack_has_overflowed : Nat → Bool) (nodes : List AstNode),
      (∃ v1, AstVisitor.VisitDeclarations cases stack_has_overflowed nodes v = some v1 ∧
        v1.HasStackOverflow = true) ∧
      (∃ v1, AstVisitor.VisitStatements cases stack_has_overflowed nodes v = some v1 ∧
        v1.HasStackOverflow = true) ∧
      (∃ v1, AstVisitor.VisitExpressions cases stack_has_overflowed nodes v = some v1 ∧
        v1.HasStackOverflow = true)) ∧
    v.ClearStackOverflow.HasStackOverflow = false := by
  refine ⟨rfl, ?_, ?_, ?_, ?_, rfl⟩
  · intro s
    simp only [AstVisitor.HasStackOverflow] at hset
    simp [AstVisitor.CheckStackOverflow, AstVisitor.HasStackOverflow, hset]
  · intro s x
    exact ⟨v, Visit_of_overflow cases s x v hset, hset⟩
  · intro calls
    refine ⟨v, ?_, hset⟩
    induction calls with
    | nil => rfl
    | cons c rest ih =>
      obtain ⟨s, x⟩ := c
      simp only [AstVisitor.visitAll, Visit_of_overflow cases s x v hset]
      exact ih
  · intro s nodes
    exact ⟨⟨v, AstVisitor.visitFrom_of_overflow cases s nodes 0 v hset, hset⟩,
      ⟨v, AstVisitor.visitFrom_of_overflow cases s nodes 0 v hset, hset⟩,
      ⟨v, AstVisitor.visitFrom_of_overflow cases s nodes 0 v hset, hset⟩⟩

/-- C25 (amended), on a recording visitor whose flag is set: a `Visit` leaves
the flag set, and `ClearStackOverflow()` clears it. -/
theorem overflow_flag_sticky_witness :
    (∀ (stack_has_overflowed : Bool) (x : AstNode),
      ∃ v1, AstVisitor.Visit recordingVisitor stack_has_overflowed x
          { stack_overflow_ := true, derived_ := [] } = some v1 ∧
        v1.HasStackOverflow = true) ∧
    AstVisitor.HasStackOverflow (AstVisitor.ClearStackOverflow
      ({ stack_overflow_ := true, derived_ := [] } :
        AstVisitor (List (AstNode.Type_ × AstNode)))) = false :=
  ⟨(overflow_flag_sticky recordingVisitor
      { stack_overflow_ := true, derived_ := [] } rfl).2.2.1,
   (overflow_flag_sticky recordingVisitor
      { stack_overflow_ := true, derived_ := [] } rfl).2.2.2.2.2⟩

/-- C27: for every concrete kind `K` of `AST_NODE_LIST`, every node `x` of kind
`K` and every visitor `v` whose overflow flag is clear, when the stack check
does not trip, `v.Visit(x)` leaves the visitor as the one case `VisitK` leaves
it, applied once to `x` (a recording visitor records `(K, x)` and nothing
else); a `TargetCollector` fails when accepted. -/
theorem Visit_dispatches_to_kind {σ : Type} (cases : Visitor (AstVisitor σ))
    (K : AstNode.Type_) (x : AstNode) (v : AstVisitor σ)
    (hK : K ∈ AST_NODE_LIST) (hx : x.node_type = K)
    (hclear : v.HasStackOverflow = false) :
    AstVisitor.Visit cases false x v = some (cases.Visit K x v) ∧
    (∀ r : AstVisitor (List (AstNode.Type_ × AstNode)), r.HasStackOverflow = false →
      AstVisitor.Visit recordingVisitor false x r
        = some { r with derived_ := r.derived_ ++ [(K, x)] }) ∧
    (∀ collector : TargetCollector,
      AstNode.Accept cases (AstNode.TargetCollector collector) v = none ∧
      AstVisitor.Visit cases false (AstNode.TargetCollector collector) v = none) := by
  simp only [AstVisitor.HasStackOverflow] at hclear
  subst hx
  have hkind : x.node_type ≠ AstNode.Type_.kInvalid := by
    intro h
    rw [h] at hK
    revert hK
    decide
  refine ⟨?_, ?_, ?_⟩
  · cases x <;>
      first
        | exact absurd rfl hkind
        | simp [AstVisitor.Visit, AstVisitor.CheckStackOverflow, AstNode.Accept, hclear]
  · intro r hr
    simp only [AstVisitor.HasStackOverflow] at hr
    cases x <;>
      first
        | exact absurd rfl hkind
        | simp [AstVisitor.Visit, AstVisitor.CheckStackOverflow, AstNode.Accept, hr,
            recordingVisitor]
  · intro collector
    simp [AstVisitor.Visit, AstVisitor.CheckStackOverflow, AstNode.Accept, hclear]

/-- C27, on a `DebuggerStatement` and a recording visitor with no visits yet:
the visit records the kind `kDebuggerStatement` with the node, once. -/
theorem Visit_dispatches_to_kind_witness :
    AstVisitor.Visit recordingVisitor false (AstNode.DebuggerStatement {})
        (AstVisitor.new [])
      = some (recordingVisitor.Visit AstNode.Type_.kDebuggerStatement
          (AstNode.DebuggerStatement {}) (AstVisitor.new [])) ∧
    recordingVisitor.Visit AstNode.Type_.kDebuggerStatement
        (AstNode.DebuggerStatement {}) (AstVisitor.new [])
      = { stack_overflow_ := false,
          derived_ := [(AstNode.Type_.kDebuggerStatement, AstNode.DebuggerStatement {})] } :=
  ⟨(Visit_dispatches_to_kind recordingVisitor AstNode.Type_.kDebuggerStatement
      (AstNode.DebuggerStatement {}) (AstVisitor.new []) (by decide) rfl rfl).1, rfl⟩


/-! ### Modes of declarations -/

section Declarations

open AstNodeFactory FactoryOp

variable {σ : Type}

/-- C26: the constructor of a declaration succeeds exactly for the four
storage modes `VAR`, `CONST`, `CONST_HARMONY` and `LET` and fails the
invariant check for every other `VariableMode` value, so that a
`VariableDeclaration` is built (by its constructor or by the factory) only
for one of the four; a `ModuleDeclaration` is always built, whatever its
arguments, and has `mode() == LET`. -/
theorem Declaration_mode_check (V : Visitor σ) (f : AstNodeFactory σ) (isolate : Isolate)
    (proxy scope fun_ module : Ptr) (mode : VariableMode) :
    ((∃ d isolate', Declaration.new proxy mode scope isolate = some (d, isolate')) ↔
      (mode = VariableMode.VAR ∨ mode = VariableMode.CONST ∨
        mode = VariableMode.CONST_HARMONY ∨ mode = VariableMode.LET)) ∧
    (∀ tag : Nat,
      Declaration.new proxy (VariableMode.other tag) scope isolate = none ∧
      VariableDeclaration.new proxy (VariableMode.other tag) fun_ scope isolate = none ∧
      NewVariableDeclaration V proxy (VariableMode.other tag) fun_ scope f = none) ∧
    ((∃ d isolate', VariableDeclaration.new proxy mode fun_ scope isolate
        = some (d, isolate')) →
      (mode = VariableMode.VAR ∨ mode = VariableMode.CONST ∨
        mode = VariableMode.CONST_HARMONY ∨ mode = VariableMode.LET)) ∧
    ((∃ d f', NewVariableDeclaration V proxy mode fun_ scope f = some (d, f')) →
      (mode = VariableMode.VAR ∨ mode = VariableMode.CONST ∨
        mode = VariableMode.CONST_HARMONY ∨ mode = VariableMode.LET)) ∧
    (∃ d, ModuleDeclaration.new proxy module scope isolate = some (d, isolate) ∧
      d.toDeclaration.mode = VariableMode.LET) ∧
    (∃ d f', NewModuleDeclaration V proxy module scope f = some (d, f') ∧
      d.toDeclaration.mode = VariableMode.LET) := by
  refine ⟨?_, ?_, ?_, ?_, ?_, ?_⟩
  · cases mode <;>
      simp [Declaration.new, Build.bind_def, Build.pure_def, Build.ASSERT_andThen,
        Build.ret_apply]
  · intro tag
    simp [NewVariableDeclaration, VISIT_AND_RETURN, VariableDeclaration.new, Declaration.new,
      FactoryOp.op_bind_def, FactoryOp.op_pure_def, Build.bind_def, Build.pure_def,
      Build.andThen_assoc, Build.ret_andThen, Build.ASSERT_andThen, Build.ret_apply,
      FactoryOp.construct_andThen, FactoryOp.construct_ret, FactoryOp.op_andThen_assoc,
      FactoryOp.op_ret_andThen, FactoryOp.construct_ASSERT_andThen, FactoryOp.visit_andThen,
      FactoryOp.op_ret_apply]
  · cases mode <;>
      simp [VariableDeclaration.new, Declaration.new, Build.bind_def, Build.pure_def,
        Build.andThen_assoc, Build.ret_andThen, Build.ASSERT_andThen, Build.ret_apply]
  · cases mode <;>
      simp [NewVariableDeclaration, VISIT_AND_RETURN, VariableDeclaration.new,
        Declaration.new,
        FactoryOp.op_bind_def, FactoryOp.op_pure_def, Build.bind_def, Build.pure_def,
        Build.andThen_assoc, Build.ret_andThen, Build.ASSERT_andThen, Build.ret_apply,
        FactoryOp.construct_andThen, FactoryOp.construct_ret, FactoryOp.op_andThen_assoc,
        FactoryOp.op_ret_andThen, FactoryOp.construct_ASSERT_andThen,
        FactoryOp.visit_andThen, FactoryOp.op_ret_apply]
  · exact ⟨_, rfl, rfl⟩
  · exact ⟨_, _, rfl, rfl⟩

end Declarations

/-! ### Iteration over lists of nodes -/

theorem Visit_of_clear {σ : Type} (cases : Visitor (AstVisitor σ)) (x : AstNode)
    (v : AstVisitor σ) (hx : x.node_type ∈ AST_NODE_LIST)
    (hclear : v.HasStackOverflow = false) :
    AstVisitor.Visit cases false x v = some (cases.Visit x.node_type x v) := by
  simp only [AstVisitor.HasStackOverflow] at hclear
  have hkind : x.node_type ≠ AstNode.Type_.kInvalid := by
    intro h
    rw [h] at hx
    revert hx
    decide
  cases x <;>
    first
      | exact absurd rfl hkind
      | simp [AstVisitor.Visit, AstVisitor.CheckStackOverflow, AstNode.Accept, hclear]

theorem AstVisitor.visitFrom_of_clear {σ : Type} (cases : Visitor (AstVisitor σ))
    (stack_has_overflowed : Nat → Bool)
    (hcases : ∀ (K : AstNode.Type_) (x : AstNode) (u : AstVisitor σ),
      u.HasStackOverflow = false → (cases.Visit K x u).HasStackOverflow = false)
    (nodes : List AstNode) (i : Nat) (v : AstVisitor σ)
    (hclear : v.HasStackOverflow = false)
    (hcheck : ∀ j, j < nodes.length → stack_has_overflowed (i + j) = false)
    (hnodes : ∀ x ∈ nodes, x.node_type ∈ AST_NODE_LIST) :
    AstVisitor.visitFrom cases stack_has_overflowed i nodes v
      = some (nodes.foldl (fun u x => cases.Visit x.node_type x u) v) := by
  induction nodes generalizing i v with
  | nil => rfl
  | cons x rest ih =>
    have h0 : stack_has_overflowed i = false := by
      simpa using hcheck 0 (by simp)
    have hx : x.node_type ∈ AST_NODE_LIST := hnodes x (by simp)
    simp only [AstVisitor.visitFrom, h0, Visit_of_clear cases x v hx hclear,
      List.foldl_cons]
    apply ih (i + 1) _ (hcases _ _ _ hclear)
    · intro j hj
      have := hcheck (j + 1) (by simp; omega)
      rwa [show i + 1 + j = i + (j + 1) by omega]
    · intro y hy
      exact hnodes y (by simp [hy])

/-- C28: for every list `[x1, ..., xn]` of declarations, statements or
expressions and every visitor on which the overflow guard does not trip (the
flag is clear, no depth check trips and no case sets the flag),
`VisitDeclarations`, `VisitStatements` and `VisitExpressions` dispatch `Visit`
on each element once, in list order: the visitor is left as the cases
`Visit##type` leave it, applied to `x1`, ..., `xn` one after the other; a
recording visitor records exactly `x1, ..., xn`, each with its kind. -/
theorem iteration_helpers_in_order {σ : Type} (cases : Visitor (AstVisitor σ))
    (stack_has_overflowed : Nat → Bool) (nodes : List AstNode) (v : AstVisitor σ)
    (hclear : v.HasStackOverflow = false)
    (hcheck : ∀ i, i < nodes.length → stack_has_overflowed i = false)
    (hcases : ∀ (K : AstNode.Type_) (x : AstNode) (u : AstVisitor σ),
      u.HasStackOverflow = false → (cases.Visit K x u).HasStackOverflow = false)
    (hnodes : ∀ x ∈ nodes, x.node_type ∈ AST_NODE_LIST) :
    AstVisitor.VisitDeclarations cases stack_has_overflowed nodes v
      = some (nodes.foldl (fun u x => cases.Visit x.node_type x u) v) ∧
    AstVisitor.VisitStatements cases stack_has_overflowed nodes v
      = some (nodes.foldl (fun u x => cases.Visit x.node_type x u) v) ∧
    AstVisitor.VisitExpressions cases stack_has_overflowed nodes v
      = some (nodes.foldl (fun u x => cases.Visit x.node_type x u) v) ∧
    (∀ r : AstVisitor (List (AstNode.Type_ × AstNode)), r.HasStackOverflow = false →
      AstVisitor.VisitStatements recordingVisitor stack_has_overflowed nodes r
        = some { r with derived_ := r.derived_ ++ nodes.map (fun x => (x.node_type, x)) }) := by
  have hc : ∀ j, j < nodes.length → stack_has_overflowed (0 + j) = false := by
    intro j hj
    simpa using hcheck j hj
  have hmain := AstVisitor.visitFrom_of_clear cases stack_has_overflowed hcases nodes 0 v
    hclear hc hnodes
  refine ⟨hmain, hmain, hmain, ?_⟩
  intro r hr
  have hrec := AstVisitor.visitFrom_of_clear recordingVisitor stack_has_overflowed
    (fun _ _ u hu => by simpa [recordingVisitor, AstVisitor.HasStackOverflow] using hu)
    nodes 0 r hr hc hnodes
  simp only [AstVisitor.VisitStatements, hrec, Option.some.injEq]
  clear hrec hr hmain hc hnodes hcheck hclear
  induction nodes generalizing r with
  | nil => simp
  | cons x rest ih =>
    simp only [List.foldl_cons, List.map_cons]
    rw [ih]
    simp [recordingVisitor]

/-- C28, on the statement list `[s1, s2, s3]` (an empty statement, a debugger
statement and a `continue`) and a recording visitor with no visits yet: it
records exactly `s1, s2, s3`. -/
theorem iteration_helpers_in_order_witness :
    AstVisitor.VisitStatements recordingVisitor (fun _ => false)
        [AstNode.EmptyStatement {}, AstNode.DebuggerStatement {},
         AstNode.ContinueStatement { target_ := some 1 }]
        (AstVisitor.new [])
      = some ([AstNode.EmptyStatement {}, AstNode.DebuggerStatement {},
               AstNode.ContinueStatement { target_ := some 1 }].foldl
          (fun u x => recordingVisitor.Visit x.node_type x u) (AstVisitor.new [])) ∧
    [AstNode.EmptyStatement {}, AstNode.DebuggerStatement {},
        AstNode.ContinueStatement { target_ := some 1 }].foldl
      (fun u x => recordingVisitor.Visit x.node_type x u) (AstVisitor.new [])
      = { stack_overflow_ := false,
          derived_ := [(AstNode.Type_.kEmptyStatement, AstNode.EmptyStatement {}),
                       (AstNode.Type_.kDebuggerStatement, AstNode.DebuggerStatement {}),
                       (AstNode.Type_.kContinueStatement,
                        AstNode.ContinueStatement { target_ := some 1 })] } :=
  ⟨(iteration_helpers_in_order recordingVisitor (fun _ => false)
      [AstNode.EmptyStatement {}, AstNode.DebuggerStatement {},
       AstNode.ContinueStatement { target_ := some 1 }]
      (AstVisitor.new []) rfl (fun _ _ => rfl) (fun _ _ _ hu => hu)
      (by decide)).2.1, rfl⟩


/-! ### Stores of object literal properties -/

theorem ObjectLiteral.any_sameKey_iff (p : ObjectLiteral.Property)
    (rest : List ObjectLiteral.Property) :
    rest.any (fun q => p.sameKey q) = true ↔
      ∃ (j : Nat) (r : ObjectLiteral.Property),
        0 < j ∧ (p :: rest)[j]? = some r ∧ p.sameKey r = true := by
  constructor
  · intro h
    obtain ⟨r, hr, hk⟩ := List.any_eq_true.mp h
    obtain ⟨n, hn, hget⟩ := List.getElem_of_mem hr
    refine ⟨n + 1, r, Nat.succ_pos n, ?_, hk⟩
    simp [List.getElem?_eq_getElem hn, hget]
  · rintro ⟨j, r, hj, hget, hk⟩
    cases j with
    | zero => exact absurd hj (Nat.lt_irrefl 0)
    | succ n =>
      simp only [List.getElem?_cons_succ] at hget
      exact List.any_eq_true.mpr ⟨r, List.getElem?_mem hget, hk⟩

/-- C29 (as stated, refuted): for three properties where property 2 repeats
the key of property 0 and property 0 has a constant value (it is not a
computed property), property 0 is not suppressed: `CalculateEmitStore` leaves
the three properties as they are. -/
theorem CalculateEmitStore_constant_counterexample :
    ObjectLiteral.Property.sameKey
      { key_ := some { id_ := 0, test_id_ := 1, handle_ := 7 }, value_ := some 1,
        kind_ := ObjectLiteral.Property.Kind.CONSTANT, emit_store_ := true }
      { key_ := some { id_ := 4, test_id_ := 5, handle_ := 7 }, value_ := some 3,
        kind_ := ObjectLiteral.Property.Kind.CONSTANT, emit_store_ := true } = true ∧
    (ObjectLiteral.CalculateEmitStore
      [{ key_ := some { id_ := 0, test_id_ := 1, handle_ := 7 }, value_ := some 1,
         kind_ := ObjectLiteral.Property.Kind.CONSTANT, emit_store_ := true },
       { key_ := some { id_ := 2, test_id_ := 3, handle_ := 8 }, value_ := some 2,
         kind_ := ObjectLiteral.Property.Kind.CONSTANT, emit_store_ := true },
       { key_ := some { id_ := 4, test_id_ := 5, handle_ := 7 }, value_ := some 3,
         kind_ := ObjectLiteral.Property.Kind.CONSTANT, emit_store_ := true }]).map
      (fun p => p.emit_store) = [true, true, true] := by
  refine ⟨rfl, rfl⟩

/-- C29 (amended): after `CalculateEmitStore` on a property list whose stores
are all active, the property at each index keeps its key, value and kind, and
its store is suppressed exactly when it is a computed property whose key is
repeated by a later property of the list; a property whose key no later
property repeats, in particular the last occurrence of each key, keeps
`emit_store()` true. For three properties where property 0 is computed,
property 2 repeats its key and property 1 is bound to another key, property 0
is suppressed, property 2 is active and property 1 is unchanged. -/
theorem CalculateEmitStore_suppresses_shadowed (properties : List ObjectLiteral.Property)
    (hactive : ∀ p ∈ properties, p.emit_store = true) :
    (ObjectLiteral.CalculateEmitStore properties).length = properties.length ∧
    (∀ (i : Nat) (p : ObjectLiteral.Property), properties[i]? = some p →
      ∃ q, (ObjectLiteral.CalculateEmitStore properties)[i]? = some q ∧
        q.key = p.key ∧ q.value_ = p.value_ ∧ q.kind = p.kind ∧
        (q.emit_store = false ↔
          (p.kind = ObjectLiteral.Property.Kind.COMPUTED ∧
            ∃ (j : Nat) (r : ObjectLiteral.Property),
              i < j ∧ properties[j]? = some r ∧ p.sameKey r = true)) ∧
        ((∀ (j : Nat) (r : ObjectLiteral.Property),
            i < j → properties[j]? = some r → p.sameKey r = false) →
          q.emit_store = true)) ∧
    (∀ p0 p1 p2 : ObjectLiteral.Property, properties = [p0, p1, p2] →
      p0.kind = ObjectLiteral.Property.Kind.COMPUTED → p0.sameKey p2 = true →
      p1.sameKey p2 = false →
      ObjectLiteral.CalculateEmitStore properties = [p0.set_emit_store false, p1, p2] ∧
      (p0.set_emit_store false).emit_store = false ∧ p2.emit_store = true) := by
  refine ⟨?_, ?_, ?_⟩
  · clear hactive
    induction properties with
    | nil => rfl
    | cons p rest ih => simp [ObjectLiteral.CalculateEmitStore, ih]
  · induction properties with
    | nil =>
      intro i p h
      simp at h
    | cons p0 rest ih =>
      intro i p h
      cases i with
      | zero =>
        simp only [List.getElem?_cons_zero, Option.some.injEq] at h
        subst h
        have hp : p0.emit_store_ = true := hactive p0 (by simp)
        have hiff := ObjectLiteral.any_sameKey_iff p0 rest
        by_cases hc : p0.kind_ = ObjectLiteral.Property.Kind.COMPUTED
        · by_cases ha : rest.any (fun q => p0.sameKey q) = true
          · refine ⟨p0.set_emit_store false, ?_, rfl, rfl, rfl, ?_, ?_⟩
            · simp [ObjectLiteral.CalculateEmitStore, ObjectLiteral.Property.kind, hc, ha]
            · simp only [ObjectLiteral.Property.emit_store,
                ObjectLiteral.Property.set_emit_store, ObjectLiteral.Property.kind, hc,
                true_and, true_iff]
              exact hiff.mp ha
            · intro hno
              obtain ⟨j, r, hj, hget, hk⟩ := hiff.mp ha
              rw [hno j r hj hget] at hk
              exact absurd hk (by decide)
          · refine ⟨p0, ?_, rfl, rfl, rfl, ?_, fun _ => hp⟩
            · simp [ObjectLiteral.CalculateEmitStore, ObjectLiteral.Property.kind, hc, ha]
            · simp only [ObjectLiteral.Property.emit_store, hp, ObjectLiteral.Property.kind,
                hc, true_and]
              constructor
              · intro hf
                exact absurd hf (by decide)
              · intro hex
                exact absurd (hiff.mpr hex) ha
        · refine ⟨p0, ?_, rfl, rfl, rfl, ?_, fun _ => hp⟩
          · simp [ObjectLiteral.CalculateEmitStore, ObjectLiteral.Property.kind, hc]
          · simp only [ObjectLiteral.Property.emit_store, hp, ObjectLiteral.Property.kind]
            constructor
            · intro hf
              exact absurd hf (by decide)
            · intro hex
              exact absurd hex.1 hc
      | succ n =>
        simp only [List.getElem?_cons_succ] at h
        obtain ⟨q, hq, hkey, hval, hkind, hiff, hlast⟩ :=
          ih (fun x hx => hactive x (by simp [hx])) n p h
        refine ⟨q, ?_, hkey, hval, hkind, ?_, ?_⟩
        · simp [ObjectLiteral.CalculateEmitStore, hq]
        · rw [hiff]
          constructor
          · rintro ⟨hk, j, r, hj, hget, hs⟩
            exact ⟨hk, j + 1, r, by omega, by simpa using hget, hs⟩
          · rintro ⟨hk, j, r, hj, hget, hs⟩
            cases j with
            | zero => omega
            | succ m =>
              exact ⟨hk, m, r, by omega, by simpa using hget, hs⟩
        · intro hno
          apply hlast
          intro j r hj hget
          exact hno (j + 1) r (by omega) (by simpa using hget)
  · intro p0 p1 p2 hps hk hs hn
    subst hps
    have h2 : p2.emit_store = true := hactive p2 (by simp)
    simp only [ObjectLiteral.Property.kind] at hk
    refine ⟨?_, rfl, h2⟩
    simp [ObjectLiteral.CalculateEmitStore, ObjectLiteral.Property.kind, hk, hs, hn]

/-- C29 (amended), on three computed properties with the keys 7, 8 and 7:
property 0 is suppressed, property 1 is unchanged and property 2 is active. -/
theorem CalculateEmitStore_suppresses_shadowed_witness :
    ObjectLiteral.CalculateEmitStore
      [{ key_ := some { id_ := 0, test_id_ := 1, handle_ := 7 }, value_ := some 1,
         kind_ := ObjectLiteral.Property.Kind.COMPUTED, emit_store_ := true },
       { key_ := some { id_ := 2, test_id_ := 3, handle_ := 8 }, value_ := some 2,
         kind_ := ObjectLiteral.Property.Kind.COMPUTED, emit_store_ := true },
       { key_ := some { id_ := 4, test_id_ := 5, handle_ := 7 }, value_ := some 3,
         kind_ := ObjectLiteral.Property.Kind.COMPUTED, emit_store_ := true }]
      = [ObjectLiteral.Property.set_emit_store
          { key_ := some { id_ := 0, test_id_ := 1, handle_ := 7 }, value_ := some 1,
            kind_ := ObjectLiteral.Property.Kind.COMPUTED, emit_store_ := true } false,
         { key_ := some { id_ := 2, test_id_ := 3, handle_ := 8 }, value_ := some 2,
           kind_ := ObjectLiteral.Property.Kind.COMPUTED, emit_store_ := true },
         { key_ := some { id_ := 4, test_id_ := 5, handle_ := 7 }, value_ := some 3,
           kind_ := ObjectLiteral.Property.Kind.COMPUTED, emit_store_ := true }] ∧
    ObjectLiteral.Property.emit_store (ObjectLiteral.Property.set_emit_store
        { key_ := some { id_ := 0, test_id_ := 1, handle_ := 7 }, value_ := some 1,
          kind_ := ObjectLiteral.Property.Kind.COMPUTED, emit_store_ := true } false)
      = false ∧
    ObjectLiteral.Property.emit_store
        { key_ := some { id_ := 4, test_id_ := 5, handle_ := 7 }, value_ := some 3,
          kind_ := ObjectLiteral.Property.Kind.COMPUTED, emit_store_ := true } = true :=
  (CalculateEmitStore_suppresses_shadowed
    [{ key_ := some { id_ := 0, test_id_ := 1, handle_ := 7 }, value_ := some 1,
       kind_ := ObjectLiteral.Property.Kind.COMPUTED, emit_store_ := true },
     { key_ := some { id_ := 2, test_id_ := 3, handle_ := 8 }, value_ := some 2,
       kind_ := ObjectLiteral.Property.Kind.COMPUTED, emit_store_ := true },
     { key_ := some { id_ := 4, test_id_ := 5, handle_ := 7 }, value_ := some 3,
       kind_ := ObjectLiteral.Property.Kind.COMPUTED, emit_store_ := true }]
    (by decide)).2.2 _ _ _ rfl rfl rfl rfl


/-! ### Capture registers -/

theorem Interval.Union_Empty (a : Interval) : a.Union Interval.Empty = a := by
  cases a <;> rfl

mutual

theorem RegExpTree.CaptureRegisters_of_no_capture :
    ∀ t : RegExpTree, t.containsCapture = false → t.CaptureRegisters = Interval.Empty
  | .Disjunction alternatives_ _ _, h => by
    simp only [RegExpTree.containsCapture] at h
    simp only [RegExpTree.CaptureRegisters]
    exact RegExpTree.ListCaptureRegisters_of_no_capture alternatives_ h
  | .Alternative nodes_ _ _, h => by
    simp only [RegExpTree.containsCapture] at h
    simp only [RegExpTree.CaptureRegisters]
    exact RegExpTree.ListCaptureRegisters_of_no_capture nodes_ h
  | .Quantifier body_ _ _ _ _ _, h => by
    simp only [RegExpTree.containsCapture] at h
    simp only [RegExpTree.CaptureRegisters]
    exact RegExpTree.CaptureRegisters_of_no_capture body_ h
  | .Lookahead body_ _ _ _, h => by
    simp only [RegExpTree.containsCapture] at h
    simp only [RegExpTree.CaptureRegisters]
    exact RegExpTree.CaptureRegisters_of_no_capture body_ h
  | .Capture _ _, h => by
    simp [RegExpTree.containsCapture] at h
  | .Assertion _, _ => rfl
  | .CharacterClass _ _, _ => rfl
  | .Atom _, _ => rfl
  | .Text _ _, _ => rfl
  | .BackReference _ _, _ => rfl
  | .Empty, _ => rfl

theorem RegExpTree.ListCaptureRegisters_of_no_capture :
    ∀ ts : List RegExpTree, RegExpTree.listContainsCapture ts = false →
      RegExpTree.ListCaptureRegisters ts = Interval.Empty
  | [], _ => rfl
  | t :: rest, h => by
    simp only [RegExpTree.listContainsCapture, Bool.or_eq_false_iff] at h
    simp only [RegExpTree.ListCaptureRegisters,
      RegExpTree.CaptureRegisters_of_no_capture t h.1,
      RegExpTree.ListCaptureRegisters_of_no_capture rest h.2]
    rfl

end

/-- C30 (as stated, refuted): a capture with index `2^30` over the empty node
reports the registers `[kMinInt, kMinInt + 1]`, not `[2*i, 2*i+1]`. -/
theorem CaptureRegisters_overflow_counterexample :
    RegExpTree.containsCapture RegExpTree.Empty = false ∧
    RegExpTree.CaptureRegisters (RegExpTree.Capture RegExpTree.Empty 1073741824)
      = Interval.mk (-2147483648) (-2147483647) ∧
    Interval.mk (-2147483648) (-2147483647)
      ≠ Interval.mk (2 * 1073741824) (2 * 1073741824 + 1) := by
  refine ⟨rfl, rfl, by decide⟩

/-- C30 (amended): for every `RegExpCapture` with index `i`, `2*i` and `2*i+1`
within the `int` range, and body `b`, `CaptureRegisters()` is the union (the
smallest enclosing interval) of `[2*i, 2*i+1]` and `b.CaptureRegisters()`;
when `b` contains no capture it is exactly `[2*i, 2*i+1]`; and every kind other
than `Capture`, `Disjunction`, `Alternative`, `Quantifier` and `Lookahead`
reports the empty interval. -/
theorem capture_register_interval (i : Int) (b : RegExpTree)
    (hlo : kMinInt ≤ 2 * i) (hhi : 2 * i + 1 ≤ kMaxInt) :
    (RegExpTree.Capture b i).CaptureRegisters
      = (Interval.mk (2 * i) (2 * i + 1)).Union b.CaptureRegisters ∧
    (∀ from_ to_ : Int, b.CaptureRegisters = Interval.mk from_ to_ →
      (RegExpTree.Capture b i).CaptureRegisters
        = Interval.mk (Min.min (2 * i) from_) (Max.max (2 * i + 1) to_)) ∧
    (b.containsCapture = false →
      (RegExpTree.Capture b i).CaptureRegisters = Interval.mk (2 * i) (2 * i + 1)) ∧
    (∀ (type : RegExpAssertion.Type_) (set : CharacterSet) (is_negated : Bool)
        (data : List Nat) (elements : List TextElement) (length : Int)
        (capture_body : RegExpTree) (capture_index : Int),
      (RegExpTree.Assertion type).CaptureRegisters = Interval.Empty ∧
      (RegExpTree.CharacterClass set is_negated).CaptureRegisters = Interval.Empty ∧
      (RegExpTree.Atom data).CaptureRegisters = Interval.Empty ∧
      (RegExpTree.Text elements length).CaptureRegisters = Interval.Empty ∧
      (RegExpTree.BackReference capture_body capture_index).CaptureRegisters
        = Interval.Empty ∧
      RegExpTree.Empty.CaptureRegisters = Interval.Empty) := by
  have hs : RegExpCapture.StartRegister i = 2 * i := by
    unfold RegExpCapture.StartRegister intMul wrapInt
    unfold kMinInt at hlo
    unfold kMaxInt at hhi
    omega
  have he : RegExpCapture.EndRegister i = 2 * i + 1 := by
    unfold RegExpCapture.EndRegister intAdd intMul wrapInt
    unfold kMinInt at hlo
    unfold kMaxInt at hhi
    omega
  have hmain : (RegExpTree.Capture b i).CaptureRegisters
      = (Interval.mk (2 * i) (2 * i + 1)).Union b.CaptureRegisters := by
    simp only [RegExpTree.CaptureRegisters, hs, he]
  refine ⟨hmain, ?_, ?_, ?_⟩
  · intro from_ to_ hb
    rw [hmain, hb]
    rfl
  · intro hno
    rw [hmain, RegExpTree.CaptureRegisters_of_no_capture b hno, Interval.Union_Empty]
  · intro _ _ _ _ _ _ _ _
    exact ⟨rfl, rfl, rfl, rfl, rfl, rfl⟩

/-- C30 (amended), on the capture 1 over an alternative of the capture 3 and an
atom: the registers are `[2, 7]`; over an atom alone they are `[2, 3]`. -/
theorem capture_register_interval_witness :
    (RegExpTree.Capture
        (RegExpTree.Alternative [RegExpTree.Capture RegExpTree.Empty 3, RegExpTree.Atom [1]]
          1 1) 1).CaptureRegisters
      = (Interval.mk (2 * 1) (2 * 1 + 1)).Union (Interval.mk 6 7) ∧
    (Interval.mk (2 * 1) (2 * 1 + 1)).Union (Interval.mk 6 7) = Interval.mk 2 7 ∧
    (RegExpTree.Capture (RegExpTree.Atom [1]) 1).CaptureRegisters
      = Interval.mk (2 * 1) (2 * 1 + 1) :=
  ⟨(capture_register_interval 1
      (RegExpTree.Alternative [RegExpTree.Capture RegExpTree.Empty 3, RegExpTree.Atom [1]]
        1 1) (by decide) (by decide)).1,
   by decide,
   (capture_register_interval 1 (RegExpTree.Atom [1]) (by decide) (by decide)).2.2.1 rfl⟩


/-! ### Visits of a compound assignment -/

section AssignmentVisits

open AstNodeFactory FactoryOp

variable {σ : Type}

theorem FactoryOp.construct_visitor {α : Type} (ctor : Build α) (f f1 : AstNodeFactory σ)
    (a : α) (h : construct ctor f = some (a, f1)) : f1.visitor_ = f.visitor_ := by
  unfold construct at h
  cases hc : ctor f.isolate_ with
  | none => simp [hc] at h
  | some p =>
    obtain ⟨node, isolate⟩ := p
    simp only [hc, Option.some.injEq, Prod.mk.injEq] at h
    obtain ⟨_, rfl⟩ := h
    rfl

theorem NewBinaryOperation_visitor (T : Token) (V : Visitor σ) (op : Token.Value)
    (left right : Ptr) (pos : Int) (f f' : AstNodeFactory σ) (b : BinaryOperation)
    (h : NewBinaryOperation T V op left right pos f = some (b, f')) :
    f'.visitor_ = V.Visit .kBinaryOperation (AstNode.BinaryOperation b) f.visitor_ := by
  simp only [NewBinaryOperation, FactoryOp.op_bind_def] at h
  obtain ⟨b0, f1, h0, h1⟩ := FactoryOp.andThen_eq_some _ _ _ _ h
  have hv := FactoryOp.construct_visitor _ f f1 b0 h0
  simp only [VISIT_AND_RETURN, FactoryOp.op_bind_def, FactoryOp.op_pure_def,
    FactoryOp.visit_andThen, FactoryOp.op_ret_apply] at h1
  cases h1
  simp [hv]

theorem NewAssignment_visitor_state (T : Token) (V : Visitor σ) (op : Token.Value)
    (target value : Ptr) (pos : Int) (f f' : AstNodeFactory σ) (a : Assignment)
    (h : NewAssignment T V op target value pos f = some (a, f')) :
    (op > T.ASSIGN →
      ∃ b, a.binary_operation = some b ∧
        f'.visitor_ = V.Visit .kAssignment (AstNode.Assignment a)
          (V.Visit .kBinaryOperation (AstNode.BinaryOperation b) f.visitor_)) ∧
    (op ≤ T.ASSIGN →
      a.binary_operation = none ∧
      f'.visitor_ = V.Visit .kAssignment (AstNode.Assignment a) f.visitor_) := by
  simp only [NewAssignment, FactoryOp.op_bind_def] at h
  obtain ⟨a0, f1, h0, h1⟩ := FactoryOp.andThen_eq_some _ _ _ _ h
  obtain ⟨a1, f3, hInit, hVisit⟩ := FactoryOp.andThen_eq_some _ _ _ _ h1
  obtain ⟨e1, e2, e3, e4, e5, e6⟩ := Assignment_new_fields op target value pos f f1 a0 h0
  have hv1 := FactoryOp.construct_visitor _ f f1 a0 h0
  simp only [VISIT_AND_RETURN, FactoryOp.op_bind_def, FactoryOp.op_pure_def,
    FactoryOp.visit_andThen, FactoryOp.op_ret_apply] at hVisit
  cases hVisit
  simp only [Assignment_Init, FactoryOp.op_bind_def, FactoryOp.op_pure_def,
    FactoryOp.construct_ASSERT_andThen, Assignment.is_compound, Assignment.op,
    Assignment.binary_op, e1, e2, e3, e4] at hInit
  constructor
  · intro hcomp
    split at hInit
    · rw [FactoryOp.ite_run, if_pos (by simpa using hcomp)] at hInit
      obtain ⟨b, f2, hb, hrest⟩ := FactoryOp.andThen_eq_some _ _ _ _ hInit
      simp only [FactoryOp.construct_GetNextId_andThen, FactoryOp.op_ret_apply] at hrest
      cases hrest
      have hv2 := NewBinaryOperation_visitor T V _ _ _ _ f1 f2 b hb
      refine ⟨b, rfl, ?_⟩
      simp [hv2, hv1]
    · cases hInit
  · intro hsimple
    have hnot : ¬ (T.ASSIGN < op) := not_lt.mpr hsimple
    split at hInit
    · rw [FactoryOp.ite_run, if_neg (by simpa using hnot), FactoryOp.op_ret_apply] at hInit
      cases hInit
      refine ⟨?_, ?_⟩
      · simp [Assignment.binary_operation, e5]
      · simp [hv1]
    · cases hInit

/-- C31: a compound `NewAssignment` (`op > Token::ASSIGN`) leaves the
construction visitor as `VisitBinaryOperation`, applied once to the
synthesized binary operation, followed by `VisitAssignment`, applied once to
the assignment, leave it, in that order; a simple one (`Token::ASSIGN`, or any
operator not above it) leaves it as `VisitAssignment` alone leaves it. With the
visitor that counts one per visit the count grows by 2 for a compound
assignment and by 1 for a simple one. -/
theorem NewAssignment_visits (T : Token) (V : Visitor σ) (op : Token.Value)
    (target value : Ptr) (pos : Int) (f f' : AstNodeFactory σ) (a : Assignment)
    (h : NewAssignment T V op target value pos f = some (a, f')) :
    (op > T.ASSIGN →
      ∃ b, a.binary_operation = some b ∧
        f'.visitor_ = V.Visit .kAssignment (AstNode.Assignment a)
          (V.Visit .kBinaryOperation (AstNode.BinaryOperation b) f.visitor_)) ∧
    (op ≤ T.ASSIGN →
      a.binary_operation = none ∧
      f'.visitor_ = V.Visit .kAssignment (AstNode.Assignment a) f.visitor_) ∧
    (∀ (g g' : AstNodeFactory Nat) (c : Assignment),
      NewAssignment T countingVisitor op target value pos g = some (c, g') →
      (op > T.ASSIGN → g'.visitor_ = g.visitor_ + 2) ∧
      (op ≤ T.ASSIGN → g'.visitor_ = g.visitor_ + 1)) := by
  obtain ⟨h1, h2⟩ := NewAssignment_visitor_state T V op target value pos f f' a h
  refine ⟨h1, h2, ?_⟩
  intro g g' c hg
  obtain ⟨g1, g2⟩ := NewAssignment_visitor_state T countingVisitor op target value pos g g' c hg
  constructor
  · intro hop
    obtain ⟨b, _, hb⟩ := g1 hop
    simpa [countingVisitor] using hb
  · intro hop
    simpa [countingVisitor] using (g2 hop).2

/-- C31, on the compound assignment `+=` (24) and the simple assignment `=`
(17) with a recording visitor and with the counting visitor, from the counter
value 0: the compound one records the binary operation and then the
assignment and counts 2, the simple one counts 1. -/
theorem NewAssignment_visits_witness :
    (∃ a f' b, NewAssignment Token.sample recordingConstructionVisitor 24 (some 1) (some 2) 10
        { isolate_ := { ast_node_id := 0, empty_string := 0 }, visitor_ := [] }
          = some (a, f') ∧
      a.binary_operation = some b ∧
      f'.visitor_ = [(AstNode.Type_.kBinaryOperation, AstNode.BinaryOperation b),
                     (AstNode.Type_.kAssignment, AstNode.Assignment a)]) ∧
    (NewAssignment Token.sample countingVisitor 24 (some 1) (some 2) 10
        { isolate_ := { ast_node_id := 0, empty_string := 0 }, visitor_ := 0 }).map
      (fun r => r.2.visitor_) = some 2 ∧
    (NewAssignment Token.sample countingVisitor 17 (some 1) (some 2) 10
        { isolate_ := { ast_node_id := 0, empty_string := 0 }, visitor_ := 0 }).map
      (fun r => r.2.visitor_) = some 1 := by
  refine ⟨?_, rfl, rfl⟩
  obtain ⟨b, hb, hv⟩ :=
    (NewAssignment_visits Token.sample recordingConstructionVisitor 24 (some 1) (some 2) 10
      { isolate_ := { ast_node_id := 0, empty_string := 0 }, visitor_ := [] } _ _
      rfl).1 (by decide)
  exact ⟨_, _, b, rfl, hb, hv⟩

end AssignmentVisits


/-! ### The unbounded sentinel and the bounds of a quantifier -/

theorem RegExpQuantifier.init_max_match (lo hi : Int) (type : RegExpQuantifier.Type_)
    (body : RegExpTree) (hhi : 0 ≤ hi) (hM : 0 ≤ body.max_match) :
    (RegExpQuantifier.init lo hi type body).max_match
      = (if hi * body.max_match > kMaxInt then kMaxInt else hi * body.max_match) ∧
    (¬ (hi > 0 ∧ body.max_match > intDiv RegExpTree.kInfinity hi) →
      hi * body.max_match ≤ kMaxInt) := by
  have hnn : 0 ≤ hi * body.max_match := mul_nonneg hhi hM
  rcases eq_or_lt_of_le hhi with h0 | h0
  · subst h0
    refine ⟨?_, fun _ => by simp [kMaxInt]⟩
    simp [RegExpQuantifier.init, RegExpTree.max_match, intMul, wrapInt, kMaxInt]
  · have hd := intDiv_kInfinity h0
    have hiff : body.max_match > kMaxInt / hi ↔ hi * body.max_match > kMaxInt := by
      rw [gt_iff_lt, gt_iff_lt, Int.ediv_lt_iff_lt_mul h0, mul_comm]
    refine ⟨?_, ?_⟩
    · simp only [RegExpQuantifier.init, RegExpTree.max_match, RegExpTree.kInfinity] at hd ⊢
      rw [hd]
      by_cases hc : hi * body.max_match > kMaxInt
      · rw [if_pos ⟨h0, hiff.mpr hc⟩, if_pos hc]
      · rw [if_neg (fun h => hc (hiff.mp h.2)), if_neg hc]
        apply wrapInt_of_isInt
        unfold IsInt kMinInt
        unfold kMaxInt at hc ⊢
        omega
    · intro hno
      rw [hd] at hno
      by_contra hgt
      exact hno ⟨h0, hiff.mpr (lt_of_not_le hgt)⟩

/-- C32: for every `RegExpQuantifier` with repetition maximum `hi >= 0`: over a
body whose `max_match()` is `kInfinity`, `max_match()` is `kInfinity` when
`hi >= 1` (`hi == kInfinity` included) and 0 when `hi == 0`; over a body with
`max_match() >= 1` and with `hi == kInfinity` it is `kInfinity`; and whenever
the constructor multiplies for the maximum, with `0 <= M <= kInfinity`, the
exact product `hi * M` is within the `int` range: the multiplication does not
overflow, and `max_match()` is that product. -/
theorem kInfinity_absorbing (lo hi : Int) (type : RegExpQuantifier.Type_)
    (body : RegExpTree) (hhi : 0 ≤ hi) :
    RegExpQuantifier.new lo hi type body = some (RegExpQuantifier.init lo hi type body) ∧
    (body.max_match = RegExpTree.kInfinity → 1 ≤ hi →
      (RegExpQuantifier.init lo hi type body).max_match = RegExpTree.kInfinity) ∧
    (body.max_match = RegExpTree.kInfinity →
      (RegExpQuantifier.init lo RegExpTree.kInfinity type body).max_match
        = RegExpTree.kInfinity) ∧
    (body.max_match = RegExpTree.kInfinity → hi = 0 →
      (RegExpQuantifier.init lo hi type body).max_match = 0) ∧
    (1 ≤ body.max_match →
      (RegExpQuantifier.init lo RegExpTree.kInfinity type body).max_match
        = RegExpTree.kInfinity) ∧
    (0 ≤ body.max_match → body.max_match ≤ RegExpTree.kInfinity →
      ¬ (hi > 0 ∧ body.max_match > intDiv RegExpTree.kInfinity hi) →
      IsInt (hi * body.max_match) ∧
      intMul hi body.max_match = hi * body.max_match ∧
      (RegExpQuantifier.init lo hi type body).max_match = hi * body.max_match) := by
  have hk : (0 : Int) ≤ RegExpTree.kInfinity := by decide
  have hinf : ∀ (h : Int) (b : RegExpTree), 1 ≤ h → 1 ≤ b.max_match →
      (h = RegExpTree.kInfinity ∨ b.max_match = RegExpTree.kInfinity) →
      (RegExpQuantifier.init lo h type b).max_match = RegExpTree.kInfinity := by
    intro h b h1 hb hor
    have hM : 0 ≤ b.max_match := by omega
    rw [(RegExpQuantifier.init_max_match lo h type b (by omega) hM).1]
    have hge : kMaxInt ≤ h * b.max_match := by
      rcases hor with e | e
      · rw [e]
        exact le_mul_of_one_le_right hk hb
      · rw [e]
        exact le_mul_of_one_le_left hk h1
    by_cases hc : h * b.max_match > kMaxInt
    · rw [if_pos hc]
      rfl
    · rw [if_neg hc]
      unfold RegExpTree.kInfinity
      omega
  refine ⟨rfl, ?_, ?_, ?_, ?_, ?_⟩
  · intro hb h1
    exact hinf hi body h1 (by rw [hb]; decide) (Or.inr hb)
  · intro hb
    exact hinf _ body (by decide) (by rw [hb]; decide) (Or.inl rfl)
  · intro hb h0
    subst h0
    simp [RegExpQuantifier.init, RegExpTree.max_match, intMul, wrapInt]
  · intro hb
    exact hinf _ body (by decide) hb (Or.inl rfl)
  · intro hM0 _ hno
    obtain ⟨hval, hle⟩ := RegExpQuantifier.init_max_match lo hi type body hhi hM0
    have hfit := hle hno
    have hnn : 0 ≤ hi * body.max_match := mul_nonneg hhi hM0
    have hI : IsInt (hi * body.max_match) := by
      unfold IsInt kMinInt
      unfold kMaxInt at hfit ⊢
      omega
    refine ⟨hI, wrapInt_of_isInt hI, ?_⟩
    rw [hval, if_neg (not_lt.mpr hfit)]

/-- C32, on quantifiers over `a*` (a body whose `max_match()` is `kInfinity`):
`{0,3}` has `max_match() == kInfinity`, as has `{0,}`. -/
theorem kInfinity_absorbing_witness :
    (RegExpQuantifier.init 0 3 RegExpQuantifier.Type_.GREEDY
        (RegExpQuantifier.init 0 RegExpTree.kInfinity RegExpQuantifier.Type_.GREEDY
          (RegExpTree.Atom [97]))).max_match = RegExpTree.kInfinity ∧
    (RegExpQuantifier.init 0 RegExpTree.kInfinity RegExpQuantifier.Type_.GREEDY
        (RegExpQuantifier.init 0 RegExpTree.kInfinity RegExpQuantifier.Type_.GREEDY
          (RegExpTree.Atom [97]))).max_match = RegExpTree.kInfinity :=
  ⟨(kInfinity_absorbing 0 3 RegExpQuantifier.Type_.GREEDY
      (RegExpQuantifier.init 0 RegExpTree.kInfinity RegExpQuantifier.Type_.GREEDY
        (RegExpTree.Atom [97])) (by decide)).2.1 (by decide) (by decide),
   (kInfinity_absorbing 0 3 RegExpQuantifier.Type_.GREEDY
      (RegExpQuantifier.init 0 RegExpTree.kInfinity RegExpQuantifier.Type_.GREEDY
        (RegExpTree.Atom [97])) (by decide)).2.2.1 (by decide)⟩

/-- C36: for every `RegExpQuantifier` built with `0 <= lo <= hi` over a body
with `0 <= body.min_match() <= body.max_match()` (`body.max_match()` is an
`int`, so at most `kInfinity`; the proof does not use that bound), with `int`
arithmetic taken as 32-bit, `min_match() <= max_match() <= kInfinity`. -/
theorem RegExpQuantifier_bounds_ordered (lo hi : Int) (type : RegExpQuantifier.Type_)
    (body : RegExpTree) (hlo : 0 ≤ lo) (hle : lo ≤ hi)
    (hm : 0 ≤ body.min_match) (hmM : body.min_match ≤ body.max_match) :
    ∃ q, RegExpQuantifier.new lo hi type body = some q ∧
      q.min_match ≤ q.max_match ∧ q.max_match ≤ RegExpTree.kInfinity := by
  refine ⟨_, rfl, ?_, ?_⟩
  · have hhi : 0 ≤ hi := le_trans hlo hle
    have hM0 : 0 ≤ body.max_match := le_trans hm hmM
    rw [(RegExpQuantifier.init_max_match lo hi type body hhi hM0).1]
    have hmin : (RegExpQuantifier.init lo hi type body).min_match
        = wrapInt (lo * body.min_match) := rfl
    rw [hmin]
    have hprod : lo * body.min_match ≤ hi * body.max_match :=
      mul_le_mul hle hmM hm hhi
    have hnn : 0 ≤ lo * body.min_match := mul_nonneg hlo hm
    by_cases hc : hi * body.max_match > kMaxInt
    · rw [if_pos hc]
      exact (isInt_wrapInt _).2
    · rw [if_neg hc]
      have hI : IsInt (lo * body.min_match) := by
        unfold IsInt kMinInt
        unfold kMaxInt at hc ⊢
        omega
      rw [wrapInt_of_isInt hI]
      exact hprod
  · have hhi : 0 ≤ hi := le_trans hlo hle
    have hM0 : 0 ≤ body.max_match := le_trans hm hmM
    rw [(RegExpQuantifier.init_max_match lo hi type body hhi hM0).1]
    by_cases hc : hi * body.max_match > kMaxInt
    · rw [if_pos hc]
      exact le_refl _
    · rw [if_neg hc]
      exact not_lt.mp hc

/-- C36, on the quantifier `{65536,65536}` over a body of 65536 characters
exactly, where the product for the minimum wraps to 0 and the maximum is
`kInfinity`, and on `{2,3}` over a three-character atom. -/
theorem RegExpQuantifier_bounds_ordered_witness :
    (∃ q, RegExpQuantifier.new 65536 65536 RegExpQuantifier.Type_.GREEDY
        (RegExpTree.Text [{ length := 65536 }] 65536) = some q ∧
      q.min_match ≤ q.max_match ∧ q.max_match ≤ RegExpTree.kInfinity) ∧
    (RegExpQuantifier.init 65536 65536 RegExpQuantifier.Type_.GREEDY
        (RegExpTree.Text [{ length := 65536 }] 65536)).min_match = 0 ∧
    (RegExpQuantifier.init 65536 65536 RegExpQuantifier.Type_.GREEDY
        (RegExpTree.Text [{ length := 65536 }] 65536)).max_match = RegExpTree.kInfinity ∧
    (∃ q, RegExpQuantifier.new 2 3 RegExpQuantifier.Type_.GREEDY
        (RegExpTree.Atom [97, 98, 99]) = some q ∧
      q.min_match ≤ q.max_match ∧ q.max_match ≤ RegExpTree.kInfinity) :=
  ⟨RegExpQuantifier_bounds_ordered 65536 65536 RegExpQuantifier.Type_.GREEDY
      (RegExpTree.Text [{ length := 65536 }] 65536)
      (by decide) (by decide) (by decide) (by decide),
   by decide, by decide,
   RegExpQuantifier_bounds_ordered 2 3 RegExpQuantifier.Type_.GREEDY
      (RegExpTree.Atom [97, 98, 99])
      (by decide) (by decide) (by decide) (by decide)⟩


/-! ### The packed flags of a function literal -/

theorem BitField.decode_one (shift word : Nat) :
    BitField.decode shift 1 word = (word.testBit shift).toNat := by
  unfold BitField.decode
  rw [Nat.toNat_testBit, Nat.shiftRight_eq_div_pow]
  simp

theorem BitField.decode_or_pretenure (shift word : Nat) (h : shift ≠ 3) :
    BitField.decode shift 1 (word ||| BitField.encode 3 true.toNat)
      = BitField.decode shift 1 word := by
  rw [BitField.decode_one, BitField.decode_one, Nat.testBit_or]
  have h8 : BitField.encode 3 true.toNat = 2 ^ 3 := by decide
  rw [h8, Nat.testBit_two_pow]
  have hne : ¬ (3 = shift) := fun e => h e.symm
  simp [hne]

theorem BitField.decode_pretenure (word : Nat) :
    BitField.decode 3 1 (word ||| BitField.encode 3 true.toNat) = 1 := by
  rw [BitField.decode_one, Nat.testBit_or]
  have h8 : BitField.encode 3 true.toNat = 2 ^ 3 := by decide
  rw [h8, Nat.testBit_two_pow]
  simp

/-- C33: the packed flags of a `FunctionLiteral` decode to what the
constructor was given: `has_only_simple_this_property_assignments()` equals
the argument, `is_expression()` iff `type != DECLARATION`, `is_anonymous()` iff
`type == ANONYMOUS_EXPRESSION`, `pretenure()` is false,
`has_duplicate_parameters()` iff the flag is `kHasDuplicateParameters`,
`is_function()` iff the flag is `kIsFunction`; the six fields occupy disjoint
bits (bit `0` to bit `5`, one each); and `set_pretenure()`, on any function
literal, makes `pretenure()` true and leaves the other five accessors as they
were. -/
theorem FunctionLiteral_flags_decode (name : Handle) (scope body : Ptr)
    (materialized_literal_count expected_property_count handler_count : Int)
    (has_only_simple_this_property_assignments : Bool)
    (this_property_assignments : Handle) (parameter_count : Int)
    (type : FunctionLiteral.Type_)
    (has_duplicate_parameters : FunctionLiteral.ParameterFlag)
    (is_function : FunctionLiteral.IsFunctionFlag) (isolate : Isolate) :
    (∃ lit isolate',
      FunctionLiteral.new name scope body materialized_literal_count
        expected_property_count handler_count has_only_simple_this_property_assignments
        this_property_assignments parameter_count type has_duplicate_parameters is_function
        isolate = some (lit, isolate') ∧
      lit.has_only_simple_this_property_assignments
        = has_only_simple_this_property_assignments ∧
      lit.is_expression = decide (type ≠ FunctionLiteral.Type_.DECLARATION) ∧
      lit.is_anonymous = decide (type = FunctionLiteral.Type_.ANONYMOUS_EXPRESSION) ∧
      lit.pretenure = false ∧
      lit.has_duplicate_parameters
        = decide (has_duplicate_parameters
            = FunctionLiteral.ParameterFlag.kHasDuplicateParameters) ∧
      lit.is_function = decide (is_function = FunctionLiteral.IsFunctionFlag.kIsFunction)) ∧
    (∀ i : Nat, i < 6 → ∀ j : Nat, j < 6 → i ≠ j →
      BitField.mask i 1 &&& BitField.mask j 1 = 0) ∧
    (∀ i : Nat, i < 6 → BitField.mask i 1 = 2 ^ i) ∧
    (∀ lit : FunctionLiteral,
      lit.set_pretenure.pretenure = true ∧
      lit.set_pretenure.has_only_simple_this_property_assignments
        = lit.has_only_simple_this_property_assignments ∧
      lit.set_pretenure.is_expression = lit.is_expression ∧
      lit.set_pretenure.is_anonymous = lit.is_anonymous ∧
      lit.set_pretenure.has_duplicate_parameters = lit.has_duplicate_parameters ∧
      lit.set_pretenure.is_function = lit.is_function) := by
  refine ⟨?_, by decide, by decide, ?_⟩
  · refine ⟨_, _, rfl, ?_⟩
    cases is_function <;> cases has_only_simple_this_property_assignments <;>
      cases has_duplicate_parameters <;> cases type <;>
      simp +decide [FunctionLiteral.has_only_simple_this_property_assignments,
        FunctionLiteral.is_expression, FunctionLiteral.is_anonymous,
        FunctionLiteral.pretenure, FunctionLiteral.has_duplicate_parameters,
        FunctionLiteral.is_function, BitField.decode, BitField.encode,
        FunctionLiteral.IsFunctionFlag.value, FunctionLiteral.ParameterFlag.value]
  · intro lit
    simp only [FunctionLiteral.set_pretenure, FunctionLiteral.pretenure,
      FunctionLiteral.has_only_simple_this_property_assignments,
      FunctionLiteral.is_expression, FunctionLiteral.is_anonymous,
      FunctionLiteral.has_duplicate_parameters, FunctionLiteral.is_function,
      BitField.decode_pretenure,
      BitField.decode_or_pretenure 0 _ (by decide),
      BitField.decode_or_pretenure 1 _ (by decide),
      BitField.decode_or_pretenure 2 _ (by decide),
      BitField.decode_or_pretenure 4 _ (by decide),
      BitField.decode_or_pretenure 5 _ (by decide)]
    simp

/-! ### The summary of the construction visitor -/

theorem AstProperties.Flags.Contains_Add (s : AstProperties.Flags)
    (f g : AstPropertiesFlag) :
    (s.Add f).Contains g = (s.Contains g || decide (f = g)) := by
  simp only [AstProperties.Flags.Add, AstProperties.Flags.Contains, Nat.testBit_or,
    Nat.one_shiftLeft, Nat.testBit_two_pow]
  cases f <;> cases g <;> simp [AstPropertiesFlag.value]

/-- C34 (as stated, refuted): at the node count `kMaxInt`, reached from a fresh
summary by `add_node_count(kMaxInt)`, `increase_node_count()` leaves
`node_count()` at `kMinInt`, not one higher. -/
theorem increase_node_count_overflow_counterexample :
    (AstProperties.new.add_node_count 2147483647).node_count = 2147483647 ∧
    (AstConstructionVisitor.increase_node_count
      { properties_ := AstProperties.new.add_node_count 2147483647 }).ast_properties.node_count
      = -2147483648 ∧
    (-2147483648 : Int) ≠ 2147483647 + 1 := by
  refine ⟨rfl, rfl, by decide⟩

/-- C34 (amended): the summary of the construction visitor only accumulates: a
fresh `AstProperties` has `node_count() == 0` and no flag set;
`increase_node_count()` leaves the flags unchanged and, when `node_count()` is
an `int` below `kMaxInt`, raises `node_count()` by exactly 1; `add_flag(f)`
leaves `node_count()` unchanged, makes `f` a member of the flag set, removes
no flag, adds no other flag, and is idempotent. -/
theorem summary_accumulates (v : AstConstructionVisitor) (f : AstPropertiesFlag)
    (hcount : IsInt v.ast_properties.node_count)
    (hfit : v.ast_properties.node_count < kMaxInt) :
    (AstProperties.new.node_count = 0 ∧ AstProperties.new.flags.IsEmpty = true ∧
      (∀ g, AstProperties.new.flags.Contains g = false) ∧
      AstConstructionVisitor.new.ast_properties = AstProperties.new) ∧
    (v.increase_node_count.ast_properties.node_count = v.ast_properties.node_count + 1 ∧
      v.increase_node_count.ast_properties.flags = v.ast_properties.flags) ∧
    ((v.add_flag f).ast_properties.node_count = v.ast_properties.node_count ∧
      (v.add_flag f).ast_properties.flags.Contains f = true ∧
      (∀ g, v.ast_properties.flags.Contains g = true →
        (v.add_flag f).ast_properties.flags.Contains g = true) ∧
      (∀ g, g ≠ f → (v.add_flag f).ast_properties.flags.Contains g
        = v.ast_properties.flags.Contains g) ∧
      (v.add_flag f).add_flag f = v.add_flag f) := by
  refine ⟨⟨rfl, rfl, ?_, rfl⟩, ⟨?_, rfl⟩, ⟨rfl, ?_, ?_, ?_, ?_⟩⟩
  · intro g
    cases g <;> decide
  · simp only [AstConstructionVisitor.increase_node_count,
      AstConstructionVisitor.ast_properties, AstProperties.add_node_count,
      AstProperties.node_count, intAdd] at *
    apply wrapInt_of_isInt
    unfold IsInt kMinInt kMaxInt at *
    omega
  · simp [AstConstructionVisitor.add_flag, AstConstructionVisitor.ast_properties,
      AstProperties.flags, AstProperties.Flags.Contains_Add]
  · intro g hg
    simp only [AstConstructionVisitor.add_flag, AstConstructionVisitor.ast_properties,
      AstProperties.flags] at *
    simp [AstProperties.Flags.Contains_Add, hg]
  · intro g hg
    simp only [AstConstructionVisitor.add_flag, AstConstructionVisitor.ast_properties,
      AstProperties.flags]
    have hne : ¬ (f = g) := fun e => hg e.symm
    simp [AstProperties.Flags.Contains_Add, hne]
  · simp only [AstConstructionVisitor.add_flag, AstProperties.flags,
      AstProperties.Flags.Add]
    congr 3
    simp [Nat.or_assoc]

/-- C34 (amended), on a fresh construction visitor and the flag
`kDontOptimize`. -/
theorem summary_accumulates_witness :
    (AstConstructionVisitor.new.increase_node_count.ast_properties.node_count
        = AstConstructionVisitor.new.ast_properties.node_count + 1 ∧
      AstConstructionVisitor.new.increase_node_count.ast_properties.flags
        = AstConstructionVisitor.new.ast_properties.flags) ∧
    (AstConstructionVisitor.new.add_flag
        AstPropertiesFlag.kDontOptimize).ast_properties.flags.Contains
      AstPropertiesFlag.kDontOptimize = true :=
  ⟨(summary_accumulates AstConstructionVisitor.new AstPropertiesFlag.kDontOptimize
      (by decide) (by decide)).2.1,
   (summary_accumulates AstConstructionVisitor.new AstPropertiesFlag.kDontOptimize
      (by decide) (by decide)).2.2.2.1⟩


/-! ### The length of a text node -/

theorem RegExpText.addAll_text (elms : List TextElement) (elements : List TextElement)
    (length : Int) (hlen : 0 ≤ length)
    (hnn : ∀ e ∈ elms, 0 ≤ e.length)
    (hfit : length + (elms.map (fun e => e.length)).sum ≤ kMaxInt) :
    RegExpText.addAll elms (RegExpTree.Text elements length)
      = some (RegExpTree.Text (elements ++ elms)
          (length + (elms.map (fun e => e.length)).sum)) := by
  induction elms generalizing elements length with
  | nil => simp [RegExpText.addAll]
  | cons e rest ih =>
    have he : 0 ≤ e.length := hnn e (by simp)
    have hrest : ∀ x ∈ rest, 0 ≤ x.length := fun x hx => hnn x (by simp [hx])
    have hsum : 0 ≤ (rest.map (fun x => x.length)).sum := by
      apply List.sum_nonneg
      intro x hx
      obtain ⟨y, hy, rfl⟩ := List.mem_map.mp hx
      exact hrest y hy
    simp only [List.map_cons, List.sum_cons] at hfit
    have hw : intAdd length e.length = length + e.length := by
      apply wrapInt_of_isInt
      unfold IsInt kMinInt
      unfold kMaxInt at hfit ⊢
      omega
    simp only [RegExpText.addAll, RegExpText.AddElement, hw]
    rw [ih (elements ++ [e]) (length + e.length) (by omega) hrest (by omega)]
    simp [add_assoc]

/-- C35 (as stated, refuted): after `AddElement` of an element of length
`kMaxInt` and of one of length 1 on a new `RegExpText`, `min_match()` and
`max_match()` are `kMinInt`, not the sum `kMaxInt + 1` of the lengths. -/
theorem RegExpText_length_overflow_counterexample :
    (RegExpText.addAll [{ length := 2147483647 }, { length := 1 }] RegExpText.new).map
      (fun t => (t.min_match, t.max_match)) = some (-2147483648, -2147483648) ∧
    (-2147483648 : Int) ≠ 2147483647 + 1 := by
  refine ⟨rfl, by decide⟩

/-- C35 (amended): a new `RegExpText` has `min_match() == max_match() == 0`
and no elements; after any sequence `AddElement(e1)`, ..., `AddElement(en)`
whose lengths (each `>= 0`) add up to at most `kMaxInt`, both `min_match()`
and `max_match()` equal `length(e1) + ... + length(en)`, and `elements()` is
`[e1, ..., en]`, in insertion order. -/
theorem RegExpText_length_is_sum (elms : List TextElement)
    (hnn : ∀ e ∈ elms, 0 ≤ e.length)
    (hfit : (elms.map (fun e => e.length)).sum ≤ kMaxInt) :
    RegExpText.new.min_match = 0 ∧ RegExpText.new.max_match = 0 ∧
    RegExpText.elements RegExpText.new = some [] ∧
    ∃ t, RegExpText.addAll elms RegExpText.new = some t ∧
      t.min_match = (elms.map (fun e => e.length)).sum ∧
      t.max_match = (elms.map (fun e => e.length)).sum ∧
      RegExpText.elements t = some elms := by
  refine ⟨rfl, rfl, rfl, _,
    RegExpText.addAll_text elms [] 0 (le_refl 0) hnn (by simpa using hfit), ?_, ?_, ?_⟩
  · simp [RegExpTree.min_match]
  · simp [RegExpTree.max_match]
  · simp [RegExpText.elements]

/-- C35 (amended), on the elements of lengths 3, 1 and 2 added to a new text:
both metrics are 6 and the elements are in insertion order. -/
theorem RegExpText_length_is_sum_witness :
    RegExpText.new.min_match = 0 ∧ RegExpText.new.max_match = 0 ∧
    RegExpText.elements RegExpText.new = some [] ∧
    ∃ t, RegExpText.addAll [{ length := 3 }, { length := 1 }, { length := 2 }]
        RegExpText.new = some t ∧
      t.min_match
        = (([{ length := 3 }, { length := 1 }, { length := 2 }] : List TextElement).map
            (fun e => e.length)).sum ∧
      t.max_match
        = (([{ length := 3 }, { length := 1 }, { length := 2 }] : List TextElement).map
            (fun e => e.length)).sum ∧
      RegExpText.elements t = some [{ length := 3 }, { length := 1 }, { length := 2 }] :=
  RegExpText_length_is_sum [{ length := 3 }, { length := 1 }, { length := 2 }]
    (by decide) (by decide)

/-! ### Capture registers of distinct captures -/

/-- C39: for all capture indices `i != j`, `i, j >= 0`, with `2*i + 1` and
`2*j + 1` within the `int` range, the register pairs
`{StartRegister(i), EndRegister(i)}` and `{StartRegister(j), EndRegister(j)}`
are disjoint, and `i < j` implies `EndRegister(i) < StartRegister(j)`. -/
theorem capture_registers_disjoint (i j : Int) (hi : 0 ≤ i) (hj : 0 ≤ j) (hne : i ≠ j)
    (hfi : 2 * i + 1 ≤ kMaxInt) (hfj : 2 * j + 1 ≤ kMaxInt) :
    RegExpCapture.StartRegister i ≠ RegExpCapture.StartRegister j ∧
    RegExpCapture.StartRegister i ≠ RegExpCapture.EndRegister j ∧
    RegExpCapture.EndRegister i ≠ RegExpCapture.StartRegister j ∧
    RegExpCapture.EndRegister i ≠ RegExpCapture.EndRegister j ∧
    (i < j → RegExpCapture.EndRegister i < RegExpCapture.StartRegister j) := by
  unfold kMaxInt at hfi hfj
  have hsi : RegExpCapture.StartRegister i = 2 * i := by
    unfold RegExpCapture.StartRegister intMul wrapInt
    omega
  have hei : RegExpCapture.EndRegister i = 2 * i + 1 := by
    unfold RegExpCapture.EndRegister intAdd intMul wrapInt
    omega
  have hsj : RegExpCapture.StartRegister j = 2 * j := by
    unfold RegExpCapture.StartRegister intMul wrapInt
    omega
  have hej : RegExpCapture.EndRegister j = 2 * j + 1 := by
    unfold RegExpCapture.EndRegister intAdd intMul wrapInt
    omega
  rw [hsi, hei, hsj, hej]
  refine ⟨by omega, by omega, by omega, by omega, fun h => by omega⟩

/-- C39, on the captures 1 and 2: the registers are 2, 3 and 4, 5. -/
theorem capture_registers_disjoint_witness :
    RegExpCapture.StartRegister 1 ≠ RegExpCapture.StartRegister 2 ∧
    RegExpCapture.StartRegister 1 ≠ RegExpCapture.EndRegister 2 ∧
    RegExpCapture.EndRegister 1 ≠ RegExpCapture.StartRegister 2 ∧
    RegExpCapture.EndRegister 1 ≠ RegExpCapture.EndRegister 2 ∧
    ((1 : Int) < 2 → RegExpCapture.EndRegister 1 < RegExpCapture.StartRegister 2) :=
  capture_registers_disjoint 1 2 (by decide) (by decide) (by decide) (by decide) (by decide)


/-! ### Factory operations that mint no id -/

section NoIds

open AstNodeFactory FactoryOp

variable {σ : Type}

/-- C37: the factory operations for the kinds that carry no compiler id
return with the id counter (and the whole isolate) as it was on entry:
`NewModuleDeclaration`, `NewModuleLiteral`, `NewModuleVariable`,
`NewModulePath`, `NewModuleUrl`, `NewExpressionStatement`,
`NewContinueStatement`, `NewBreakStatement`, `NewReturnStatement`,
`NewWithStatement`, `NewTryCatchStatement`, `NewTryFinallyStatement`,
`NewDebuggerStatement` and `NewEmptyStatement` always return, and
`NewVariableDeclaration` returns when its invariant checks pass (as they do
for the modes `VAR` and `LET`), in each case with the counter unchanged. -/
theorem id_free_operations_keep_counter (V : Visitor σ) (f : AstNodeFactory σ)
    (p1 p2 p3 p4 : Ptr) (h1 : Handle) (index : Int) (mode : VariableMode) :
    (∀ node f', NewVariableDeclaration V p1 mode p2 p3 f = some (node, f') →
      f'.isolate_ = f.isolate_) ∧
    (mode = VariableMode.VAR ∨ mode = VariableMode.LET →
      ∃ node f', NewVariableDeclaration V p1 mode p2 p3 f = some (node, f') ∧
        f'.isolate_ = f.isolate_) ∧
    (∃ node f', NewModuleDeclaration V p1 p2 p3 f = some (node, f') ∧
      f'.isolate_ = f.isolate_) ∧
    (∃ node f', NewModuleLiteral V p1 f = some (node, f') ∧ f'.isolate_ = f.isolate_) ∧
    (∃ node f', NewModuleVariable V p1 f = some (node, f') ∧ f'.isolate_ = f.isolate_) ∧
    (∃ node f', NewModulePath V p1 h1 f = some (node, f') ∧ f'.isolate_ = f.isolate_) ∧
    (∃ node f', NewModuleUrl V h1 f = some (node, f') ∧ f'.isolate_ = f.isolate_) ∧
    (∃ node f', NewExpressionStatement V p1 f = some (node, f') ∧
      f'.isolate_ = f.isolate_) ∧
    (∃ node f', NewContinueStatement V p1 f = some (node, f') ∧
      f'.isolate_ = f.isolate_) ∧
    (∃ node f', NewBreakStatement V p1 f = some (node, f') ∧ f'.isolate_ = f.isolate_) ∧
    (∃ node f', NewReturnStatement V p1 f = some (node, f') ∧ f'.isolate_ = f.isolate_) ∧
    (∃ node f', NewWithStatement V p1 p2 f = some (node, f') ∧ f'.isolate_ = f.isolate_) ∧
    (∃ node f', NewTryCatchStatement V index p1 p2 p3 p4 f = some (node, f') ∧
      f'.isolate_ = f.isolate_) ∧
    (∃ node f', NewTryFinallyStatement V index p1 p2 f = some (node, f') ∧
      f'.isolate_ = f.isolate_) ∧
    (∃ node f', NewDebuggerStatement V f = some (node, f') ∧ f'.isolate_ = f.isolate_) ∧
    (∃ node f', NewEmptyStatement f = some (node, f') ∧ f'.isolate_ = f.isolate_) := by
  refine ⟨?_, ?_, ⟨_, _, rfl, rfl⟩, ⟨_, _, rfl, rfl⟩, ⟨_, _, rfl, rfl⟩, ⟨_, _, rfl, rfl⟩,
    ⟨_, _, rfl, rfl⟩, ⟨_, _, rfl, rfl⟩, ⟨_, _, rfl, rfl⟩, ⟨_, _, rfl, rfl⟩,
    ⟨_, _, rfl, rfl⟩, ⟨_, _, rfl, rfl⟩, ⟨_, _, rfl, rfl⟩, ⟨_, _, rfl, rfl⟩,
    ⟨_, _, rfl, rfl⟩, ⟨_, _, rfl, rfl⟩⟩
  · intro node f' h
    simp only [NewVariableDeclaration, VISIT_AND_RETURN, VariableDeclaration.new,
      Declaration.new, FactoryOp.op_bind_def, FactoryOp.op_pure_def, Build.bind_def,
      Build.pure_def, Build.andThen_assoc, Build.ret_andThen, FactoryOp.construct_andThen,
      FactoryOp.construct_ret, FactoryOp.op_andThen_assoc, FactoryOp.op_ret_andThen,
      FactoryOp.construct_ASSERT_andThen, FactoryOp.visit_andThen,
      FactoryOp.op_ret_apply] at h
    repeat' split at h
    all_goals cases h
    rfl
  · intro hmode
    rcases hmode with rfl | rfl <;>
      simp [NewVariableDeclaration, VISIT_AND_RETURN, VariableDeclaration.new,
        Declaration.new, FactoryOp.op_bind_def, FactoryOp.op_pure_def, Build.bind_def,
        Build.pure_def, Build.andThen_assoc, Build.ret_andThen, FactoryOp.construct_andThen,
        FactoryOp.construct_ret, FactoryOp.op_andThen_assoc, FactoryOp.op_ret_andThen,
        FactoryOp.construct_ASSERT_andThen, FactoryOp.visit_andThen,
        FactoryOp.op_ret_apply] <;>
      exact ⟨_, _, ⟨rfl, rfl⟩, rfl⟩

end NoIds

/-! ### Ids of unary operations -/

/-- C38 (as stated, refuted): a `UnaryOperation` with the operator `NOT` built
when the counter is `kMaxInt - 2` has `MaterializeTrueId() = kMaxInt` and
`MaterializeFalseId() = kMinInt`, which is not `c + 3`, and leaves the counter
at `kMinInt + 1`, not at `c + 4`. -/
theorem UnaryOperation_ids_overflow_counterexample :
    Token.sample.NOT = 53 ∧ Token.sample.IsUnaryOp 53 = true ∧
    (UnaryOperation.new Token.sample 53 (some 1) 0
        { ast_node_id := 2147483645, empty_string := 0 }).map
      (fun r => (r.1.MaterializeTrueId, r.1.MaterializeFalseId, r.2.ast_node_id))
      = some (2147483647, -2147483648, -2147483647) ∧
    (-2147483648 : Int) ≠ 2147483645 + 3 ∧ (-2147483647 : Int) ≠ 2147483645 + 4 := by
  refine ⟨rfl, rfl, rfl, by decide, by decide⟩

/-- C38 (amended): for every `UnaryOperation` built with a unary operator `op`
when the counter is an `int` value `c` and the ids minted stay within the `int`
range: if `op == Token::NOT` (and `c + 4 <= kMaxInt`), `MaterializeTrueId() =
c + 2` and `MaterializeFalseId() = c + 3` are freshly minted and the counter
ends at `c + 4`; otherwise (and `c + 2 <= kMaxInt`) both equal `kNoNumber` and
the counter ends at `c + 2`; constructing it with an operator that is not a
unary operator fails the invariant check. -/
theorem UnaryOperation_materialize_ids {σ : Type} (T : Token) (V : Visitor σ)
    (visitor : σ) (op : Token.Value) (expression : Ptr) (pos : Int) (isolate : Isolate)
    (hc : IsInt isolate.ast_node_id) :
    (T.IsUnaryOp op = true → op = T.NOT → isolate.ast_node_id + 4 ≤ kMaxInt →
      ∃ u isolate', UnaryOperation.new T op expression pos isolate = some (u, isolate') ∧
        u.MaterializeTrueId = isolate.ast_node_id + 2 ∧
        u.MaterializeFalseId = isolate.ast_node_id + 3 ∧
        AstNode.mintedIds T (AstNode.UnaryOperation u)
          = [isolate.ast_node_id, isolate.ast_node_id + 1, isolate.ast_node_id + 2,
             isolate.ast_node_id + 3] ∧
        isolate'.ast_node_id = isolate.ast_node_id + 4) ∧
    (T.IsUnaryOp op = true → op ≠ T.NOT → isolate.ast_node_id + 2 ≤ kMaxInt →
      ∃ u isolate', UnaryOperation.new T op expression pos isolate = some (u, isolate') ∧
        u.MaterializeTrueId = AstNode.kNoNumber ∧
        u.MaterializeFalseId = AstNode.kNoNumber ∧
        AstNode.mintedIds T (AstNode.UnaryOperation u)
          = [isolate.ast_node_id, isolate.ast_node_id + 1] ∧
        isolate'.ast_node_id = isolate.ast_node_id + 2) ∧
    (T.IsUnaryOp op = false →
      UnaryOperation.new T op expression pos isolate = none ∧
      AstNodeFactory.NewUnaryOperation T V op expression pos
        { isolate_ := isolate, visitor_ := visitor } = none) := by
  have hw : ∀ k : Int, 0 ≤ k → isolate.ast_node_id + k ≤ kMaxInt →
      wrapInt (isolate.ast_node_id + k) = isolate.ast_node_id + k := by
    intro k hk hle
    apply wrapInt_of_isInt
    unfold IsInt kMinInt kMaxInt at *
    omega
  refine ⟨?_, ?_, ?_⟩
  · intro hu hop hfit
    have h1 := hw 1 (by decide) (by omega)
    have h2 := hw 2 (by decide) (by omega)
    have h3 := hw 3 (by decide) (by omega)
    have h4 := hw 4 (by decide) hfit
    subst hop
    simp [UnaryOperation.new, Expression.new, Build.bind_def, Build.pure_def,
      Build.andThen_assoc, Build.ret_andThen, Build.GetNextId_andThen,
      Build.ASSERT_andThen, Build.ret_apply, Build.ctor_ite_run, AstNode.GetNextId,
      AstNode.ReserveIdRange, intAdd, UnaryOperation.MaterializeTrueId,
      UnaryOperation.MaterializeFalseId, AstNode.mintedIds, wrapInt_wrapInt_add,
      Int.add_assoc, hu, h1, h2, h3, h4]
    exact ⟨_, _, ⟨rfl, rfl⟩, by simp⟩
  · intro hu hop hfit
    have h1 := hw 1 (by decide) (by omega)
    have h2 := hw 2 (by decide) hfit
    simp [UnaryOperation.new, Expression.new, Build.bind_def, Build.pure_def,
      Build.andThen_assoc, Build.ret_andThen, Build.GetNextId_andThen,
      Build.ASSERT_andThen, Build.ret_apply, Build.ctor_ite_run, AstNode.GetNextId,
      AstNode.ReserveIdRange, intAdd, UnaryOperation.MaterializeTrueId,
      UnaryOperation.MaterializeFalseId, AstNode.mintedIds, wrapInt_wrapInt_add,
      Int.add_assoc, hu, hop, h1, h2]
    exact ⟨_, _, ⟨rfl, rfl⟩, by simp [hop]⟩
  · intro hu
    simp [AstNodeFactory.NewUnaryOperation, AstNodeFactory.VISIT_AND_RETURN,
      UnaryOperation.new, Expression.new, Build.bind_def, Build.pure_def,
      Build.andThen_assoc, Build.ret_andThen, Build.GetNextId_andThen,
      Build.ASSERT_andThen, Build.ret_apply, FactoryOp.op_bind_def,
      FactoryOp.construct_andThen, FactoryOp.construct_GetNextId_andThen,
      FactoryOp.construct_ASSERT_andThen, FactoryOp.op_andThen_assoc, hu]

/-- C38 (amended), on `!x` (the operator 53 of the sample table) built from the
counter value 0, and on the binary-only operator 31, which fails the check. -/
theorem UnaryOperation_materialize_ids_witness :
    (∃ u isolate', UnaryOperation.new Token.sample 53 (some 1) 0
        { ast_node_id := 0, empty_string := 0 } = some (u, isolate') ∧
      u.MaterializeTrueId = 0 + 2 ∧ u.MaterializeFalseId = 0 + 3 ∧
      AstNode.mintedIds Token.sample (AstNode.UnaryOperation u) = [0, 0 + 1, 0 + 2, 0 + 3] ∧
      isolate'.ast_node_id = 0 + 4) ∧
    UnaryOperation.new Token.sample 31 (some 1) 0 { ast_node_id := 0, empty_string := 0 }
      = none :=
  ⟨(UnaryOperation_materialize_ids Token.sample AstNullVisitor () 53 (some 1) 0
      { ast_node_id := 0, empty_string := 0 } (by decide)).1 rfl rfl (by decide),
   ((UnaryOperation_materialize_ids Token.sample AstNullVisitor () 31 (some 1) 0
      { ast_node_id := 0, empty_string := 0 } (by decide)).2.2 rfl).1⟩

end V8
